import Mathlib

/-!
# Page migration (mm/migrate.c): a shallow embedding

The kernel state touched by `mm/migrate.c` is an explicit record (`World`).
The functions of the file that the properties are about become state-passing
Lean functions with the names they have in the source; a function with labels
is cut at its labels (`unmap_and_move_out` is the code of `unmap_and_move` from
the label `out`).  Kernel helpers from outside the file are small primitives on
`World`, and callbacks and services whose behaviour the file does not fix are
the fields of an environment record (`Env`), over which every theorem is
universally quantified.

C `int`s that carry error codes and counters are unbounded `Int`s (the
counters of the drivers are bounded by the number of invocations);
`unsigned long` values that can wrap are `Nat` reduced modulo `2 ^ 64`.  The
embedding is sequential: one thread runs the code, a blocking call returns
with what it waited for.  Events and records called ghost are bookkeeping
added to state the properties; the code never reads them.
-/

namespace Migrate

/-! ## Error codes and return values (from the kernel headers) -/

/-- Modelled from the spec: the errno constant `EIO` of the kernel headers (5), whose negation
    is the "generic I/O failure". -/
def EIO : Int := 5
/-- Modelled from the spec: the errno constant `EAGAIN` of the kernel headers (11); the outcome
    `Retry` is the value `-EAGAIN`. -/
def EAGAIN : Int := 11
/-- Modelled from the spec: the errno constant `ENOMEM` of the kernel headers (12); the outcome
    `OutOfMemory` is the value `-ENOMEM`. -/
def ENOMEM : Int := 12
/-- Modelled from the spec: the errno constant `EBUSY` of the kernel headers (16), a permanent
    failure once negated. -/
def EBUSY : Int := 16
/-- Modelled from the spec: the errno constant `EINVAL` of the kernel headers (22), a permanent
    failure once negated. -/
def EINVAL : Int := 22
/-- Modelled from the spec: the errno constant `ENOSYS` of the kernel headers (38), returned
    negated for an unsupported frame type. -/
def ENOSYS : Int := 38
/-- Modelled from the spec: the constant `MIGRATEPAGE_SUCCESS` of linux/migrate.h (0), the
    outcome `Success`. -/
def MIGRATEPAGE_SUCCESS : Int := 0
/-- Modelled from the spec: the constant `MIGRATEPAGE_BALLOON_SUCCESS` of linux/migrate.h (1),
    the outcome `BalloonSuccess`. -/
def MIGRATEPAGE_BALLOON_SUCCESS : Int := 1
/-- Modelled from the spec: the constant `SWAP_AGAIN` of linux/rmap.h (1), returned by a
    reverse-mapping callback to let the traversal go on. -/
def SWAP_AGAIN : Int := 1
/-- Modelled from the spec: the constant `AOP_WRITEPAGE_ACTIVATE` of linux/fs.h, the "special"
    return value of the writepage hook. -/
def AOP_WRITEPAGE_ACTIVATE : Int := 0x80000

/-- Modelled from the spec: the modes `Async | SyncLight | Sync` (`enum migrate_mode` of
    linux/migrate_mode.h). -/
inductive migrate_mode where
  | MIGRATE_ASYNC
  | MIGRATE_SYNC_LIGHT
  | MIGRATE_SYNC
  deriving DecidableEq, Repr

open migrate_mode

/-! ## Rate limiting of NUMA migration (`numamigrate_update_ratelimit`) -/

/-- Number of values of an `unsigned long`; the kernel of this repository is a 64-bit one. -/
def ULONG_SPAN : Nat := 2 ^ 64

/-- The value of an `unsigned long` read as a `long` (two's complement). -/
def to_long (x : Nat) : Int :=
  if x % ULONG_SPAN < 2 ^ 63 then ((x % ULONG_SPAN : Nat) : Int)
  else ((x % ULONG_SPAN : Nat) : Int) - (ULONG_SPAN : Int)

/-- Modelled from the spec: the macro `time_after(a, b)` of linux/jiffies.h, the test
    `(long)((b) - (a)) < 0` that tells whether the window elapsed, on wrapping jiffies. -/
def time_after (a b : Nat) : Bool :=
  decide (to_long ((b % ULONG_SPAN + (ULONG_SPAN - a % ULONG_SPAN)) % ULONG_SPAN) < 0)

/-- Modelled from the spec: the Partition state `{ window boundary, pages this window }`, the
    two rate-limit fields of `pg_data_t` (linux/mmzone.h). -/
structure pglist_data where
  numabalancing_migrate_nr_pages : Nat
  numabalancing_migrate_next_window : Nat
  deriving DecidableEq, Repr

/-- Static `ratelimit_pages = 128 << (20 - PAGE_SHIFT)`, for a given `PAGE_SHIFT`. -/
def ratelimit_pages (PAGE_SHIFT : Nat) : Nat := 128 * 2 ^ (20 - PAGE_SHIFT)

/-- Embedding of `numamigrate_update_ratelimit`.  `jiffies` is the clock value
    read by the call, `interval` is `msecs_to_jiffies(migrate_interval_millisecs)`
    and `limit` is `ratelimit_pages`.  Returns `rate_limited` and the updated
    node data. -/
def numamigrate_update_ratelimit (jiffies interval limit : Nat)
    (pgdat : pglist_data) (nr_pages : Nat) : Bool × pglist_data :=
  let pgdat1 : pglist_data :=
    if time_after jiffies pgdat.numabalancing_migrate_next_window then
      { numabalancing_migrate_nr_pages := 0,
        numabalancing_migrate_next_window := (jiffies + interval) % ULONG_SPAN }
    else pgdat
  if pgdat1.numabalancing_migrate_nr_pages > limit then
    (true, pgdat1)
  else
    (false, { pgdat1 with
      numabalancing_migrate_nr_pages :=
        (pgdat1.numabalancing_migrate_nr_pages + nr_pages) % ULONG_SPAN })

/-- One call of the rate limiter as seen by a caller: the clock value at the
    call and the number of pages asked for. -/
structure ratelimit_call where
  jiffies : Nat
  nr_pages : Nat
  deriving DecidableEq, Repr

/-- Runs a sequence of calls on one node and returns, for every call, the call
    together with its `rate_limited` answer, and the final node data. -/
def ratelimit_run (interval limit : Nat) :
    pglist_data → List ratelimit_call → List (ratelimit_call × Bool) × pglist_data
  | pgdat, [] => ([], pgdat)
  | pgdat, c :: cs =>
    let r := numamigrate_update_ratelimit c.jiffies interval limit pgdat c.nr_pages
    let rest := ratelimit_run interval limit r.2 cs
    ((c, r.1) :: rest.1, rest.2)

/-- Pages admitted (calls answered "not rate limited") whose clock value lies
    in the window `[t0, t0 + len)`. -/
def admitted_in_window (t0 len : Nat) : List (ratelimit_call × Bool) → Nat
  | [] => 0
  | (c, limited) :: rest =>
    (if !limited && decide (t0 ≤ c.jiffies) && decide (c.jiffies < t0 + len)
      then c.nr_pages else 0) + admitted_in_window t0 len rest

/-- Pages admitted by a sequence of answered calls, whatever their time. -/
def admitted_total : List (ratelimit_call × Bool) → Nat
  | [] => 0
  | (c, limited) :: rest => (if limited then 0 else c.nr_pages) + admitted_total rest

/-! ## Kernel objects -/

/-- Modelled from the spec: the cache membership of a Page Frame, the pointer
    stored in `page->mapping`: `NULL`, an address space, or an anon_vma tagged
    with `PAGE_MAPPING_ANON` (and `PAGE_MAPPING_KSM` for a merged page). -/
inductive mapping_ptr where
  | NULL
  | file (mapping : Nat)
  | anon (anon_vma : Nat)
  | ksm (stable_node : Nat)
  deriving DecidableEq, Repr

/-- Modelled from the spec: the Page Frame, with the fields and flag bits of
    `struct page` (linux/mm_types.h, linux/page-flags.h) that mm/migrate.c reads
    or writes.  `_mapcount` is biased as in the kernel (-1 means no mapping),
    `huge` and `trans_huge` are the answers of `PageHuge` and `PageTransHuge`,
    `zone` and `nid` those of `page_zone` and `page_to_nid`, and `data` stands
    for the content of the frame (the whole compound unit for a huge page). -/
structure page where
  _count : Int
  _mapcount : Int
  PG_locked : Bool
  PG_error : Bool
  PG_referenced : Bool
  PG_uptodate : Bool
  PG_dirty : Bool
  PG_lru : Bool
  PG_active : Bool
  PG_unevictable : Bool
  PG_checked : Bool
  PG_mappedtodisk : Bool
  PG_swapcache : Bool
  PG_swapbacked : Bool
  PG_private : Bool
  PG_private_2 : Bool
  PG_writeback : Bool
  PG_mlocked : Bool
  private_ : Nat
  mapping : mapping_ptr
  index : Nat
  zone : Nat
  nid : Nat
  huge : Bool
  trans_huge : Bool
  data : List Nat
  deriving DecidableEq, Repr

/-- Modelled from the spec: a block-level buffer, the lock bit and reference count of a
    `struct buffer_head` (linux/buffer_head.h). -/
structure buffer_head where
  b_count : Int
  BH_Lock : Bool
  deriving DecidableEq, Repr

/-- Modelled from the spec: a decoded swap entry (linux/swapops.h): a migration
    placeholder (with the write bit it recorded and the frame it names) or any
    other swap entry. -/
inductive swp_entry_t where
  | migration (write : Bool) (pg : Nat)
  | other (val : Nat)
  deriving DecidableEq, Repr

/-- Modelled from the spec: the permission bits of a leaf entry (`pgprot_t`), as far as they
    matter here. -/
structure pgprot_t where
  write : Bool
  young : Bool
  deriving DecidableEq, Repr

/-- Modelled from the spec: a leaf translation entry (`pte_t`): empty, a present
    translation of a frame, a non-linear file entry, or a swap entry. -/
inductive pte_t where
  | none
  | present (pg : Nat) (prot : pgprot_t) (hugepte : Bool)
  | file (off : Nat)
  | swap (entry : swp_entry_t)
  deriving DecidableEq, Repr

/-- Modelled from the spec: the intermediate-level entry above a leaf table, as found by
    `mm_find_pmd` and the read of `*pmd`. -/
inductive pmd_state where
  | absent
  | trans_huge
  | table
  deriving DecidableEq, Repr

/-- Modelled from the spec: a Virtual Mapping, the fields of `struct vm_area_struct` used by
    the remap callback. -/
structure vm_area_struct where
  vm_mm : Nat
  vm_page_prot : pgprot_t
  deriving DecidableEq, Repr

/-- Modelled from the spec: the partition-level page counters, the items of
    `enum zone_stat_item` (linux/mmzone.h) touched by the file. -/
inductive zone_stat_item where
  | NR_FILE_PAGES
  | NR_SHMEM
  | NR_ISOLATED_ANON
  | NR_ISOLATED_FILE
  | NR_MLOCK
  deriving DecidableEq, Repr

/-- Ghost events: calls whose occurrence some properties speak about.  They are
    appended to `World.trace` and never read by the code. -/
inductive Event where
  | get_new_page (pg : Nat) (newpage : Option Nat)
  | __unmap_and_move (pg newpage : Nat) (force : Bool)
  | trylock_page (pg : Nat) (ok : Bool)
  | lock_page (pg : Nat)
  | unlock_page (pg : Nat)
  | mem_cgroup_prepare_migration (pg newpage : Nat)
  | mem_cgroup_end_migration (pg newpage : Nat) (migration_ok : Bool)
  | wait_on_page_writeback (pg : Nat)
  | page_get_anon_vma (pg : Nat)
  | put_anon_vma (anon_vma : Nat)
  | try_to_unmap (pg : Nat)
  | move_to_new_page (newpage pg : Nat)
  | migrate_page_copy (newpage pg : Nat)
  | ksm_migrate_page (newpage pg : Nat)
  | remove_migration_ptes (old new : Nat)
  | hook_migratepage (newpage pg : Nat)
  | hook_writepage (pg : Nat)
  | hugetlb_cgroup_migrate (pg newpage : Nat)
  | balloon_page_migrate (newpage pg : Nat)
  | balloon_page_free (pg : Nat)
  | split_huge_page (pg : Nat)
  | try_to_free_buffers (pg : Nat)
  | try_to_release_page (pg : Nat)
  | putback_lru_page (pg : Nat)
  | put_page (pg : Nat)
  deriving DecidableEq, Repr

/-- The kernel state seen by mm/migrate.c.  Pointers are natural numbers:
    `mem` is indexed by frame, `page_tree` by address space and index,
    `buffers` by the head pointer of a ring of buffer heads (listed in
    traversal order starting at the head), `pmd` and `pte` by address space
    (`mm`) and address, `vmas` by the value of `page->mapping` and the index,
    `result` by status slot.  `from_` is the working list of `migrate_pages`
    (linked through `page->lru`).  `oops` is a ghost flag: it is raised when a
    `BUG()` or `BUG_ON()` of the file fires (the kernel thread is stopped
    there, so the values computed after it mean nothing), and `trace` is the
    ghost list of events. -/
structure World where
  mem : Nat → page
  from_ : List Nat
  page_tree : Nat → Nat → Option Nat
  vm_stat : Nat → zone_stat_item → Int
  buffers : Nat → List buffer_head
  pmd : Nat → Nat → pmd_state
  huge_pte : Nat → Nat → Bool
  pte : Nat → Nat → pte_t
  vmas : mapping_ptr → Nat → List (vm_area_struct × Nat)
  PF_MEMALLOC : Bool
  PF_SWAPWRITE : Bool
  PGMIGRATE_SUCCESS : Int
  PGMIGRATE_FAIL : Int
  result : Nat → Int
  oops : Bool
  trace : List Event

/-- Kernel services and callbacks that are not part of mm/migrate.c and whose
    behaviour the file does not fix.  Pure answers are functions of the state;
    services with side effects return the new state (the ghost trace is kept
    by the caller, see `protect`). -/
structure Env where
  /-- The destination factory `get_new_page(page, private, &result)`: the new
      frame (or `none` for `NULL`) and the status slot (or `none`). -/
  get_new_page : World → Nat → Nat → Option Nat × Option Nat
  /-- Helper `hugepage_migration_support(page_hstate(hpage))`. -/
  hugepage_migration_support : World → Nat → Bool
  /-- Helper `split_huge_page(page)`: zero on success. -/
  split_huge_page : World → Nat → Int × World
  /-- Helper `balloon_page_movable(page)`. -/
  balloon_page_movable : World → Nat → Bool
  /-- Helper `balloon_page_migrate(newpage, page, mode)`. -/
  balloon_page_migrate : World → Nat → Nat → migrate_mode → Int × World
  /-- Helper `page_get_anon_vma(page)`: the chain object or `none`. -/
  page_get_anon_vma : World → Nat → Option Nat
  /-- Helper `try_to_free_buffers(page)` (its result is ignored by the caller). -/
  try_to_free_buffers : World → Nat → World
  /-- Helper `try_to_release_page(page, GFP_KERNEL)`. -/
  try_to_release_page : World → Nat → Bool × World
  /-- The hook `mapping->a_ops->migratepage`, when the address space has one. -/
  migratepage : Nat → Option (World → Nat → Nat → migrate_mode → Int × World)
  /-- The hook `mapping->a_ops->writepage`, when the address space has one. -/
  writepage : Nat → Option (World → Nat → Int × World)
  /-- Whether `try_to_unmap` manages to unmap the frame from one mapping. -/
  try_to_unmap_one_ok : World → Nat → vm_area_struct → Nat → Bool
  /-- The address space of the swap cache, `swap_address_space(entry)`. -/
  swap_address_space : Nat → Nat

/-! ## Primitives on the state -/

/-- Point update of a map indexed by natural numbers. -/
def upd {α : Type} (f : Nat → α) (i : Nat) (v : α) : Nat → α :=
  fun j => if j = i then v else f j

/-- Replaces the descriptor of frame `pg`. -/
def World.set_page (w : World) (pg : Nat) (p : page) : World :=
  { w with mem := upd w.mem pg p }

/-- Appends a ghost event. -/
def World.log (w : World) (e : Event) : World :=
  { w with trace := w.trace ++ [e] }

/-- The state after an environment service ran from `w` and produced `w1`: the
    ghost trace is the one of `w`, extended by the event of the call. -/
def protect (w w1 : World) (e : Event) : World :=
  { w1 with trace := w.trace ++ [e] }

/-- Modelled from the spec: the kernel helper `page_count(page)`, the live reference count. -/
def page_count (w : World) (pg : Nat) : Int := (w.mem pg)._count

/-- Modelled from the spec: the kernel helper `get_page(page)`. -/
def get_page (w : World) (pg : Nat) : World :=
  w.set_page pg { w.mem pg with _count := (w.mem pg)._count + 1 }

/-- Modelled from the spec: the kernel helper `put_page(page)`: drops one reference. -/
def put_page (w : World) (pg : Nat) : World :=
  (w.set_page pg { w.mem pg with _count := (w.mem pg)._count - 1 }).log (Event.put_page pg)

/-- Modelled from the spec: the kernel helper `page_has_private(page)`: 1 when
    `PG_private` or `PG_private_2` is set, else 0. -/
def page_has_private (w : World) (pg : Nat) : Int :=
  if (w.mem pg).PG_private || (w.mem pg).PG_private_2 then 1 else 0

/-- Modelled from the spec: the kernel helper `PageAnon(page)`: the anon bit of `page->mapping`. -/
def PageAnon (w : World) (pg : Nat) : Bool :=
  match (w.mem pg).mapping with
  | mapping_ptr.anon _ => true
  | mapping_ptr.ksm _ => true
  | _ => false

/-- Modelled from the spec: the kernel helper `PageKsm(page)`. -/
def PageKsm (w : World) (pg : Nat) : Bool :=
  match (w.mem pg).mapping with
  | mapping_ptr.ksm _ => true
  | _ => false

/-- Modelled from the spec: the kernel helper `page_mapped(page)`: `_mapcount >=
    0` (the field is biased by -1). -/
def page_mapped (w : World) (pg : Nat) : Bool := decide (0 ≤ (w.mem pg)._mapcount)

/-- Modelled from the spec: the kernel helper `page_mapping(page)`: the swap
    address space for a swap-cache page, `NULL` for an anonymous page, else
    `page->mapping`. -/
def page_mapping (E : Env) (w : World) (pg : Nat) : Option Nat :=
  if (w.mem pg).PG_swapcache then some (E.swap_address_space (w.mem pg).private_)
  else match (w.mem pg).mapping with
    | mapping_ptr.file m => some m
    | _ => none

/-- Modelled from the spec: the kernel helper `page_index(page)`: `page_private`
    for a swap-cache page, else `page->index`. -/
def page_index (w : World) (pg : Nat) : Nat :=
  if (w.mem pg).PG_swapcache then (w.mem pg).private_ else (w.mem pg).index

/-- Modelled from the spec: the kernel helper `page_is_file_cache(page)`:
    `!PageSwapBacked(page)`. -/
def page_is_file_cache (w : World) (pg : Nat) : Bool := !(w.mem pg).PG_swapbacked

/-- Modelled from the spec: the kernel helper `trylock_page(page)`: takes the lock
    bit when it is clear. -/
def trylock_page (w : World) (pg : Nat) : Bool × World :=
  if (w.mem pg).PG_locked then (false, w.log (Event.trylock_page pg false))
  else (true, (w.set_page pg { w.mem pg with PG_locked := true }).log
    (Event.trylock_page pg true))

/-- Modelled from the spec: the kernel helper `lock_page(page)`: sleeps until the
    lock bit can be taken; when it returns, the caller holds the lock. -/
def lock_page (w : World) (pg : Nat) : World :=
  (w.set_page pg { w.mem pg with PG_locked := true }).log (Event.lock_page pg)

/-- Modelled from the spec: the kernel helper `unlock_page(page)`. -/
def unlock_page (w : World) (pg : Nat) : World :=
  (w.set_page pg { w.mem pg with PG_locked := false }).log (Event.unlock_page pg)

/-- Modelled from the spec: the kernel helper `wait_on_page_writeback(page)`:
    sleeps until writeback is over. -/
def wait_on_page_writeback (w : World) (pg : Nat) : World :=
  (w.set_page pg { w.mem pg with PG_writeback := false }).log
    (Event.wait_on_page_writeback pg)

/-- Modelled from the spec: the update of a partition-level counter (`mod_zone_page_state` of
    linux/vmstat.h): adds `d` to item `item` of zone `zone`. -/
def mod_zone_stat (w : World) (zone : Nat) (item : zone_stat_item) (d : Int) : World :=
  let row : zone_stat_item → Int :=
    fun i => if i = item then w.vm_stat zone i + d else w.vm_stat zone i
  { w with vm_stat := upd w.vm_stat zone row }

/-- Modelled from the spec: the kernel helper `dec_zone_page_state(page, item)`. -/
def dec_zone_page_state (w : World) (pg : Nat) (item : zone_stat_item) : World :=
  mod_zone_stat w (w.mem pg).zone item (-1)

/-- Modelled from the spec: the kernel helper `inc_zone_page_state(page, item)`. -/
def inc_zone_page_state (w : World) (pg : Nat) (item : zone_stat_item) : World :=
  mod_zone_stat w (w.mem pg).zone item 1

/-- The item `NR_ISOLATED_ANON + page_is_file_cache(page)` computed at the putback sites. -/
def isolated_item (w : World) (pg : Nat) : zone_stat_item :=
  if page_is_file_cache w pg then zone_stat_item.NR_ISOLATED_FILE
  else zone_stat_item.NR_ISOLATED_ANON

/-- Modelled from the spec: the kernel helper `list_del(&page->lru)` on the working list. -/
def list_del (w : World) (pg : Nat) : World :=
  { w with from_ := w.from_.erase pg }

/-- Modelled from the spec: the reclaim-list collaborator `putback(frame)`
    (`putback_lru_page`, mm/vmscan.c) returns the frame to its reclaim list and
    drops the reference the isolating caller held on it. -/
def putback_lru_page (w : World) (pg : Nat) : World :=
  (w.set_page pg { w.mem pg with PG_lru := true, _count := (w.mem pg)._count - 1 }).log
    (Event.putback_lru_page pg)

/-- Modelled from the spec: the kernel helper `page_freeze_refs(page, count)`:
    compare-and-swap of the reference count from `count` to 0. -/
def page_freeze_refs (w : World) (pg : Nat) (count : Int) : Bool × World :=
  if (w.mem pg)._count = count then (true, w.set_page pg { w.mem pg with _count := 0 })
  else (false, w)

/-- Modelled from the spec: the kernel helper `page_unfreeze_refs(page, count)`: stores `count`. -/
def page_unfreeze_refs (w : World) (pg : Nat) (count : Int) : World :=
  w.set_page pg { w.mem pg with _count := count }

/-- Applies `f` to the descriptor of frame `pg`. -/
def modify_page (w : World) (pg : Nat) (f : page → page) : World :=
  w.set_page pg (f (w.mem pg))

/-- Modelled from the spec: the kernel macros `BUG()` and `BUG_ON(c)`; the ghost flag records
    that one fired. -/
def BUG_ON (w : World) (c : Bool) : World :=
  if c then { w with oops := true } else w

/-! ## Placeholder entries: `remove_migration_pte`, `remove_migration_ptes` -/

/-- Modelled from the spec: "add correct reverse-mapping linkage" when a
    placeholder is resolved (`hugepage_add_anon_rmap`, `page_dup_rmap`,
    `page_add_anon_rmap`, `page_add_file_rmap` of mm/rmap.c): the frame gains
    one mapping. -/
def page_add_rmap (w : World) (pg : Nat) : World :=
  modify_page w pg (fun p => { p with _mapcount := p._mapcount + 1 })

/-- Modelled from the spec: the kernel helper `set_pte_at(mm, addr, ptep, pte)`. -/
def set_pte_at (w : World) (mm addr : Nat) (e : pte_t) : World :=
  { w with pte := upd w.pte mm (upd (w.pte mm) addr e) }

/-- Embedding of `remove_migration_pte(new, vma, addr, old)`. -/
def remove_migration_pte (w : World) (new : Nat) (vma : vm_area_struct) (addr : Nat)
    (old : Nat) : Int × World :=
  let mm := vma.vm_mm
  -- `huge_pte_offset` for a huge page, else `mm_find_pmd` and `pmd_trans_huge`
  let ptep_found : Bool :=
    if (w.mem new).huge then w.huge_pte mm addr
    else match w.pmd mm addr with
      | pmd_state.absent => false
      | pmd_state.trans_huge => false
      | pmd_state.table => true
  if !ptep_found then (SWAP_AGAIN, w)
  else
    match w.pte mm addr with
    | pte_t.swap (swp_entry_t.migration write pg) =>
      if pg ≠ old then (SWAP_AGAIN, w)
      else
        let w1 := get_page w new
        -- `pte_mkold(mk_pte(new, vma->vm_page_prot))`
        let prot0 : pgprot_t := { vma.vm_page_prot with young := false }
        -- `if (is_write_migration_entry(entry)) pte = pte_mkwrite(pte)`
        let prot1 : pgprot_t := if write then { prot0 with write := true } else prot0
        -- `if (PageHuge(new)) pte = pte_mkhuge(pte)`
        let w2 := set_pte_at w1 mm addr (pte_t.present new prot1 (w1.mem new).huge)
        (SWAP_AGAIN, page_add_rmap w2 new)
    | _ => (SWAP_AGAIN, w)

/-- Modelled from the spec: the loop of `rmap_walk` over the mappings of a frame: the callback is
    called once per mapping until it returns something else than `SWAP_AGAIN`. -/
def rmap_walk_list (fn : World → vm_area_struct → Nat → Int × World) :
    List (vm_area_struct × Nat) → World → World
  | [], w => w
  | (vma, addr) :: rest, w =>
    let r := fn w vma addr
    if r.1 ≠ SWAP_AGAIN then r.2 else rmap_walk_list fn rest r.2

/-- Modelled from the spec: the reverse-mapping traversal `rmap_walk(page, fn,
    arg)` of mm/rmap.c visits every mapping that may hold the frame, found
    through `page->mapping` and `page->index`; a frame without mapping has
    none. -/
def rmap_walk (w : World) (pg : Nat)
    (fn : World → vm_area_struct → Nat → Int × World) : World :=
  match (w.mem pg).mapping with
  | mapping_ptr.NULL => w
  | m => rmap_walk_list fn (w.vmas m (w.mem pg).index) w

/-- Embedding of `remove_migration_ptes(old, new)`. -/
def remove_migration_ptes (w : World) (old new : Nat) : World :=
  rmap_walk (w.log (Event.remove_migration_ptes old new)) new
    (fun w1 vma addr => remove_migration_pte w1 new vma addr old)

/-- Modelled from the spec: unmapping one mapping installs "a placeholder entry
    at each present leaf translation, preserving the original write-permission
    bit"; the mapping and the reference it held on the frame go away
    (`try_to_unmap_one` of mm/rmap.c). -/
def try_to_unmap_one (E : Env) (pg : Nat) (w : World) (vma : vm_area_struct)
    (addr : Nat) : World :=
  if E.try_to_unmap_one_ok w pg vma addr then
    match w.pte vma.vm_mm addr with
    | pte_t.present p prot _ =>
      if p = pg then
        let w1 := set_pte_at w vma.vm_mm addr
          (pte_t.swap (swp_entry_t.migration prot.write pg))
        modify_page w1 pg (fun q => { q with _mapcount := q._mapcount - 1,
                                             _count := q._count - 1 })
      else w
    | _ => w
  else w

/-- Modelled from the spec: `try_to_unmap(page, TTU_MIGRATION | ...)` of
    mm/rmap.c, the reverse-mapping traversal that unmaps the frame from every
    mapping. -/
def try_to_unmap (E : Env) (w : World) (pg : Nat) : World :=
  rmap_walk (w.log (Event.try_to_unmap pg)) pg
    (fun w1 vma addr => (SWAP_AGAIN, try_to_unmap_one E pg w1 vma addr))

/-! ## Buffer locking: `buffer_migrate_lock_buffers` -/

/-- Modelled from the spec: the kernel helper `get_bh(bh)`. -/
def get_bh (bh : buffer_head) : buffer_head := { bh with b_count := bh.b_count + 1 }

/-- Modelled from the spec: the kernel helper `put_bh(bh)`. -/
def put_bh (bh : buffer_head) : buffer_head := { bh with b_count := bh.b_count - 1 }

/-- Modelled from the spec: the kernel helper `lock_buffer(bh)`: sleeps until the
    buffer lock is taken. -/
def lock_buffer (bh : buffer_head) : buffer_head := { bh with BH_Lock := true }

/-- Modelled from the spec: the kernel helper `unlock_buffer(bh)`. -/
def unlock_buffer (bh : buffer_head) : buffer_head := { bh with BH_Lock := false }

/-- Modelled from the spec: the kernel helper `trylock_buffer(bh)`: takes the
    buffer lock when it is free. -/
def trylock_buffer (bh : buffer_head) : Bool × buffer_head :=
  if bh.BH_Lock then (false, bh) else (true, { bh with BH_Lock := true })

/-- The second loop of `buffer_migrate_lock_buffers` (the `MIGRATE_ASYNC`
    case).  `done` holds the buffers from `head` up to the current one, already
    referenced and locked; the second list holds the current buffer and the
    rest of the ring.  On a failed trylock the reference on the failed buffer
    is dropped and the inner `while (bh != failed_bh)` loop unlocks and
    releases the buffers of `done`. -/
def buffer_trylock_loop (done : List buffer_head) :
    List buffer_head → Bool × List buffer_head
  | [] => (true, done)
  | bh :: rest =>
    let bh1 := get_bh bh
    let r := trylock_buffer bh1
    if !r.1 then
      let failed_bh := put_bh r.2
      (false, done.map (fun b => put_bh (unlock_buffer b)) ++ failed_bh :: rest)
    else buffer_trylock_loop (done ++ [r.2]) rest

/-- Embedding of `buffer_migrate_lock_buffers(head, mode)` on the ring of the
    buffer heads reachable from `head` (in traversal order, `head` first). -/
def buffer_migrate_lock_buffers (ring : List buffer_head) (mode : migrate_mode) :
    Bool × List buffer_head :=
  if mode ≠ MIGRATE_ASYNC then
    (true, ring.map (fun bh => lock_buffer (get_bh bh)))
  else buffer_trylock_loop [] ring

/-! ## Cache-slot relocation: `migrate_page_move_mapping` -/

/-- Modelled from the spec: the kernel helper `radix_tree_replace_slot(pslot,
    item)` on the slot of `index` in the tree of `mapping`. -/
def radix_tree_replace_slot (w : World) (mapping index : Nat) (item : Nat) : World :=
  { w with page_tree := upd w.page_tree mapping (upd (w.page_tree mapping) index (some item)) }

/-- The part of `migrate_page_move_mapping` that runs once the reference count
    is frozen and the buffers are locked: from `get_page(newpage)` to the
    update of the per-zone counters.  `slot` is the slot found by
    `radix_tree_lookup_slot` at the start of the function. -/
def migrate_page_move_mapping_commit (w : World) (m slot : Nat) (newpage pg : Nat)
    (expected_count : Int) : World :=
  let w2 := get_page w newpage
  let w3 :=
    if (w2.mem pg).PG_swapcache then
      modify_page w2 newpage (fun p =>
        { p with PG_swapcache := true, private_ := (w2.mem pg).private_ })
    else w2
  let w4 := radix_tree_replace_slot w3 m slot newpage
  let w5 := page_unfreeze_refs w4 pg (expected_count - 1)
  let w6 := dec_zone_page_state w5 pg zone_stat_item.NR_FILE_PAGES
  let w7 := inc_zone_page_state w6 newpage zone_stat_item.NR_FILE_PAGES
  if !(w7.mem pg).PG_swapcache && (w7.mem pg).PG_swapbacked then
    inc_zone_page_state (dec_zone_page_state w7 pg zone_stat_item.NR_SHMEM)
      newpage zone_stat_item.NR_SHMEM
  else w7

/-- The test `mode == MIGRATE_ASYNC && head &&
    !buffer_migrate_lock_buffers(head, mode)` of `migrate_page_move_mapping`:
    its value and the state after it (the buffers are only touched when the
    first two conjuncts hold). -/
def migrate_page_move_mapping_lock (w : World) (head : Option Nat) (mode : migrate_mode) :
    Bool × World :=
  match head with
  | none => (false, w)
  | some h =>
    if mode = MIGRATE_ASYNC then
      let b := buffer_migrate_lock_buffers (w.buffers h) mode
      (!b.1, { w with buffers := upd w.buffers h b.2 })
    else (false, w)

/-- Embedding of `migrate_page_move_mapping(mapping, newpage, page, head, mode)`.
    `mapping` is `none` for `NULL`, `head` is `none` for `NULL`.  A slot that
    does not hold the frame (or does not exist) fails the test on the slot. -/
def migrate_page_move_mapping (w : World) (mapping : Option Nat) (newpage pg : Nat)
    (head : Option Nat) (mode : migrate_mode) : Int × World :=
  match mapping with
  | none =>
    if page_count w pg ≠ 1 then (- EAGAIN, w) else (MIGRATEPAGE_SUCCESS, w)
  | some m =>
    let slot := page_index w pg
    let expected_count : Int := 2 + page_has_private w pg
    if page_count w pg ≠ expected_count ∨ w.page_tree m slot ≠ some pg then
      (- EAGAIN, w)
    else
      let fr := page_freeze_refs w pg expected_count
      if !fr.1 then (- EAGAIN, fr.2)
      else
        let lk := migrate_page_move_mapping_lock fr.2 head mode
        if lk.1 then (- EAGAIN, page_unfreeze_refs lk.2 pg expected_count)
        else
          (MIGRATEPAGE_SUCCESS,
            migrate_page_move_mapping_commit lk.2 m slot newpage pg expected_count)

/-! ## Content and metadata copy: `migrate_page_copy`, `migrate_page` -/

/-- Modelled from the spec: `mlock_migrate_page(newpage, page)` of
    mm/internal.h "transfers the pinned in physical memory hint": the mlocked
    bit moves from the source to the destination with its per-zone counter. -/
def mlock_migrate_page (w : World) (newpage pg : Nat) : World :=
  if (w.mem pg).PG_mlocked then
    let w1 := modify_page w pg (fun p => { p with PG_mlocked := false })
    let w2 := dec_zone_page_state w1 pg zone_stat_item.NR_MLOCK
    let w3 := modify_page w2 newpage (fun p => { p with PG_mlocked := true })
    inc_zone_page_state w3 newpage zone_stat_item.NR_MLOCK
  else w

/-- Embedding of `migrate_page_copy(newpage, page)`.  The content copy
    (`copy_huge_page` or `copy_highpage`) copies `data`; the debug assertion
    `VM_BUG_ON(PageUnevictable(page))` is not modelled. -/
def migrate_page_copy (w : World) (newpage pg : Nat) : World :=
  let w := w.log (Event.migrate_page_copy newpage pg)
  let w := modify_page w newpage (fun p => { p with data := (w.mem pg).data })
  let w := if (w.mem pg).PG_error then
      modify_page w newpage (fun p => { p with PG_error := true }) else w
  let w := if (w.mem pg).PG_referenced then
      modify_page w newpage (fun p => { p with PG_referenced := true }) else w
  let w := if (w.mem pg).PG_uptodate then
      modify_page w newpage (fun p => { p with PG_uptodate := true }) else w
  let w :=
    if (w.mem pg).PG_active then
      modify_page (modify_page w pg (fun p => { p with PG_active := false }))
        newpage (fun p => { p with PG_active := true })
    else if (w.mem pg).PG_unevictable then
      modify_page (modify_page w pg (fun p => { p with PG_unevictable := false }))
        newpage (fun p => { p with PG_unevictable := true })
    else w
  let w := if (w.mem pg).PG_checked then
      modify_page w newpage (fun p => { p with PG_checked := true }) else w
  let w := if (w.mem pg).PG_mappedtodisk then
      modify_page w newpage (fun p => { p with PG_mappedtodisk := true }) else w
  let w :=
    if (w.mem pg).PG_dirty then
      -- `clear_page_dirty_for_io(page)`, then `SetPageDirty(newpage)` or
      -- `__set_page_dirty_nobuffers(newpage)`: both set the dirty bit
      modify_page (modify_page w pg (fun p => { p with PG_dirty := false }))
        newpage (fun p => { p with PG_dirty := true })
    else w
  let w := mlock_migrate_page w newpage pg
  let w := w.log (Event.ksm_migrate_page newpage pg)
  let w := modify_page w pg (fun p => { p with PG_swapcache := false })
  let w := modify_page w pg (fun p => { p with PG_private := false })
  let w := modify_page w pg (fun p => { p with private_ := 0 })
  if (w.mem newpage).PG_writeback then
    modify_page w newpage (fun p => { p with PG_writeback := false })
  else w

/-- Embedding of `migrate_page(mapping, newpage, page, mode)`. -/
def migrate_page (w : World) (mapping : Option Nat) (newpage pg : Nat)
    (mode : migrate_mode) : Int × World :=
  let w := BUG_ON w (w.mem pg).PG_writeback
  let r := migrate_page_move_mapping w mapping newpage pg none mode
  if r.1 ≠ MIGRATEPAGE_SUCCESS then r
  else (MIGRATEPAGE_SUCCESS, migrate_page_copy r.2 newpage pg)

/-! ## Relocation: `writeout`, `fallback_migrate_page`, `move_to_new_page` -/

/-- Embedding of `writeout(mapping, page)`.  `clear_page_dirty_for_io` is the
    test-and-clear of the dirty bit. -/
def writeout (E : Env) (w : World) (mapping : Nat) (pg : Nat) : Int × World :=
  match E.writepage mapping with
  | none => (- EINVAL, w)
  | some hook =>
    if !(w.mem pg).PG_dirty then (- EAGAIN, w)
    else
      let w1 := modify_page w pg (fun p => { p with PG_dirty := false })
      let w2 := remove_migration_ptes w1 pg pg
      let r := hook w2 pg
      let w3 := protect w2 r.2 (Event.hook_writepage pg)
      let w4 := if r.1 ≠ AOP_WRITEPAGE_ACTIVATE then lock_page w3 pg else w3
      (if r.1 < 0 then - EIO else - EAGAIN, w4)

/-- Embedding of `fallback_migrate_page(mapping, newpage, page, mode)`. -/
def fallback_migrate_page (E : Env) (w : World) (mapping : Nat) (newpage pg : Nat)
    (mode : migrate_mode) : Int × World :=
  if (w.mem pg).PG_dirty then
    if mode ≠ MIGRATE_SYNC then (- EBUSY, w)
    else writeout E w mapping pg
  else
    -- `page_has_private(page) && !try_to_release_page(page, GFP_KERNEL)`
    let rel : Bool × World :=
      if page_has_private w pg ≠ 0 then
        let r := E.try_to_release_page w pg
        (!r.1, protect w r.2 (Event.try_to_release_page pg))
      else (false, w)
    if rel.1 then (- EAGAIN, rel.2)
    else migrate_page rel.2 (some mapping) newpage pg mode

/-- The start of `move_to_new_page`, up to the choice of the relocation
    function: the destination is locked (`BUG()` if it cannot be) and takes the
    index, the mapping and the swap-backed bit of the source. -/
def move_to_new_page_prepare (w : World) (newpage pg : Nat) : World :=
  let t := trylock_page w newpage
  let w := BUG_ON t.2 (!t.1)
  let w := modify_page w newpage (fun p => { p with index := (w.mem pg).index })
  let w := modify_page w newpage (fun p => { p with mapping := (w.mem pg).mapping })
  if (w.mem pg).PG_swapbacked then
    modify_page w newpage (fun p => { p with PG_swapbacked := true })
  else w

/-- The end of `move_to_new_page`, after the relocation function returned `rc`. -/
def move_to_new_page_finish (w : World) (newpage pg : Nat) (remap_swapcache : Bool)
    (rc : Int) : World :=
  let w1 :=
    if rc ≠ MIGRATEPAGE_SUCCESS then
      modify_page w newpage (fun p => { p with mapping := mapping_ptr.NULL })
    else
      let w2 := if remap_swapcache then remove_migration_ptes w pg newpage else w
      modify_page w2 pg (fun p => { p with mapping := mapping_ptr.NULL })
  unlock_page w1 newpage

/-- Embedding of `move_to_new_page(newpage, page, remap_swapcache, mode)`. -/
def move_to_new_page (E : Env) (w : World) (newpage pg : Nat) (remap_swapcache : Bool)
    (mode : migrate_mode) : Int × World :=
  let w := move_to_new_page_prepare (w.log (Event.move_to_new_page newpage pg)) newpage pg
  let r : Int × World :=
    match page_mapping E w pg with
    | none => migrate_page w none newpage pg mode
    | some m =>
      match E.migratepage m with
      | some hook =>
        let h := hook w newpage pg mode
        (h.1, protect w h.2 (Event.hook_migratepage newpage pg))
      | none => fallback_migrate_page E w m newpage pg mode
  (r.1, move_to_new_page_finish r.2 newpage pg remap_swapcache r.1)

/-! ## The single-page state machine: `__unmap_and_move`, `unmap_and_move` -/

/-- The tail of `__unmap_and_move` from the label `uncharge`. -/
def unmap_and_move_uncharge (w : World) (pg newpage : Nat) (rc : Int) : Int × World :=
  let w1 := w.log (Event.mem_cgroup_end_migration pg newpage
    (decide (rc = MIGRATEPAGE_SUCCESS ∨ rc = MIGRATEPAGE_BALLOON_SUCCESS)))
  (rc, unlock_page w1 pg)

/-- The part of `__unmap_and_move` from the label `skip_unmap` to the label
    `uncharge`. -/
def unmap_and_move_skip_unmap (E : Env) (w : World) (pg newpage : Nat)
    (remap_swapcache : Bool) (anon_vma : Option Nat) (mode : migrate_mode) :
    Int × World :=
  let r : Int × World :=
    if !page_mapped w pg then move_to_new_page E w newpage pg remap_swapcache mode
    else (- EAGAIN, w)
  let w1 := if r.1 ≠ 0 ∧ remap_swapcache then remove_migration_ptes r.2 pg pg else r.2
  let w2 := match anon_vma with
    | some a => w1.log (Event.put_anon_vma a)
    | none => w1
  unmap_and_move_uncharge w2 pg newpage r.1

/-- Embedding of `__unmap_and_move(page, newpage, force, mode)`.  The two
    memory-cgroup calls are hooks without effect on the state of the file; they
    are recorded in the ghost trace. -/
def __unmap_and_move (E : Env) (w : World) (pg newpage : Nat) (force : Bool)
    (mode : migrate_mode) : Int × World :=
  let w := w.log (Event.__unmap_and_move pg newpage force)
  let t := trylock_page w pg
  if !t.1 && (!force || mode = MIGRATE_ASYNC) then (- EAGAIN, t.2)
  else if !t.1 && t.2.PF_MEMALLOC then (- EAGAIN, t.2)
  else
    let w := if !t.1 then lock_page t.2 pg else t.2
    let w := w.log (Event.mem_cgroup_prepare_migration pg newpage)
    if (w.mem pg).PG_writeback && mode ≠ MIGRATE_SYNC then
      unmap_and_move_uncharge w pg newpage (- EBUSY)
    else if (w.mem pg).PG_writeback && !force then
      unmap_and_move_uncharge w pg newpage (- EAGAIN)
    else
      let w := if (w.mem pg).PG_writeback then wait_on_page_writeback w pg else w
      -- `if (PageAnon(page) && !PageKsm(page))`: the chain object, the value
      -- of `remap_swapcache`, and whether control goes to `uncharge`
      let a : Option Nat × Bool × Bool × World :=
        if PageAnon w pg && !PageKsm w pg then
          let w1 := w.log (Event.page_get_anon_vma pg)
          match E.page_get_anon_vma w pg with
          | some av => (some av, true, false, w1)
          | none =>
            if (w.mem pg).PG_swapcache then (none, false, false, w1)
            else (none, true, true, w1)
        else (none, true, false, w)
      let anon_vma := a.1
      let remap_swapcache := a.2.1
      let w := a.2.2.2
      if a.2.2.1 then unmap_and_move_uncharge w pg newpage (- EAGAIN)
      else if E.balloon_page_movable w pg then
        let b := E.balloon_page_migrate w newpage pg mode
        unmap_and_move_uncharge (protect w b.2 (Event.balloon_page_migrate newpage pg))
          pg newpage b.1
      else if (w.mem pg).mapping = mapping_ptr.NULL then
        if page_has_private w pg ≠ 0 then
          let w1 := protect w (E.try_to_free_buffers w pg) (Event.try_to_free_buffers pg)
          unmap_and_move_uncharge w1 pg newpage (- EAGAIN)
        else unmap_and_move_skip_unmap E w pg newpage remap_swapcache anon_vma mode
      else
        let w1 := try_to_unmap E w pg
        unmap_and_move_skip_unmap E w1 pg newpage remap_swapcache anon_vma mode

/-- The common end of the two single-page entry points:
    `if (result) { if (rc) *result = rc; else *result = page_to_nid(newpage); }`. -/
def store_result (w : World) (result : Option Nat) (rc : Int) (newpage : Nat) : World :=
  match result with
  | some slot =>
    if rc ≠ 0 then { w with result := upd w.result slot rc }
    else { w with result := upd w.result slot ((w.mem newpage).nid : Int) }
  | none => w

/-- The tail of `unmap_and_move` from the label `out`.  `result` is the status
    slot filled by the factory, if any. -/
def unmap_and_move_out (w : World) (pg newpage : Nat) (result : Option Nat) (rc : Int) :
    Int × World :=
  let w1 :=
    if rc ≠ - EAGAIN then
      let v := list_del w pg
      let v := dec_zone_page_state v pg (isolated_item v pg)
      putback_lru_page v pg
    else w
  let w2 := putback_lru_page w1 newpage
  (rc, store_result w2 result rc newpage)

/-- Embedding of `unmap_and_move(get_new_page, private, page, force, mode)`.
    The balloon wrap-up `balloon_page_free` is outside the file and only
    recorded in the ghost trace. -/
def unmap_and_move (E : Env) (private_ : Nat) (w : World) (pg : Nat) (force : Bool)
    (mode : migrate_mode) : Int × World :=
  let g := E.get_new_page w pg private_
  let w := w.log (Event.get_new_page pg g.1)
  match g.1 with
  | none => (- ENOMEM, w)
  | some newpage =>
    if page_count w pg = 1 then unmap_and_move_out w pg newpage g.2 0
    else
      -- `if (PageTransHuge(page)) if (split_huge_page(page)) goto out;`
      let s : Bool × World :=
        if (w.mem pg).trans_huge then
          let r := E.split_huge_page w pg
          (decide (r.1 ≠ 0), protect w r.2 (Event.split_huge_page pg))
        else (false, w)
      if s.1 then unmap_and_move_out s.2 pg newpage g.2 0
      else
        let r := __unmap_and_move E s.2 pg newpage force mode
        if r.1 = MIGRATEPAGE_BALLOON_SUCCESS then
          let w1 := dec_zone_page_state r.2 pg (isolated_item r.2 pg)
          (MIGRATEPAGE_SUCCESS, w1.log (Event.balloon_page_free pg))
        else unmap_and_move_out r.2 pg newpage g.2 r.1

/-- Embedding of `unmap_and_move_huge_page(get_new_page, private, hpage, force,
    mode)`. -/
def unmap_and_move_huge_page (E : Env) (private_ : Nat) (w : World) (hpage : Nat)
    (force : Bool) (mode : migrate_mode) : Int × World :=
  let g := E.get_new_page w hpage private_
  let w := w.log (Event.get_new_page hpage g.1)
  if !E.hugepage_migration_support w hpage then (- ENOSYS, w)
  else
    match g.1 with
    | none => (- ENOMEM, w)
    | some new_hpage =>
      let t := trylock_page w hpage
      -- the body between the lock and the label `out`
      let r : Int × World :=
        if !t.1 && (!force || mode ≠ MIGRATE_SYNC) then (- EAGAIN, t.2)
        else
          let w := if !t.1 then lock_page t.2 hpage else t.2
          let a : Option Nat × World :=
            if PageAnon w hpage then
              (E.page_get_anon_vma w hpage, w.log (Event.page_get_anon_vma hpage))
            else (none, w)
          let w := try_to_unmap E a.2 hpage
          let m : Int × World :=
            if !page_mapped w hpage then move_to_new_page E w new_hpage hpage true mode
            else (- EAGAIN, w)
          let w := if m.1 ≠ 0 then remove_migration_ptes m.2 hpage hpage else m.2
          let w := match a.1 with
            | some av => w.log (Event.put_anon_vma av)
            | none => w
          let w := if m.1 = 0 then w.log (Event.hugetlb_cgroup_migrate hpage new_hpage)
            else w
          (m.1, unlock_page w hpage)
      let w := put_page r.2 new_hpage
      (r.1, store_result w g.2 r.1 new_hpage)

/-! ## The batch driver: `migrate_pages`, `migrate_huge_page` -/

/-- Ghost record of one invocation of the single-page function by a driver:
    the pass, the frame, the `force` argument, the value returned, and the
    state just before the call. -/
structure visit where
  pass : Nat
  pg : Nat
  force : Bool
  rc : Int
  before : World

/-- The local variables of `migrate_pages` together with the state; `visits`
    and `passes` (the number of passes started) are ghost. -/
structure mp_state where
  retry : Int
  nr_failed : Int
  nr_succeeded : Int
  w : World
  visits : List visit
  passes : Nat

/-- The body of `list_for_each_entry_safe(page, page2, from, lru)` in pass
    `pass`, over the frames that were on the working list when the pass
    started (the safe iterator allows the current frame to be unlinked).
    The Boolean is true when the loop was left through `goto out`. -/
def migrate_pages_list (E : Env) (private_ : Nat) (mode : migrate_mode) (pass : Nat) :
    List Nat → mp_state → Bool × mp_state
  | [], s => (false, s)
  | pg :: rest, s =>
    let r := unmap_and_move E private_ s.w pg (decide (pass > 2)) mode
    let s1 : mp_state := { s with
      w := r.2,
      visits := s.visits ++ [{ pass := pass, pg := pg, force := decide (pass > 2),
                               rc := r.1, before := s.w }] }
    if r.1 = - ENOMEM then (true, s1)
    else if r.1 = - EAGAIN then
      migrate_pages_list E private_ mode pass rest { s1 with retry := s1.retry + 1 }
    else if r.1 = MIGRATEPAGE_SUCCESS then
      migrate_pages_list E private_ mode pass rest
        { s1 with nr_succeeded := s1.nr_succeeded + 1 }
    else
      migrate_pages_list E private_ mode pass rest { s1 with nr_failed := s1.nr_failed + 1 }

/-- The loop `for (pass = 0; pass < 10 && retry; pass++)` of `migrate_pages`,
    entered with the value `pass`; `fuel` bounds the number of iterations still
    allowed (10 is enough since `pass < 10` is tested).  The Boolean is true
    when the loop was left through `goto out`. -/
def migrate_pages_loop (E : Env) (private_ : Nat) (mode : migrate_mode) :
    Nat → Nat → mp_state → Bool × mp_state
  | 0, _, s => (false, s)
  | fuel + 1, pass, s =>
    if pass < 10 ∧ s.retry ≠ 0 then
      let r := migrate_pages_list E private_ mode pass s.w.from_
        { s with retry := 0, passes := s.passes + 1 }
      if r.1 then (true, r.2)
      else migrate_pages_loop E private_ mode fuel (pass + 1) r.2
    else (false, s)

/-- What `migrate_pages` leaves behind: the value returned, the local counters,
    the final state and the ghost records. -/
structure mp_result where
  rc : Int
  nr_failed : Int
  nr_succeeded : Int
  w : World
  visits : List visit
  passes : Nat

/-- Embedding of `migrate_pages(from, get_new_page, private, mode, reason)`; the
    working list `from` is `w.from_`.  The trace points are not modelled. -/
def migrate_pages (E : Env) (private_ : Nat) (mode : migrate_mode) (w : World) :
    mp_result :=
  let swapwrite := w.PF_SWAPWRITE
  let w0 : World := if !swapwrite then { w with PF_SWAPWRITE := true } else w
  let l := migrate_pages_loop E private_ mode 10 0
    { retry := 1, nr_failed := 0, nr_succeeded := 0, w := w0, visits := [], passes := 0 }
  let s := l.2
  -- `rc = nr_failed + retry` unless the loop was left with `rc == -ENOMEM`
  let rc : Int := if l.1 then - ENOMEM else s.nr_failed + s.retry
  let w1 : World :=
    if s.nr_succeeded ≠ 0 then
      { s.w with PGMIGRATE_SUCCESS := s.w.PGMIGRATE_SUCCESS + s.nr_succeeded }
    else s.w
  let w2 : World :=
    if s.nr_failed ≠ 0 then { w1 with PGMIGRATE_FAIL := w1.PGMIGRATE_FAIL + s.nr_failed }
    else w1
  let w3 : World := if !swapwrite then { w2 with PF_SWAPWRITE := false } else w2
  { rc := rc, nr_failed := s.nr_failed, nr_succeeded := s.nr_succeeded, w := w3,
    visits := s.visits, passes := s.passes }

/-- The loop `for (pass = 0; pass < 10; pass++)` of `migrate_huge_page`, entered
    with the value `pass` and the value `rc` of the previous iteration.  Returns
    the value of `rc` at the label `out`, the state and the ghost records. -/
def migrate_huge_page_loop (E : Env) (private_ : Nat) (hpage : Nat) (mode : migrate_mode) :
    Nat → Nat → Int → World → List visit → Int × World × List visit
  | 0, _, rc, w, vs => (rc, w, vs)
  | fuel + 1, pass, rc, w, vs =>
    if pass < 10 then
      let r := unmap_and_move_huge_page E private_ w hpage (decide (pass > 2)) mode
      let vs1 := vs ++ [{ pass := pass, pg := hpage, force := decide (pass > 2),
                          rc := r.1, before := w }]
      if r.1 = - ENOMEM then (r.1, r.2, vs1)
      else if r.1 = - EAGAIN then
        migrate_huge_page_loop E private_ hpage mode fuel (pass + 1) r.1 r.2 vs1
      else if r.1 = MIGRATEPAGE_SUCCESS then (r.1, r.2, vs1)
      else (- EIO, r.2, vs1)
    else (rc, w, vs)

/-- Embedding of `migrate_huge_page(hpage, get_new_page, private, mode)`.  The
    local `rc` has no initial value in the source; it is assigned before it is
    read because the loop body runs at least once. -/
def migrate_huge_page (E : Env) (private_ : Nat) (mode : migrate_mode) (w : World)
    (hpage : Nat) : Int × World × List visit :=
  migrate_huge_page_loop E private_ hpage mode 10 0 0 w []

/-! ## Vocabulary of the properties -/

/-- The invocation returned Retry (`-EAGAIN`). -/
def is_retry (v : visit) : Bool := decide (v.rc = - EAGAIN)

/-- The invocation returned OutOfMemory (`-ENOMEM`). -/
def is_oom (v : visit) : Bool := decide (v.rc = - ENOMEM)

/-- The invocation returned Success (`MIGRATEPAGE_SUCCESS`). -/
def is_success (v : visit) : Bool := decide (v.rc = MIGRATEPAGE_SUCCESS)

/-- The invocation returned neither Success, Retry nor OutOfMemory. -/
def is_permanent_failure (v : visit) : Bool := !is_retry v && !is_oom v && !is_success v

/-- Number of invocations whose outcome was a permanent failure. -/
def permanent_failures (vs : List visit) : Nat := vs.countP is_permanent_failure

/-- Number of invocations that returned Success. -/
def successes (vs : List visit) : Nat := vs.countP is_success

/-- Number of Retry outcomes among the invocations of pass `p`. -/
def retries_in_pass (p : Nat) (vs : List visit) : Nat :=
  vs.countP (fun v => decide (v.pass = p) && is_retry v)

/-- Number of OutOfMemory outcomes among the invocations of pass `p`. -/
def ooms_in_pass (p : Nat) (vs : List visit) : Nat :=
  vs.countP (fun v => decide (v.pass = p) && is_oom v)

/-- What one pass over a list of frames does to the local variables of
    `migrate_pages`: the invocations `new` are appended to the ghost record,
    each is counted once, and a pass left through `goto out` stops right after
    the invocation that returned `-ENOMEM`. -/
structure pass_effect (E : Env) (private_ : Nat) (mode : migrate_mode) (pass : Nat)
    (s : mp_state) (r : Bool × mp_state) (new : List visit) : Prop where
  visits_eq : r.2.visits = s.visits ++ new
  passes_eq : r.2.passes = s.passes
  pass_eq : ∀ v ∈ new, v.pass = pass ∧ v.force = decide (pass > 2)
  logged : ∀ v ∈ new, v.rc = (unmap_and_move E private_ v.before v.pg v.force mode).1
  retry_eq : r.2.retry = s.retry + (new.countP is_retry : Nat)
  failed_eq : r.2.nr_failed = s.nr_failed + (new.countP is_permanent_failure : Nat)
  succeeded_eq : r.2.nr_succeeded = s.nr_succeeded + (new.countP is_success : Nat)
  aborted : r.1 = true → ∃ init last, new = init ++ [last] ∧ last.rc = - ENOMEM ∧
    (∀ v ∈ init, v.rc ≠ - ENOMEM) ∧
    r.2.w = (unmap_and_move E private_ last.before last.pg last.force mode).2
  completed : r.1 = false → ∀ v ∈ new, v.rc ≠ - ENOMEM

/-- The invariant of the pass loop of `migrate_pages` at the loop test, with
    `pass` the value of the loop variable. -/
structure loop_inv (E : Env) (private_ : Nat) (mode : migrate_mode) (pass : Nat)
    (s : mp_state) : Prop where
  passes_eq : s.passes = pass
  visits_pass : ∀ v ∈ s.visits, v.pass < pass ∧ v.force = decide (v.pass > 2)
  logged : ∀ v ∈ s.visits, v.rc = (unmap_and_move E private_ v.before v.pg v.force mode).1
  no_oom : ∀ v ∈ s.visits, v.rc ≠ - ENOMEM
  failed_eq : s.nr_failed = (permanent_failures s.visits : Nat)
  succeeded_eq : s.nr_succeeded = (successes s.visits : Nat)
  retry_first : pass = 0 → s.retry = 1
  retry_eq : pass ≠ 0 → s.retry = (retries_in_pass (pass - 1) s.visits : Nat)
  good : ∀ q, q + 1 < pass → 0 < retries_in_pass q s.visits

/-- What holds when the pass loop of `migrate_pages` is left; the Boolean of `r`
    tells whether it was left through `goto out`. -/
structure loop_post (E : Env) (private_ : Nat) (mode : migrate_mode)
    (r : Bool × mp_state) : Prop where
  passes_pos : 1 ≤ r.2.passes
  passes_le : r.2.passes ≤ 10
  visits_pass : ∀ v ∈ r.2.visits, v.pass < r.2.passes ∧ v.force = decide (v.pass > 2)
  logged : ∀ v ∈ r.2.visits,
    v.rc = (unmap_and_move E private_ v.before v.pg v.force mode).1
  failed_eq : r.2.nr_failed = (permanent_failures r.2.visits : Nat)
  succeeded_eq : r.2.nr_succeeded = (successes r.2.visits : Nat)
  retry_eq : r.1 = false → r.2.retry = (retries_in_pass (r.2.passes - 1) r.2.visits : Nat)
  completed : r.1 = false → ∀ v ∈ r.2.visits, v.rc ≠ - ENOMEM
  aborted : r.1 = true → ∃ init last, r.2.visits = init ++ [last] ∧ last.rc = - ENOMEM ∧
    (∀ v ∈ init, v.rc ≠ - ENOMEM) ∧ last.pass + 1 = r.2.passes ∧
    r.2.w = (unmap_and_move E private_ last.before last.pg last.force mode).2
  executed : ∀ p, p < r.2.passes ↔
    (p < 10 ∧ ∀ q, q < p → 0 < retries_in_pass q r.2.visits ∧ ooms_in_pass q r.2.visits = 0)

/-! ## A concrete machine state for the examples -/

/-- A frame descriptor with every counter at zero, every bit clear and no
    mapping (`_mapcount` is biased: -1 means no mapping). -/
def blank_page : page :=
  { _count := 0, _mapcount := -1, PG_locked := false, PG_error := false,
    PG_referenced := false, PG_uptodate := false, PG_dirty := false, PG_lru := false,
    PG_active := false, PG_unevictable := false, PG_checked := false,
    PG_mappedtodisk := false, PG_swapcache := false, PG_swapbacked := false,
    PG_private := false, PG_private_2 := false, PG_writeback := false,
    PG_mlocked := false, private_ := 0, mapping := mapping_ptr.NULL, index := 0,
    zone := 0, nid := 0, huge := false, trans_huge := false, data := [] }

/-- The frames of the example.  Frame 0 is an anonymous frame mapped once and
    isolated; frame 1 is a clean page-cache frame of address space 3 at index
    9; frame 2 is an isolated anonymous frame; frame 3 is locked by another
    thread; frame 4 is under writeback; frame 5 is an anonymous frame that is neither
    mapped nor in the swap cache and whose only reference is the one of the
    isolation; frame 6 is a dirty page-cache frame of
    address space 3 at index 10.  Frames 100 and above are free frames in zone
    1, each holding one reference. -/
def demo_mem (pg : Nat) : page :=
  match pg with
  | 0 =>
    { blank_page with
      _count := 2, _mapcount := 0, PG_uptodate := true,
      PG_swapbacked := true, PG_active := true, mapping := mapping_ptr.anon 7,
      index := 5, data := [1, 2, 3] }
  | 1 =>
    { blank_page with
      _count := 2, PG_uptodate := true, PG_referenced := true,
      mapping := mapping_ptr.file 3, index := 9, data := [4, 5] }
  | 2 =>
    { blank_page with
      _count := 2, _mapcount := 0, PG_swapbacked := true,
      mapping := mapping_ptr.anon 8, index := 6, data := [6] }
  | 3 =>
    { blank_page with
      _count := 2, _mapcount := 0, PG_locked := true,
      PG_swapbacked := true, mapping := mapping_ptr.anon 8, index := 7, data := [7] }
  | 4 =>
    { blank_page with
      _count := 2, PG_writeback := true,
      mapping := mapping_ptr.file 3, index := 11, data := [8] }
  | 5 =>
    { blank_page with
      _count := 1, PG_swapbacked := true, mapping := mapping_ptr.anon 9, index := 8,
      data := [9, 9] }
  | 6 =>
    { blank_page with
      _count := 2, PG_dirty := true, PG_uptodate := true,
      mapping := mapping_ptr.file 3, index := 10, data := [10] }
  | _ =>
    { blank_page with
      _count := 1, zone := 1, nid := 1 }

/-- The example state with working list `l`: frame 0 is mapped writable at
    address 4096 of address space 1; address space 3 holds frames 1, 6 and 4 at
    indices 9, 10 and 11. -/
def demo_world (l : List Nat) : World :=
  { mem := demo_mem,
    from_ := l,
    page_tree := fun m i =>
      if m = 3 ∧ i = 9 then some 1 else if m = 3 ∧ i = 10 then some 6
      else if m = 3 ∧ i = 11 then some 4 else none,
    vm_stat := fun _ _ => 10,
    buffers := fun _ => [],
    pmd := fun _ _ => pmd_state.table,
    huge_pte := fun _ _ => false,
    pte := fun mm addr =>
      if mm = 1 ∧ addr = 4096 then pte_t.present 0 { write := true, young := true } false
      else pte_t.none,
    vmas := fun m i =>
      if m = mapping_ptr.anon 7 ∧ i = 5 then
        [({ vm_mm := 1, vm_page_prot := { write := false, young := true } }, 4096)]
      else [],
    PF_MEMALLOC := false,
    PF_SWAPWRITE := false,
    PGMIGRATE_SUCCESS := 0,
    PGMIGRATE_FAIL := 0,
    result := fun _ => 0,
    oops := false,
    trace := [] }

/-- The example environment: the factory hands out frame `pg + 100` for frame
    `pg`, except for frame 2, for which it returns `NULL`; address spaces have
    no hooks; nothing is a balloon page; huge pages are not supported. -/
def demo_env : Env :=
  { get_new_page := fun _ pg _ => if pg = 2 then (none, none) else (some (pg + 100), some pg),
    hugepage_migration_support := fun _ _ => false,
    split_huge_page := fun w _ => (0, w),
    balloon_page_movable := fun _ _ => false,
    balloon_page_migrate := fun w _ _ _ => (0, w),
    page_get_anon_vma := fun w pg =>
      match (w.mem pg).mapping with
      | mapping_ptr.anon a => if 0 ≤ (w.mem pg)._mapcount then some a else none
      | _ => none,
    try_to_free_buffers := fun w _ => w,
    try_to_release_page := fun w _ => (true, w),
    migratepage := fun _ => none,
    writepage := fun _ => none,
    try_to_unmap_one_ok := fun _ _ _ _ => true,
    swap_address_space := fun _ => 0 }

/-- The state `w1` differs from `w` at most in the descriptor of frame `n`,
    whose reference count is unchanged, and in the ghost fields. -/
structure only_touches (n : Nat) (w w1 : World) : Prop where
  mem_other : ∀ q, q ≠ n → w1.mem q = w.mem q
  count_eq : (w1.mem n)._count = (w.mem n)._count
  from_eq : w1.from_ = w.from_
  page_tree_eq : w1.page_tree = w.page_tree
  vm_stat_eq : w1.vm_stat = w.vm_stat
  buffers_eq : w1.buffers = w.buffers
  pmd_eq : w1.pmd = w.pmd
  huge_pte_eq : w1.huge_pte = w.huge_pte
  pte_eq : w1.pte = w.pte
  vmas_eq : w1.vmas = w.vmas
  result_eq : w1.result = w.result

/-- What holds of the value `r.1` returned by `migrate_huge_page` and of the
    ghost record `r.2.2` of its attempts. -/
structure huge_post (E : Env) (private_ : Nat) (mode : migrate_mode) (hpage : Nat)
    (r : Int × World × List visit) : Prop where
  length_le : r.2.2.length ≤ 10
  attempt : ∀ i v, r.2.2[i]? = some v → v.pass = i ∧ v.pg = hpage ∧ (v.force = true ↔ i > 2) ∧
    v.rc = (unmap_and_move_huge_page E private_ v.before hpage v.force mode).1
  earlier_retry : ∀ i v, r.2.2[i]? = some v → i + 1 < r.2.2.length → v.rc = - EAGAIN
  success : (∃ v ∈ r.2.2, v.rc = MIGRATEPAGE_SUCCESS) → r.1 = MIGRATEPAGE_SUCCESS
  oom : (∃ v ∈ r.2.2, v.rc = - ENOMEM) → r.1 = - ENOMEM
  other : (∃ v ∈ r.2.2, v.rc ≠ MIGRATEPAGE_SUCCESS ∧ v.rc ≠ - EAGAIN ∧ v.rc ≠ - ENOMEM) →
    r.1 = - EIO
  retry_iff : r.1 = - EAGAIN ↔ (r.2.2.length = 10 ∧ ∀ v ∈ r.2.2, v.rc = - EAGAIN)

/-- The state `w1` has the descriptor of frame `q` that `w` has, and `q` is on
    the working list of `w1` if it is on that of `w`. -/
def keeps (q : Nat) (w w1 : World) : Prop :=
  w1.mem q = w.mem q ∧ (q ∈ w.from_ → q ∈ w1.from_)

/-- The services of the environment that change the state leave alone the
    descriptors of the frames they are not called for, and leave those frames
    on the working list. -/
structure env_local (E : Env) : Prop where
  split_huge_page : ∀ w pg q, q ≠ pg → keeps q w (E.split_huge_page w pg).2
  balloon_page_migrate : ∀ w newpage pg mode q, q ≠ pg → q ≠ newpage →
    keeps q w (E.balloon_page_migrate w newpage pg mode).2
  try_to_free_buffers : ∀ w pg q, q ≠ pg → keeps q w (E.try_to_free_buffers w pg)
  try_to_release_page : ∀ w pg q, q ≠ pg → keeps q w (E.try_to_release_page w pg).2
  migratepage : ∀ m hook, E.migratepage m = some hook → ∀ w newpage pg mode q, q ≠ pg →
    q ≠ newpage → keeps q w (hook w newpage pg mode).2
  writepage : ∀ m hook, E.writepage m = some hook → ∀ w pg q, q ≠ pg →
    keeps q w (hook w pg).2

/-- The invocations `vs` were made one after the other from the state `w0`:
    each starts from the state its predecessor left, and the last leaves `w`. -/
def visits_from (E : Env) (private_ : Nat) (mode : migrate_mode) :
    World → List visit → World → Prop
  | w0, [], w => w = w0
  | w0, v :: vs, w =>
    v.before = w0 ∧
      visits_from E private_ mode (unmap_and_move E private_ v.before v.pg v.force mode).2 vs w

/-- Whether the ghost event records an entry into `__unmap_and_move` for frame
    `q`. -/
def is_entry (q : Nat) : Event → Bool
  | Event.__unmap_and_move pg _ _ => decide (pg = q)
  | _ => false

/-- The trace of `w` is the trace of `w0` followed by events none of which is
    an entry into `__unmap_and_move` for frame `q`. -/
def not_entered (q : Nat) (w0 w : World) : Prop :=
  ∃ l : List Event, w.trace = w0.trace ++ l ∧ ∀ e ∈ l, is_entry q e = false

/-! ## More example states -/

/-- A source frame with every flag that `migrate_page_copy` looks at set, except
    the unevictable bit: a swap-cache frame with private state 42. -/
def flagged_page : page :=
  { blank_page with
    _count := 2, PG_error := true, PG_referenced := true, PG_uptodate := true,
    PG_active := true, PG_checked := true, PG_mappedtodisk := true, PG_dirty := true,
    PG_swapcache := true, PG_swapbacked := true, PG_private := true, private_ := 42,
    PG_mlocked := true, data := [11, 12] }

/-- The example state in which frame 7 is `flagged_page` and frame 8, a fresh
    frame, is under writeback. -/
def flagged_world : World :=
  { demo_world [] with
    mem := upd (upd demo_mem 7 flagged_page) 8 { blank_page with _count := 1, PG_writeback := true } }

/-- The part of `__unmap_and_move` that follows the handling of writeback: from
    the test `PageAnon(page) && !PageKsm(page)` to the end of the function. -/
def unmap_and_move_anon (E : Env) (w : World) (pg newpage : Nat) (mode : migrate_mode) :
    Int × World :=
  let a : Option Nat × Bool × Bool × World :=
    if PageAnon w pg && !PageKsm w pg then
      let w1 := w.log (Event.page_get_anon_vma pg)
      match E.page_get_anon_vma w pg with
      | some av => (some av, true, false, w1)
      | none =>
        if (w.mem pg).PG_swapcache then (none, false, false, w1)
        else (none, true, true, w1)
    else (none, true, false, w)
  let anon_vma := a.1
  let remap_swapcache := a.2.1
  let w := a.2.2.2
  if a.2.2.1 then unmap_and_move_uncharge w pg newpage (- EAGAIN)
  else if E.balloon_page_movable w pg then
    let b := E.balloon_page_migrate w newpage pg mode
    unmap_and_move_uncharge (protect w b.2 (Event.balloon_page_migrate newpage pg))
      pg newpage b.1
  else if (w.mem pg).mapping = mapping_ptr.NULL then
    if page_has_private w pg ≠ 0 then
      let w1 := protect w (E.try_to_free_buffers w pg) (Event.try_to_free_buffers pg)
      unmap_and_move_uncharge w1 pg newpage (- EAGAIN)
    else unmap_and_move_skip_unmap E w pg newpage remap_swapcache anon_vma mode
  else
    let w1 := try_to_unmap E w pg
    unmap_and_move_skip_unmap E w1 pg newpage remap_swapcache anon_vma mode

/-- The part of `__unmap_and_move` that runs with the lock of the frame held
    and the memory-cgroup charge prepared: from the test `PageWriteback(page)`
    to the end of the function. -/
def unmap_and_move_held (E : Env) (w : World) (pg newpage : Nat) (force : Bool)
    (mode : migrate_mode) : Int × World :=
  if (w.mem pg).PG_writeback && mode ≠ MIGRATE_SYNC then
    unmap_and_move_uncharge w pg newpage (- EBUSY)
  else if (w.mem pg).PG_writeback && !force then
    unmap_and_move_uncharge w pg newpage (- EAGAIN)
  else
    unmap_and_move_anon E
      (if (w.mem pg).PG_writeback then wait_on_page_writeback w pg else w) pg newpage mode

/-- The state in which `__unmap_and_move` holds the lock of the frame and has
    prepared the memory-cgroup charge: the lock was taken by `trylock_page`, or
    by `lock_page` when `trylock_page` failed. -/
def unmap_and_move_lock_held (w : World) (pg newpage : Nat) (force : Bool) : World :=
  let w := w.log (Event.__unmap_and_move pg newpage force)
  let t := trylock_page w pg
  (if !t.1 then lock_page t.2 pg else t.2).log (Event.mem_cgroup_prepare_migration pg newpage)

/-- A mapping of address space 1 whose protection `vm_page_prot` grants write
    access (a shared writable mapping). -/
def writable_vma : vm_area_struct :=
  { vm_mm := 1, vm_page_prot := { write := true, young := true } }

/-- The example state in which the entry at address 4096 of address space 1 is
    a migration placeholder for frame 0 that recorded no write permission:
    frame 0 is locked by the caller, mapped nowhere any more, and has the
    reference of the caller only. -/
def placeholder_world : World :=
  { demo_world [] with
    mem := upd demo_mem 0 { demo_mem 0 with _count := 1, _mapcount := -1, PG_locked := true },
    pte := fun mm addr =>
      if mm = 1 ∧ addr = 4096 then pte_t.swap (swp_entry_t.migration false 0) else pte_t.none }

/-- A mapping of address space 1 whose protection `vm_page_prot` grants no
    write access (a private mapping). -/
def private_vma : vm_area_struct :=
  { vm_mm := 1, vm_page_prot := { write := false, young := true } }

/-- The example state with one more frame: frame 9 is a huge anonymous frame,
    mapped nowhere, with the reference of the caller and one more. -/
def huge_world : World :=
  { demo_world [] with
    mem := upd demo_mem 9
      { blank_page with _count := 2, huge := true, PG_swapbacked := true,
                        mapping := mapping_ptr.anon 9, data := [13] } }

/-- The example environment on a machine that can migrate huge pages. -/
def huge_env : Env :=
  { demo_env with hugepage_migration_support := fun _ _ => true }

/-- The attempts `vs` of `migrate_huge_page` on the frame `hpage` were made one
    after the other from the state `w0`: each starts from the state its
    predecessor left, and the last leaves `w`. -/
def huge_visits_from (E : Env) (private_ : Nat) (mode : migrate_mode) (hpage : Nat) :
    World → List visit → World → Prop
  | w0, [], w => w = w0
  | w0, v :: vs, w =>
    v.before = w0 ∧
      huge_visits_from E private_ mode hpage
        (unmap_and_move_huge_page E private_ v.before hpage v.force mode).2 vs w

/-- An example environment with a single spare frame and a `writepage` hook:
    the factory hands out frame 106 as long as that frame is not on the LRU,
    and returns `NULL` once it is; every address space has a `writepage` hook,
    which returns 0. -/
def revisit_env : Env :=
  { demo_env with
    get_new_page := fun w _ _ => if (w.mem 106).PG_lru then (none, none) else (some 106, none),
    writepage := fun _ => some (fun w _ => (0, w)) }

/-! ## The batch driver: lemmas -/

theorem visit_kinds_oom (v : visit) (h : v.rc = - ENOMEM) :
    is_retry v = false ∧ is_success v = false ∧ is_permanent_failure v = false ∧
      is_oom v = true := by
  simp [is_retry, is_success, is_permanent_failure, is_oom, h, ENOMEM, EAGAIN,
    MIGRATEPAGE_SUCCESS]

theorem visit_kinds_retry (v : visit) (h : v.rc = - EAGAIN) :
    is_retry v = true ∧ is_success v = false ∧ is_permanent_failure v = false ∧
      is_oom v = false := by
  simp [is_retry, is_success, is_permanent_failure, is_oom, h, ENOMEM, EAGAIN,
    MIGRATEPAGE_SUCCESS]

theorem visit_kinds_success (v : visit) (h : v.rc = MIGRATEPAGE_SUCCESS) :
    is_retry v = false ∧ is_success v = true ∧ is_permanent_failure v = false ∧
      is_oom v = false := by
  simp [is_retry, is_success, is_permanent_failure, is_oom, h, ENOMEM, EAGAIN,
    MIGRATEPAGE_SUCCESS]

theorem visit_kinds_other (v : visit) (h1 : v.rc ≠ - ENOMEM) (h2 : v.rc ≠ - EAGAIN)
    (h3 : v.rc ≠ MIGRATEPAGE_SUCCESS) :
    is_retry v = false ∧ is_success v = false ∧ is_permanent_failure v = true ∧
      is_oom v = false := by
  simp [is_retry, is_success, is_permanent_failure, is_oom, h1, h2, h3]

/-- Extending a pass by one more invocation in front. -/
theorem pass_effect_cons (E : Env) (private_ : Nat) (mode : migrate_mode) (pass : Nat)
    (s s1 : mp_state) (r : Bool × mp_state) (v : visit) (new : List visit)
    (hv : v.pass = pass ∧ v.force = decide (pass > 2))
    (hlog : v.rc = (unmap_and_move E private_ v.before v.pg v.force mode).1)
    (hoom : v.rc ≠ - ENOMEM)
    (hvis : s1.visits = s.visits ++ [v]) (hpass : s1.passes = s.passes)
    (hretry : s1.retry = s.retry + (if is_retry v then 1 else 0))
    (hfailed : s1.nr_failed = s.nr_failed + (if is_permanent_failure v then 1 else 0))
    (hsucc : s1.nr_succeeded = s.nr_succeeded + (if is_success v then 1 else 0))
    (h : pass_effect E private_ mode pass s1 r new) :
    pass_effect E private_ mode pass s r (v :: new) := by
  refine ⟨?_, ?_, ?_, ?_, ?_, ?_, ?_, ?_, ?_⟩
  · rw [h.visits_eq, hvis]; simp
  · rw [h.passes_eq, hpass]
  · intro u hu
    rcases List.mem_cons.1 hu with rfl | hu
    · exact hv
    · exact h.pass_eq u hu
  · intro u hu
    rcases List.mem_cons.1 hu with rfl | hu
    · exact hlog
    · exact h.logged u hu
  · rw [h.retry_eq, hretry, List.countP_cons]; push_cast; split <;> simp_all; ring
  · rw [h.failed_eq, hfailed, List.countP_cons]; push_cast; split <;> simp_all; ring
  · rw [h.succeeded_eq, hsucc, List.countP_cons]; push_cast; split <;> simp_all; ring
  · intro hab
    obtain ⟨init, last, hnew, hlast, hinit, hw⟩ := h.aborted hab
    refine ⟨v :: init, last, by simp [hnew], hlast, ?_, hw⟩
    intro u hu
    rcases List.mem_cons.1 hu with rfl | hu
    · exact hoom
    · exact hinit u hu
  · intro hab u hu
    rcases List.mem_cons.1 hu with rfl | hu
    · exact hoom
    · exact h.completed hab u hu

/-- Unfolding of the body of one pass at a non-empty list. -/
theorem migrate_pages_list_cons (E : Env) (private_ : Nat) (mode : migrate_mode)
    (pass : Nat) (pg : Nat) (rest : List Nat) (s : mp_state) :
    migrate_pages_list E private_ mode pass (pg :: rest) s =
      if (unmap_and_move E private_ s.w pg (decide (pass > 2)) mode).1 = - ENOMEM then
        (true, { s with
          w := (unmap_and_move E private_ s.w pg (decide (pass > 2)) mode).2,
          visits := s.visits ++ [visit.mk pass pg (decide (pass > 2))
            (unmap_and_move E private_ s.w pg (decide (pass > 2)) mode).1 s.w] })
      else if (unmap_and_move E private_ s.w pg (decide (pass > 2)) mode).1 = - EAGAIN then
        migrate_pages_list E private_ mode pass rest { s with
          w := (unmap_and_move E private_ s.w pg (decide (pass > 2)) mode).2,
          visits := s.visits ++ [visit.mk pass pg (decide (pass > 2))
            (unmap_and_move E private_ s.w pg (decide (pass > 2)) mode).1 s.w],
          retry := s.retry + 1 }
      else if (unmap_and_move E private_ s.w pg (decide (pass > 2)) mode).1 =
          MIGRATEPAGE_SUCCESS then
        migrate_pages_list E private_ mode pass rest { s with
          w := (unmap_and_move E private_ s.w pg (decide (pass > 2)) mode).2,
          visits := s.visits ++ [visit.mk pass pg (decide (pass > 2))
            (unmap_and_move E private_ s.w pg (decide (pass > 2)) mode).1 s.w],
          nr_succeeded := s.nr_succeeded + 1 }
      else
        migrate_pages_list E private_ mode pass rest { s with
          w := (unmap_and_move E private_ s.w pg (decide (pass > 2)) mode).2,
          visits := s.visits ++ [visit.mk pass pg (decide (pass > 2))
            (unmap_and_move E private_ s.w pg (decide (pass > 2)) mode).1 s.w],
          nr_failed := s.nr_failed + 1 } := rfl

/-- The effect of the body of one pass of `migrate_pages` on any list of frames. -/
theorem migrate_pages_list_effect (E : Env) (private_ : Nat) (mode : migrate_mode)
    (pass : Nat) (l : List Nat) (s : mp_state) :
    ∃ new, pass_effect E private_ mode pass s
      (migrate_pages_list E private_ mode pass l s) new ∧ new.length ≤ l.length := by
  induction l generalizing s with
  | nil =>
    refine ⟨[], ⟨?_, ?_, ?_, ?_, ?_, ?_, ?_, ?_, ?_⟩, by simp⟩ <;>
      simp [migrate_pages_list]
  | cons pg rest ih =>
    have hv : ∃ v : visit, v = visit.mk pass pg (decide (pass > 2))
      (unmap_and_move E private_ s.w pg (decide (pass > 2)) mode).1 s.w := ⟨_, rfl⟩
    obtain ⟨v, hvdef⟩ := hv
    have hvp : v.pass = pass ∧ v.force = decide (pass > 2) := by simp [hvdef]
    have hvl : v.rc = (unmap_and_move E private_ v.before v.pg v.force mode).1 := by
      simp [hvdef]
    have hvrc : (unmap_and_move E private_ s.w pg (decide (pass > 2)) mode).1 = v.rc := by
      simp [hvdef]
    rw [migrate_pages_list_cons, ← hvdef, hvrc]
    by_cases h1 : v.rc = - ENOMEM
    · rw [if_pos h1]
      have hk := visit_kinds_oom v h1
      refine ⟨[v], ⟨?_, ?_, ?_, ?_, ?_, ?_, ?_, ?_, ?_⟩, by simp⟩
      · simp
      · simp
      · simpa using hvp
      · simpa using hvl
      · simp [hk]
      · simp [hk]
      · simp [hk]
      · intro _
        refine ⟨[], v, by simp, h1, by simp, ?_⟩
        simp [hvdef]
      · simp
    · rw [if_neg h1]
      by_cases h2 : v.rc = - EAGAIN
      · rw [if_pos h2]
        have hk := visit_kinds_retry v h2
        obtain ⟨new, hnew, hlen⟩ := ih { s with
          w := (unmap_and_move E private_ s.w pg (decide (pass > 2)) mode).2,
          visits := s.visits ++ [v], retry := s.retry + 1 }
        refine ⟨v :: new, ?_, by simp; omega⟩
        exact pass_effect_cons E private_ mode pass s { s with
          w := (unmap_and_move E private_ s.w pg (decide (pass > 2)) mode).2,
          visits := s.visits ++ [v], retry := s.retry + 1 } _ v new hvp hvl h1
          rfl rfl (by simp [hk]) (by simp [hk]) (by simp [hk]) hnew
      · rw [if_neg h2]
        by_cases h3 : v.rc = MIGRATEPAGE_SUCCESS
        · rw [if_pos h3]
          have hk := visit_kinds_success v h3
          obtain ⟨new, hnew, hlen⟩ := ih { s with
            w := (unmap_and_move E private_ s.w pg (decide (pass > 2)) mode).2,
            visits := s.visits ++ [v], nr_succeeded := s.nr_succeeded + 1 }
          refine ⟨v :: new, ?_, by simp; omega⟩
          exact pass_effect_cons E private_ mode pass s { s with
            w := (unmap_and_move E private_ s.w pg (decide (pass > 2)) mode).2,
            visits := s.visits ++ [v], nr_succeeded := s.nr_succeeded + 1 } _ v new hvp hvl h1
            rfl rfl (by simp [hk]) (by simp [hk]) (by simp [hk]) hnew
        · rw [if_neg h3]
          have hk := visit_kinds_other v h1 h2 h3
          obtain ⟨new, hnew, hlen⟩ := ih { s with
            w := (unmap_and_move E private_ s.w pg (decide (pass > 2)) mode).2,
            visits := s.visits ++ [v], nr_failed := s.nr_failed + 1 }
          refine ⟨v :: new, ?_, by simp; omega⟩
          exact pass_effect_cons E private_ mode pass s { s with
            w := (unmap_and_move E private_ s.w pg (decide (pass > 2)) mode).2,
            visits := s.visits ++ [v], nr_failed := s.nr_failed + 1 } _ v new hvp hvl h1
            rfl rfl (by simp [hk]) (by simp [hk]) (by simp [hk]) hnew

theorem retries_in_pass_append (p : Nat) (a b : List visit) :
    retries_in_pass p (a ++ b) = retries_in_pass p a + retries_in_pass p b := by
  simp [retries_in_pass, List.countP_append]

theorem ooms_in_pass_append (p : Nat) (a b : List visit) :
    ooms_in_pass p (a ++ b) = ooms_in_pass p a + ooms_in_pass p b := by
  simp [ooms_in_pass, List.countP_append]

theorem retries_in_pass_other (p q : Nat) (vs : List visit) (h : ∀ v ∈ vs, v.pass = p)
    (hq : q ≠ p) : retries_in_pass q vs = 0 := by
  simp only [retries_in_pass, List.countP_eq_zero]
  intro v hv
  have := h v hv
  simp [this, Ne.symm hq]

theorem retries_in_pass_same (p : Nat) (vs : List visit) (h : ∀ v ∈ vs, v.pass = p) :
    retries_in_pass p vs = vs.countP is_retry := by
  induction vs with
  | nil => simp [retries_in_pass]
  | cons v vs ih =>
    have hv : v.pass = p := h v (List.mem_cons_self _ _)
    have ih2 := ih (fun u hu => h u (List.mem_cons_of_mem _ hu))
    simp only [retries_in_pass, List.countP_cons] at ih2 ⊢
    rw [ih2]
    simp [hv]

theorem retries_in_pass_earlier (p : Nat) (vs : List visit) (h : ∀ v ∈ vs, v.pass < p) :
    retries_in_pass p vs = 0 := by
  simp only [retries_in_pass, List.countP_eq_zero]
  intro v hv
  have := h v hv
  have hne : v.pass ≠ p := by omega
  simp [hne]

theorem ooms_in_pass_none (p : Nat) (vs : List visit) (h : ∀ v ∈ vs, v.rc ≠ - ENOMEM) :
    ooms_in_pass p vs = 0 := by
  simp only [ooms_in_pass, List.countP_eq_zero]
  intro v hv
  simp [is_oom, h v hv]

theorem ooms_in_pass_last (p : Nat) (init : List visit) (last : visit)
    (hp : last.pass = p) (hl : last.rc = - ENOMEM) : 0 < ooms_in_pass p (init ++ [last]) := by
  rw [ooms_in_pass_append]
  have : ooms_in_pass p [last] = 1 := by
    simp [ooms_in_pass, is_oom, hp, hl]
  omega

/-- The pass loop of `migrate_pages` establishes its postcondition from its
    invariant, given fuel for the passes that remain. -/
theorem migrate_pages_loop_post (E : Env) (private_ : Nat) (mode : migrate_mode)
    (fuel : Nat) : ∀ (pass : Nat) (s : mp_state), loop_inv E private_ mode pass s →
      10 ≤ fuel + pass → pass ≤ 10 →
      loop_post E private_ mode (migrate_pages_loop E private_ mode fuel pass s) ∧
        pass ≤ (migrate_pages_loop E private_ mode fuel pass s).2.passes := by
  induction fuel with
  | zero =>
    intro pass s inv hf hp
    have hpass : pass = 10 := by omega
    subst hpass
    have hexit : migrate_pages_loop E private_ mode 0 10 s = (false, s) := rfl
    rw [hexit]
    refine ⟨⟨?_, ?_, ?_, inv.logged, inv.failed_eq, inv.succeeded_eq, ?_, ?_, ?_, ?_⟩, ?_⟩
    · simp [inv.passes_eq]
    · simp [inv.passes_eq]
    · simpa [inv.passes_eq] using inv.visits_pass
    · intro _; simpa [inv.passes_eq] using inv.retry_eq (by omega)
    · intro _; exact inv.no_oom
    · intro h; simp at h
    · intro p
      simp only [inv.passes_eq]
      constructor
      · intro h
        exact ⟨h, fun q hq => ⟨inv.good q (by omega), ooms_in_pass_none q _ inv.no_oom⟩⟩
      · intro h; exact h.1
    · simp [inv.passes_eq]
  | succ fuel ih =>
    intro pass s inv hf hp
    by_cases hc : pass < 10 ∧ s.retry ≠ 0
    · obtain ⟨new, eff, -⟩ := migrate_pages_list_effect E private_ mode pass s.w.from_
        { s with retry := 0, passes := s.passes + 1 }
      have hstep : migrate_pages_loop E private_ mode (fuel + 1) pass s =
          if (migrate_pages_list E private_ mode pass s.w.from_
              { s with retry := 0, passes := s.passes + 1 }).1 then
            (true, (migrate_pages_list E private_ mode pass s.w.from_
              { s with retry := 0, passes := s.passes + 1 }).2)
          else migrate_pages_loop E private_ mode fuel (pass + 1)
            (migrate_pages_list E private_ mode pass s.w.from_
              { s with retry := 0, passes := s.passes + 1 }).2 := by
        simp [migrate_pages_loop, hc]
      rw [hstep]
      have hvis := eff.visits_eq
      have hpas := eff.passes_eq
      simp only at hvis hpas
      clear hstep
      generalize migrate_pages_list E private_ mode pass s.w.from_
        { s with retry := 0, passes := s.passes + 1 } = r at eff hvis hpas ⊢
      have hnewpass : ∀ v ∈ new, v.pass = pass := fun v hv => (eff.pass_eq v hv).1
      have hprev : pass ≠ 0 → 0 < retries_in_pass (pass - 1) s.visits := by
        intro h0
        have := inv.retry_eq h0
        have h2 := hc.2
        rw [this] at h2
        have : retries_in_pass (pass - 1) s.visits ≠ 0 := by
          intro h; apply h2; simp [h]
        omega
      have hgood : ∀ q, q < pass → 0 < retries_in_pass q s.visits := by
        intro q hq
        by_cases hq2 : q + 1 < pass
        · exact inv.good q hq2
        · have : q = pass - 1 := by omega
          rw [this]; exact hprev (by omega)
      by_cases hab : r.1 = true
      · rw [if_pos hab]
        obtain ⟨init, last, hnew, hlast, hinit, hw⟩ := eff.aborted hab
        have hlastpass : last.pass = pass := hnewpass last (by simp [hnew])
        refine ⟨⟨?_, ?_, ?_, ?_, ?_, ?_, ?_, ?_, ?_, ?_⟩, ?_⟩
        · simp only [hpas]; omega
        · simp only [hpas, inv.passes_eq]; omega
        · intro v hv
          simp only [hvis, List.mem_append] at hv
          simp only [hpas, inv.passes_eq]
          rcases hv with hv | hv
          · have := inv.visits_pass v hv
            exact ⟨by omega, this.2⟩
          · have := eff.pass_eq v hv
            exact ⟨by omega, by rw [this.2, this.1]⟩
        · intro v hv
          simp only [hvis, List.mem_append] at hv
          rcases hv with hv | hv
          · exact inv.logged v hv
          · exact eff.logged v hv
        · rw [eff.failed_eq, hvis]
          simp [permanent_failures, List.countP_append, inv.failed_eq]
        · rw [eff.succeeded_eq, hvis]
          simp [successes, List.countP_append, inv.succeeded_eq]
        · intro h; simp at h
        · intro h; simp at h
        · intro _
          refine ⟨s.visits ++ init, last, by simp [hvis, hnew], hlast, ?_, ?_, hw⟩
          · intro v hv
            rcases List.mem_append.1 hv with hv | hv
            · exact inv.no_oom v hv
            · exact hinit v hv
          · simp only [hpas, inv.passes_eq, hlastpass]
        · intro p
          simp only [hpas, inv.passes_eq, hvis]
          constructor
          · intro h
            refine ⟨by omega, fun q hq => ⟨?_, ?_⟩⟩
            · rw [retries_in_pass_append]
              have := hgood q (by omega)
              omega
            · rw [ooms_in_pass_append, ooms_in_pass_none q _ inv.no_oom]
              simp only [ooms_in_pass, List.countP_eq_zero, zero_add]
              intro v hv
              have : v.pass ≠ q := by rw [hnewpass v hv]; omega
              simp [this]
          · intro h
            by_contra hlt
            have h2 := (h.2 pass (by omega)).2
            have h3 := ooms_in_pass_last pass (s.visits ++ init) last hlastpass hlast
            rw [hnew, ← List.append_assoc] at h2
            omega
        · simp only [hpas, inv.passes_eq]; omega
      · rw [if_neg hab]
        have hab2 : r.1 = false := by
          simpa using hab
        have hnoom := eff.completed hab2
        have inv2 : loop_inv E private_ mode (pass + 1) r.2 := by
          refine ⟨?_, ?_, ?_, ?_, ?_, ?_, ?_, ?_, ?_⟩
          · simp only [hpas, inv.passes_eq]
          · intro v hv
            simp only [hvis, List.mem_append] at hv
            rcases hv with hv | hv
            · have := inv.visits_pass v hv
              exact ⟨by omega, this.2⟩
            · have := eff.pass_eq v hv
              exact ⟨by omega, by rw [this.2, this.1]⟩
          · intro v hv
            simp only [hvis, List.mem_append] at hv
            rcases hv with hv | hv
            · exact inv.logged v hv
            · exact eff.logged v hv
          · intro v hv
            simp only [hvis, List.mem_append] at hv
            rcases hv with hv | hv
            · exact inv.no_oom v hv
            · exact hnoom v hv
          · rw [eff.failed_eq, hvis]
            simp [permanent_failures, List.countP_append, inv.failed_eq]
          · rw [eff.succeeded_eq, hvis]
            simp [successes, List.countP_append, inv.succeeded_eq]
          · intro h; omega
          · intro _
            rw [eff.retry_eq, hvis, retries_in_pass_append]
            simp only [Nat.add_sub_cancel]
            rw [retries_in_pass_earlier pass s.visits (fun v hv => (inv.visits_pass v hv).1),
              retries_in_pass_same pass new hnewpass]
            simp
          · intro q hq
            rw [hvis, retries_in_pass_append]
            have := hgood q (by omega)
            omega
        obtain ⟨post, hle⟩ := ih (pass + 1) _ inv2 (by omega) (by omega)
        exact ⟨post, by omega⟩
    · have hexit : migrate_pages_loop E private_ mode (fuel + 1) pass s = (false, s) := by
        simp only [migrate_pages_loop, if_neg hc]
      rw [hexit]
      have hpos : pass ≠ 0 := by
        intro h0
        apply hc
        refine ⟨by omega, ?_⟩
        rw [inv.retry_first h0]; simp
      refine ⟨⟨?_, ?_, ?_, inv.logged, inv.failed_eq, inv.succeeded_eq, ?_, ?_, ?_, ?_⟩, ?_⟩
      · simp only [inv.passes_eq]; omega
      · simp only [inv.passes_eq]; omega
      · simpa [inv.passes_eq] using inv.visits_pass
      · intro _; simpa [inv.passes_eq] using inv.retry_eq hpos
      · intro _; exact inv.no_oom
      · intro h; simp at h
      · intro p
        simp only [inv.passes_eq]
        constructor
        · intro h
          exact ⟨by omega, fun q hq => ⟨inv.good q (by omega), ooms_in_pass_none q _ inv.no_oom⟩⟩
        · intro h
          by_contra hlt
          by_cases h10 : pass < 10
          · have hr : s.retry = 0 := by
              by_contra hr; exact hc ⟨h10, hr⟩
            have h2 := (h.2 (pass - 1) (by omega)).1
            have h3 := inv.retry_eq hpos
            rw [hr] at h3
            have : retries_in_pass (pass - 1) s.visits = 0 := by exact_mod_cast h3.symm
            omega
          · omega
      · simp [inv.passes_eq]

/-- The initial values of the locals of `migrate_pages` satisfy the loop
    invariant, so the postcondition holds for every run of the pass loop. -/
theorem migrate_pages_loop_init (E : Env) (private_ : Nat) (mode : migrate_mode)
    (w0 : World) :
    loop_post E private_ mode (migrate_pages_loop E private_ mode 10 0
      { retry := 1, nr_failed := 0, nr_succeeded := 0, w := w0, visits := [], passes := 0 }) := by
  refine (migrate_pages_loop_post E private_ mode 10 0 _ ?_ (by omega) (by omega)).1
  refine ⟨rfl, ?_, ?_, ?_, ?_, ?_, ?_, ?_, ?_⟩
  · intro v hv; simp at hv
  · intro v hv; simp at hv
  · intro v hv; simp at hv
  · simp [permanent_failures]
  · simp [successes]
  · intro _; rfl
  · intro h; exact absurd rfl h
  · intro q hq; omega

/-- The pass loop run by `migrate_pages`, with the fields of the result that
    come straight from it. -/
theorem migrate_pages_unfold (E : Env) (private_ : Nat) (mode : migrate_mode) (w : World) :
    ∃ l : Bool × mp_state, loop_post E private_ mode l ∧
      (migrate_pages E private_ mode w).visits = l.2.visits ∧
      (migrate_pages E private_ mode w).passes = l.2.passes ∧
      (migrate_pages E private_ mode w).nr_failed = l.2.nr_failed ∧
      (migrate_pages E private_ mode w).nr_succeeded = l.2.nr_succeeded ∧
      (migrate_pages E private_ mode w).rc =
        (if l.1 then - ENOMEM else l.2.nr_failed + l.2.retry) ∧
      (migrate_pages E private_ mode w).w.mem = l.2.w.mem ∧
      (migrate_pages E private_ mode w).w.from_ = l.2.w.from_ ∧
      (migrate_pages E private_ mode w).w.page_tree = l.2.w.page_tree ∧
      (migrate_pages E private_ mode w).w.pte = l.2.w.pte ∧
      (migrate_pages E private_ mode w).w.trace = l.2.w.trace := by
  refine ⟨_, migrate_pages_loop_init E private_ mode
    (if !w.PF_SWAPWRITE then { w with PF_SWAPWRITE := true } else w), rfl, rfl, rfl, rfl, rfl,
    ?_, ?_, ?_, ?_, ?_⟩ <;>
  · simp only [migrate_pages]
    split <;> split <;> split <;> rfl

/-- Claim C1.  When no invocation of the single-page function returns
    `-ENOMEM`, `migrate_pages` returns the number of invocations, over all
    passes, whose outcome was neither Success, Retry nor OutOfMemory, plus the
    number of Retry outcomes of the last pass that ran; every recorded outcome
    is the value `unmap_and_move` returned for that frame. -/
theorem migrate_pages_returns_failures_plus_retries (E : Env) (private_ : Nat)
    (mode : migrate_mode) (w : World)
    (h : ∀ v ∈ (migrate_pages E private_ mode w).visits, v.rc ≠ - ENOMEM) :
    (migrate_pages E private_ mode w).rc =
        (permanent_failures (migrate_pages E private_ mode w).visits : Nat) +
        (retries_in_pass ((migrate_pages E private_ mode w).passes - 1)
          (migrate_pages E private_ mode w).visits : Nat) ∧
      1 ≤ (migrate_pages E private_ mode w).passes ∧
      ∀ v ∈ (migrate_pages E private_ mode w).visits,
        v.rc = (unmap_and_move E private_ v.before v.pg v.force mode).1 := by
  obtain ⟨l, post, hvis, hpas, -, -, hrc, -⟩ := migrate_pages_unfold E private_ mode w
  rw [hvis] at h ⊢
  rw [hpas, hrc]
  have hl : l.1 = false := by
    cases hb : l.1 with
    | false => rfl
    | true =>
      obtain ⟨init, last, hv, hlast, -⟩ := post.aborted hb
      exact absurd hlast (h last (by simp [hv]))
  refine ⟨?_, post.passes_pos, post.logged⟩
  rw [hl, post.failed_eq, post.retry_eq hl]
  simp

/-- Claim C2, as amended.  When some invocation of the single-page function
    returns `-ENOMEM`, `migrate_pages` stops at once (that invocation is the
    last one) and returns `-ENOMEM`, not the count of failures and retries;
    the counters of the earlier outcomes are kept. -/
theorem migrate_pages_oom_returns_enomem (E : Env) (private_ : Nat)
    (mode : migrate_mode) (w : World)
    (h : ∃ v ∈ (migrate_pages E private_ mode w).visits, v.rc = - ENOMEM) :
    (migrate_pages E private_ mode w).rc = - ENOMEM ∧
      (∃ init last, (migrate_pages E private_ mode w).visits = init ++ [last] ∧
        last.rc = - ENOMEM ∧ ∀ v ∈ init, v.rc ≠ - ENOMEM) ∧
      (migrate_pages E private_ mode w).nr_failed =
        (permanent_failures (migrate_pages E private_ mode w).visits : Nat) ∧
      (migrate_pages E private_ mode w).nr_succeeded =
        (successes (migrate_pages E private_ mode w).visits : Nat) := by
  obtain ⟨l, post, hvis, -, hf, hs, hrc, -⟩ := migrate_pages_unfold E private_ mode w
  rw [hvis] at h ⊢
  rw [hrc, hf, hs]
  have hl : l.1 = true := by
    cases hb : l.1 with
    | true => rfl
    | false =>
      obtain ⟨v, hv, hoom⟩ := h
      exact absurd hoom (post.completed hb v hv)
  obtain ⟨init, last, hv, hlast, hinit, -⟩ := post.aborted hl
  exact ⟨by simp [hl], ⟨init, last, hv, hlast, hinit⟩, post.failed_eq, post.succeeded_eq⟩

/-- Witness of claim C1: the working list `[0, 1, 3, 4]` of the example (two
    frames migrate, frame 3 stays locked by someone else and is retried in all
    ten passes, frame 4 fails with `-EBUSY`); no invocation returns `-ENOMEM`
    and the value returned is 1 failure + 1 retry. -/
theorem migrate_pages_returns_failures_plus_retries_witness :
    (∀ v ∈ (migrate_pages demo_env 0 MIGRATE_ASYNC (demo_world [0, 1, 3, 4])).visits,
        v.rc ≠ - ENOMEM) ∧
      (migrate_pages demo_env 0 MIGRATE_ASYNC (demo_world [0, 1, 3, 4])).rc = 2 ∧
      (migrate_pages demo_env 0 MIGRATE_ASYNC (demo_world [0, 1, 3, 4])).rc =
        (permanent_failures
          (migrate_pages demo_env 0 MIGRATE_ASYNC (demo_world [0, 1, 3, 4])).visits : Nat) +
        (retries_in_pass
          ((migrate_pages demo_env 0 MIGRATE_ASYNC (demo_world [0, 1, 3, 4])).passes - 1)
          (migrate_pages demo_env 0 MIGRATE_ASYNC (demo_world [0, 1, 3, 4])).visits : Nat) :=
  ⟨of_decide_eq_true rfl, rfl,
    (migrate_pages_returns_failures_plus_retries demo_env 0 MIGRATE_ASYNC
      (demo_world [0, 1, 3, 4]) (of_decide_eq_true rfl)).1⟩

/-- Counterexample to claim C2 as stated: on the working list `[4, 3, 2]` of the
    example, frame 4 fails for good, frame 3 is to be retried and the factory
    returns `NULL` for frame 2; `migrate_pages` returns `-ENOMEM` (-12), not the
    residual count 1 + 1. -/
theorem migrate_pages_oom_not_residual_count :
    (∃ v ∈ (migrate_pages demo_env 0 MIGRATE_ASYNC (demo_world [4, 3, 2])).visits,
        v.rc = - ENOMEM) ∧
      permanent_failures
        (migrate_pages demo_env 0 MIGRATE_ASYNC (demo_world [4, 3, 2])).visits = 1 ∧
      retries_in_pass 0
        (migrate_pages demo_env 0 MIGRATE_ASYNC (demo_world [4, 3, 2])).visits = 1 ∧
      (migrate_pages demo_env 0 MIGRATE_ASYNC (demo_world [4, 3, 2])).nr_failed = 1 ∧
      (migrate_pages demo_env 0 MIGRATE_ASYNC (demo_world [4, 3, 2])).rc = -12 ∧
      (migrate_pages demo_env 0 MIGRATE_ASYNC (demo_world [4, 3, 2])).rc ≠ 1 + 1 :=
  ⟨of_decide_eq_true rfl, rfl, rfl, rfl, rfl, of_decide_eq_true rfl⟩

/-- Witness of claim C2 as amended, on the working list `[4, 3, 2]` of the
    example. -/
theorem migrate_pages_oom_returns_enomem_witness :
    (∃ v ∈ (migrate_pages demo_env 0 MIGRATE_ASYNC (demo_world [4, 3, 2])).visits,
        v.rc = - ENOMEM) ∧
      (migrate_pages demo_env 0 MIGRATE_ASYNC (demo_world [4, 3, 2])).rc = - ENOMEM :=
  ⟨of_decide_eq_true rfl,
    (migrate_pages_oom_returns_enomem demo_env 0 MIGRATE_ASYNC (demo_world [4, 3, 2])
      (of_decide_eq_true rfl)).1⟩

theorem keeps_refl (q : Nat) (w : World) : keeps q w w := ⟨rfl, fun h => h⟩

theorem keeps_trans {q : Nat} {w w1 w2 : World} (h1 : keeps q w w1) (h2 : keeps q w1 w2) :
    keeps q w w2 := ⟨h2.1.trans h1.1, fun h => h2.2 (h1.2 h)⟩

theorem keeps_of_eq {q : Nat} {w0 w w1 : World} (k : keeps q w0 w) (hm : w1.mem = w.mem)
    (hf : w1.from_ = w.from_) : keeps q w0 w1 :=
  ⟨by rw [hm]; exact k.1, fun h => by rw [hf]; exact k.2 h⟩

theorem keeps_ite {q : Nat} {w0 a b : World} (c : Prop) [Decidable c] (ka : keeps q w0 a)
    (kb : keeps q w0 b) : keeps q w0 (if c then a else b) := by
  split
  · exact ka
  · exact kb

theorem keeps_ite_snd {α : Type} {q : Nat} {w0 : World} {a b : α × World} (c : Prop)
    [Decidable c] (ka : keeps q w0 a.2) (kb : keeps q w0 b.2) :
    keeps q w0 (if c then a else b).2 := by
  split
  · exact ka
  · exact kb

theorem keeps_set_page {q : Nat} {w0 w : World} {pg : Nat} {p : page} (k : keeps q w0 w)
    (h : q ≠ pg) : keeps q w0 (w.set_page pg p) :=
  ⟨(if_neg h).trans k.1, k.2⟩

theorem keeps_modify {q : Nat} {w0 w : World} {pg : Nat} {f : page → page}
    (k : keeps q w0 w) (h : q ≠ pg) : keeps q w0 (modify_page w pg f) :=
  keeps_set_page k h

theorem keeps_log {q : Nat} {w0 w : World} {e : Event} (k : keeps q w0 w) :
    keeps q w0 (w.log e) := keeps_of_eq k rfl rfl

theorem keeps_protect {q : Nat} {w0 w w1 : World} {e : Event} (k : keeps q w0 w1) :
    keeps q w0 (protect w w1 e) := ⟨k.1, k.2⟩

theorem keeps_trylock {q : Nat} {w0 w : World} {pg : Nat} (k : keeps q w0 w) (h : q ≠ pg) :
    keeps q w0 (trylock_page w pg).2 := by
  unfold trylock_page
  split
  · exact keeps_log k
  · exact keeps_log (keeps_set_page k h)

theorem keeps_lock {q : Nat} {w0 w : World} {pg : Nat} (k : keeps q w0 w) (h : q ≠ pg) :
    keeps q w0 (lock_page w pg) := keeps_log (keeps_set_page k h)

theorem keeps_unlock {q : Nat} {w0 w : World} {pg : Nat} (k : keeps q w0 w) (h : q ≠ pg) :
    keeps q w0 (unlock_page w pg) := keeps_log (keeps_set_page k h)

theorem keeps_wait_writeback {q : Nat} {w0 w : World} {pg : Nat} (k : keeps q w0 w)
    (h : q ≠ pg) : keeps q w0 (wait_on_page_writeback w pg) := keeps_log (keeps_set_page k h)

theorem keeps_get_page {q : Nat} {w0 w : World} {pg : Nat} (k : keeps q w0 w) (h : q ≠ pg) :
    keeps q w0 (get_page w pg) := keeps_set_page k h

theorem keeps_put_page {q : Nat} {w0 w : World} {pg : Nat} (k : keeps q w0 w) (h : q ≠ pg) :
    keeps q w0 (put_page w pg) := keeps_log (keeps_set_page k h)

theorem keeps_putback {q : Nat} {w0 w : World} {pg : Nat} (k : keeps q w0 w) (h : q ≠ pg) :
    keeps q w0 (putback_lru_page w pg) := keeps_log (keeps_set_page k h)

theorem keeps_bug_on {q : Nat} {w0 w : World} {c : Bool} (k : keeps q w0 w) :
    keeps q w0 (BUG_ON w c) := by
  unfold BUG_ON
  split
  · exact keeps_of_eq k rfl rfl
  · exact k

theorem keeps_mod_zone_stat {q : Nat} {w0 w : World} {zone : Nat} {item : zone_stat_item}
    {d : Int} (k : keeps q w0 w) : keeps q w0 (mod_zone_stat w zone item d) :=
  keeps_of_eq k rfl rfl

theorem keeps_dec_zone {q : Nat} {w0 w : World} {pg : Nat} {item : zone_stat_item}
    (k : keeps q w0 w) : keeps q w0 (dec_zone_page_state w pg item) := keeps_mod_zone_stat k

theorem keeps_inc_zone {q : Nat} {w0 w : World} {pg : Nat} {item : zone_stat_item}
    (k : keeps q w0 w) : keeps q w0 (inc_zone_page_state w pg item) := keeps_mod_zone_stat k

theorem keeps_list_del {q : Nat} {w0 w : World} {pg : Nat} (k : keeps q w0 w) (h : q ≠ pg) :
    keeps q w0 (list_del w pg) :=
  ⟨k.1, fun hq => (List.mem_erase_of_ne h).2 (k.2 hq)⟩

theorem keeps_store_result {q : Nat} {w0 w : World} {result : Option Nat} {rc : Int}
    {newpage : Nat} (k : keeps q w0 w) : keeps q w0 (store_result w result rc newpage) := by
  unfold store_result
  split
  · split
    · exact keeps_of_eq k rfl rfl
    · exact keeps_of_eq k rfl rfl
  · exact k

theorem keeps_set_pte_at {q : Nat} {w0 w : World} {mm addr : Nat} {e : pte_t}
    (k : keeps q w0 w) : keeps q w0 (set_pte_at w mm addr e) := keeps_of_eq k rfl rfl

theorem keeps_page_add_rmap {q : Nat} {w0 w : World} {pg : Nat} (k : keeps q w0 w)
    (h : q ≠ pg) : keeps q w0 (page_add_rmap w pg) := keeps_set_page k h

theorem keeps_radix_tree_replace_slot {q : Nat} {w0 w : World} {mapping index item : Nat}
    (k : keeps q w0 w) : keeps q w0 (radix_tree_replace_slot w mapping index item) :=
  keeps_of_eq k rfl rfl

theorem keeps_freeze {q : Nat} {w0 w : World} {pg : Nat} {count : Int} (k : keeps q w0 w)
    (h : q ≠ pg) : keeps q w0 (page_freeze_refs w pg count).2 := by
  unfold page_freeze_refs
  split
  · exact keeps_set_page k h
  · exact k

theorem keeps_unfreeze {q : Nat} {w0 w : World} {pg : Nat} {count : Int} (k : keeps q w0 w)
    (h : q ≠ pg) : keeps q w0 (page_unfreeze_refs w pg count) := keeps_set_page k h

theorem keeps_rmap_walk_list {q : Nat} {w0 : World}
    (fn : World → vm_area_struct → Nat → Int × World)
    (hfn : ∀ w vma addr, keeps q w0 w → keeps q w0 (fn w vma addr).2) :
    ∀ (l : List (vm_area_struct × Nat)) (w : World), keeps q w0 w →
      keeps q w0 (rmap_walk_list fn l w) := by
  intro l
  induction l with
  | nil => intro w k; exact k
  | cons x rest ih =>
    intro w k
    obtain ⟨vma, addr⟩ := x
    simp only [rmap_walk_list]
    split
    · exact hfn w vma addr k
    · exact ih _ (hfn w vma addr k)

theorem keeps_rmap_walk {q : Nat} {w0 w : World} {pg : Nat}
    {fn : World → vm_area_struct → Nat → Int × World} (k : keeps q w0 w)
    (hfn : ∀ w vma addr, keeps q w0 w → keeps q w0 (fn w vma addr).2) :
    keeps q w0 (rmap_walk w pg fn) := by
  unfold rmap_walk
  split
  · exact k
  · exact keeps_rmap_walk_list fn hfn _ w k

theorem keeps_remove_migration_pte {q : Nat} {w0 w : World} {new : Nat}
    {vma : vm_area_struct} {addr old : Nat} (k : keeps q w0 w) (h : q ≠ new) :
    keeps q w0 (remove_migration_pte w new vma addr old).2 := by
  unfold remove_migration_pte
  simp only
  repeat' split
  all_goals first
    | exact k
    | exact keeps_page_add_rmap (keeps_set_pte_at (keeps_get_page k h)) h

theorem keeps_remove_migration_ptes {q : Nat} {w0 w : World} {old new : Nat}
    (k : keeps q w0 w) (h : q ≠ new) : keeps q w0 (remove_migration_ptes w old new) :=
  keeps_rmap_walk (keeps_log k) (fun _ _ _ k1 => keeps_remove_migration_pte k1 h)

theorem keeps_try_to_unmap_one {q : Nat} {w0 w : World} {E : Env} {pg : Nat}
    {vma : vm_area_struct} {addr : Nat} (k : keeps q w0 w) (h : q ≠ pg) :
    keeps q w0 (try_to_unmap_one E pg w vma addr) := by
  unfold try_to_unmap_one
  repeat' split
  all_goals first
    | exact k
    | exact keeps_modify (keeps_set_pte_at k) h

theorem keeps_try_to_unmap {q : Nat} {w0 w : World} {E : Env} {pg : Nat} (k : keeps q w0 w)
    (h : q ≠ pg) : keeps q w0 (try_to_unmap E w pg) :=
  keeps_rmap_walk (keeps_log k) (fun _ _ _ k1 => keeps_try_to_unmap_one k1 h)

theorem keeps_mlock_migrate_page {q : Nat} {w0 w : World} {newpage pg : Nat}
    (k : keeps q w0 w) (h1 : q ≠ pg) (h2 : q ≠ newpage) :
    keeps q w0 (mlock_migrate_page w newpage pg) := by
  unfold mlock_migrate_page
  split
  · exact keeps_inc_zone (keeps_modify (keeps_dec_zone (keeps_modify k h1)) h2)
  · exact k

theorem keeps_migrate_page_copy {q : Nat} {w0 w : World} {newpage pg : Nat}
    (k : keeps q w0 w) (h1 : q ≠ pg) (h2 : q ≠ newpage) :
    keeps q w0 (migrate_page_copy w newpage pg) := by
  unfold migrate_page_copy
  lift_lets
  intro w1 w2 w3 w4 w5 w6 w7 w8 w9 w10 w11 w12 w13 w14
  have k1 : keeps q w0 w1 := keeps_log k
  have k2 : keeps q w0 w2 := keeps_modify k1 h2
  have k3 : keeps q w0 w3 := keeps_ite _ (keeps_modify k2 h2) k2
  have k4 : keeps q w0 w4 := keeps_ite _ (keeps_modify k3 h2) k3
  have k5 : keeps q w0 w5 := keeps_ite _ (keeps_modify k4 h2) k4
  have k6 : keeps q w0 w6 :=
    keeps_ite _ (keeps_modify (keeps_modify k5 h1) h2)
      (keeps_ite _ (keeps_modify (keeps_modify k5 h1) h2) k5)
  have k7 : keeps q w0 w7 := keeps_ite _ (keeps_modify k6 h2) k6
  have k8 : keeps q w0 w8 := keeps_ite _ (keeps_modify k7 h2) k7
  have k9 : keeps q w0 w9 := keeps_ite _ (keeps_modify (keeps_modify k8 h1) h2) k8
  have k10 : keeps q w0 w10 := keeps_mlock_migrate_page k9 h1 h2
  have k11 : keeps q w0 w11 := keeps_log k10
  have k12 : keeps q w0 w12 := keeps_modify k11 h1
  have k13 : keeps q w0 w13 := keeps_modify k12 h1
  have k14 : keeps q w0 w14 := keeps_modify k13 h1
  exact keeps_ite _ (keeps_modify k14 h2) k14

theorem keeps_move_mapping_commit {q : Nat} {w0 w : World} {m slot newpage pg : Nat}
    {expected_count : Int} (k : keeps q w0 w) (h1 : q ≠ pg) (h2 : q ≠ newpage) :
    keeps q w0 (migrate_page_move_mapping_commit w m slot newpage pg expected_count) := by
  unfold migrate_page_move_mapping_commit
  lift_lets
  intro w2 w3 w4 w5 w6 w7
  have k2 : keeps q w0 w2 := keeps_get_page k h2
  have k3 : keeps q w0 w3 := keeps_ite _ (keeps_modify k2 h2) k2
  have k4 : keeps q w0 w4 := keeps_radix_tree_replace_slot k3
  have k5 : keeps q w0 w5 := keeps_unfreeze k4 h1
  have k6 : keeps q w0 w6 := keeps_dec_zone k5
  have k7 : keeps q w0 w7 := keeps_inc_zone k6
  exact keeps_ite _ (keeps_inc_zone (keeps_dec_zone k7)) k7

theorem keeps_move_mapping_lock {q : Nat} {w0 w : World} {head : Option Nat}
    {mode : migrate_mode} (k : keeps q w0 w) :
    keeps q w0 (migrate_page_move_mapping_lock w head mode).2 := by
  unfold migrate_page_move_mapping_lock
  split
  · exact k
  · split
    · exact keeps_of_eq k rfl rfl
    · exact k

theorem keeps_move_mapping {q : Nat} {w0 w : World} {mapping : Option Nat} {newpage pg : Nat}
    {head : Option Nat} {mode : migrate_mode} (k : keeps q w0 w) (h1 : q ≠ pg)
    (h2 : q ≠ newpage) :
    keeps q w0 (migrate_page_move_mapping w mapping newpage pg head mode).2 := by
  unfold migrate_page_move_mapping
  split
  · exact keeps_ite_snd _ k k
  · lift_lets
    intro slot expected_count fr lk
    have kfr : keeps q w0 fr.2 := keeps_freeze k h1
    have klk : keeps q w0 lk.2 := keeps_move_mapping_lock kfr
    exact keeps_ite_snd _ k (keeps_ite_snd _ kfr (keeps_ite_snd _ (keeps_unfreeze klk h1)
      (keeps_move_mapping_commit klk h1 h2)))

theorem keeps_migrate_page {q : Nat} {w0 w : World} {mapping : Option Nat} {newpage pg : Nat}
    {mode : migrate_mode} (k : keeps q w0 w) (h1 : q ≠ pg) (h2 : q ≠ newpage) :
    keeps q w0 (migrate_page w mapping newpage pg mode).2 := by
  unfold migrate_page
  lift_lets
  intro w1 r
  have kr : keeps q w0 r.2 := keeps_move_mapping (keeps_bug_on k) h1 h2
  exact keeps_ite_snd _ kr (keeps_migrate_page_copy kr h1 h2)

theorem keeps_writeout {q : Nat} {w0 w : World} {E : Env} (hE : env_local E) {mapping pg : Nat}
    (k : keeps q w0 w) (h1 : q ≠ pg) : keeps q w0 (writeout E w mapping pg).2 := by
  unfold writeout
  split
  · exact k
  · rename_i hook hhook
    lift_lets
    intro w1 w2 r w3 w4
    have k2 : keeps q w0 w2 := keeps_remove_migration_ptes (keeps_modify k h1) h1
    have k3 : keeps q w0 w3 := keeps_protect (keeps_trans k2 (hE.writepage _ _ hhook w2 pg q h1))
    have k4 : keeps q w0 w4 := keeps_ite _ (keeps_lock k3 h1) k3
    exact keeps_ite_snd _ k (by exact k4)

theorem keeps_fallback {q : Nat} {w0 w : World} {E : Env} (hE : env_local E)
    {mapping newpage pg : Nat} {mode : migrate_mode} (k : keeps q w0 w) (h1 : q ≠ pg)
    (h2 : q ≠ newpage) : keeps q w0 (fallback_migrate_page E w mapping newpage pg mode).2 := by
  unfold fallback_migrate_page
  split
  · exact keeps_ite_snd _ k (keeps_writeout hE k h1)
  · lift_lets
    intro r rel
    have krel : keeps q w0 rel.2 := by
      apply keeps_ite_snd
      · exact keeps_protect (keeps_trans k (hE.try_to_release_page w pg q h1))
      · exact k
    exact keeps_ite_snd _ krel (keeps_migrate_page krel h1 h2)

theorem keeps_prepare {q : Nat} {w0 w : World} {newpage pg : Nat} (k : keeps q w0 w)
    (h2 : q ≠ newpage) : keeps q w0 (move_to_new_page_prepare w newpage pg) := by
  unfold move_to_new_page_prepare
  lift_lets
  intro t w1 w2 w3
  have k1 : keeps q w0 w1 := keeps_bug_on (keeps_trylock k h2)
  have k2 : keeps q w0 w2 := keeps_modify k1 h2
  have k3 : keeps q w0 w3 := keeps_modify k2 h2
  exact keeps_ite _ (keeps_modify k3 h2) k3

theorem keeps_finish {q : Nat} {w0 w : World} {newpage pg : Nat} {remap_swapcache : Bool}
    {rc : Int} (k : keeps q w0 w) (h1 : q ≠ pg) (h2 : q ≠ newpage) :
    keeps q w0 (move_to_new_page_finish w newpage pg remap_swapcache rc) := by
  unfold move_to_new_page_finish
  lift_lets
  intro w2 w1
  have k2 : keeps q w0 w2 := keeps_ite _ (keeps_remove_migration_ptes k h2) k
  have k1 : keeps q w0 w1 := keeps_ite _ (keeps_modify k h2) (keeps_modify k2 h1)
  exact keeps_unlock k1 h2

theorem keeps_move_to_new_page {q : Nat} {w0 w : World} {E : Env} (hE : env_local E)
    {newpage pg : Nat} {remap_swapcache : Bool} {mode : migrate_mode} (k : keeps q w0 w)
    (h1 : q ≠ pg) (h2 : q ≠ newpage) :
    keeps q w0 (move_to_new_page E w newpage pg remap_swapcache mode).2 := by
  unfold move_to_new_page
  lift_lets
  intro w1 r
  have k1 : keeps q w0 w1 := keeps_prepare (keeps_log k) h2
  have kr : keeps q w0 r.2 := by
    show keeps q w0 (match page_mapping E w1 pg with
      | none => migrate_page w1 none newpage pg mode
      | some m =>
        match E.migratepage m with
        | some hook =>
          ((hook w1 newpage pg mode).1,
            protect w1 (hook w1 newpage pg mode).2 (Event.hook_migratepage newpage pg))
        | none => fallback_migrate_page E w1 m newpage pg mode).2
    split
    · exact keeps_migrate_page k1 h1 h2
    · split
      · rename_i hook hhook
        exact keeps_protect (keeps_trans k1 (hE.migratepage _ _ hhook w1 newpage pg mode q h1 h2))
      · exact keeps_fallback hE k1 h1 h2
  exact keeps_finish kr h1 h2

theorem keeps_uncharge {q : Nat} {w0 w : World} {pg newpage : Nat} {rc : Int}
    (k : keeps q w0 w) (h1 : q ≠ pg) :
    keeps q w0 (unmap_and_move_uncharge w pg newpage rc).2 :=
  keeps_unlock (keeps_log k) h1

theorem keeps_skip_unmap {q : Nat} {w0 w : World} {E : Env} (hE : env_local E)
    {pg newpage : Nat} {remap_swapcache : Bool} {anon_vma : Option Nat} {mode : migrate_mode}
    (k : keeps q w0 w) (h1 : q ≠ pg) (h2 : q ≠ newpage) :
    keeps q w0 (unmap_and_move_skip_unmap E w pg newpage remap_swapcache anon_vma mode).2 := by
  unfold unmap_and_move_skip_unmap
  lift_lets
  intro r w1 w2
  have kr : keeps q w0 r.2 := keeps_ite_snd _ (keeps_move_to_new_page hE k h1 h2) k
  have k1 : keeps q w0 w1 := keeps_ite _ (keeps_remove_migration_ptes kr h1) kr
  have k2 : keeps q w0 w2 := by
    show keeps q w0 (match anon_vma with
      | some a => w1.log (Event.put_anon_vma a)
      | none => w1)
    split
    · exact keeps_log k1
    · exact k1
  exact keeps_uncharge k2 h1

theorem keeps___unmap_and_move {q : Nat} {w0 w : World} {E : Env} (hE : env_local E)
    {pg newpage : Nat} {force : Bool} {mode : migrate_mode}
    (k : keeps q w0 w) (h1 : q ≠ pg) (h2 : q ≠ newpage) :
    keeps q w0 (__unmap_and_move E w pg newpage force mode).2 := by
  unfold __unmap_and_move
  lift_lets
  intro wa t wb wc wd w1 a anon_vma remap_swapcache we b wf wg
  have kt : keeps q w0 t.2 := keeps_trylock (keeps_log k) h1
  have kb : keeps q w0 wb := keeps_ite _ (keeps_lock kt h1) kt
  have kc : keeps q w0 wc := keeps_log kb
  have kd : keeps q w0 wd := keeps_ite _ (keeps_wait_writeback kc h1) kc
  have k1 : keeps q w0 w1 := keeps_log kd
  have ke : keeps q w0 we := by
    show keeps q w0 (if (PageAnon wd pg && !PageKsm wd pg) = true then
        match E.page_get_anon_vma wd pg with
        | some av => (some av, true, false, w1)
        | none =>
          if (wd.mem pg).PG_swapcache = true then (none, false, false, w1)
          else (none, true, true, w1)
      else ((none : Option Nat), true, false, wd)).2.2.2
    split
    · split
      · exact k1
      · split
        · exact k1
        · exact k1
    · exact kd
  have kf : keeps q w0 wf :=
    keeps_protect (keeps_trans ke (hE.try_to_free_buffers we pg q h1))
  have kg : keeps q w0 wg := keeps_try_to_unmap ke h1
  have kbal : keeps q w0 (protect we b.2 (Event.balloon_page_migrate newpage pg)) :=
    keeps_protect (keeps_trans ke (hE.balloon_page_migrate we newpage pg mode q h1 h2))
  exact keeps_ite_snd _ kt (keeps_ite_snd _ kt (keeps_ite_snd _ (keeps_uncharge kc h1)
    (keeps_ite_snd _ (keeps_uncharge kc h1) (keeps_ite_snd _ (keeps_uncharge ke h1)
      (keeps_ite_snd _ (keeps_uncharge kbal h1) (keeps_ite_snd _
        (keeps_ite_snd _ (keeps_uncharge kf h1) (keeps_skip_unmap hE ke h1 h2))
        (keeps_skip_unmap hE kg h1 h2)))))))

theorem keeps_out {q : Nat} {w0 w : World} {pg newpage : Nat} {result : Option Nat}
    {rc : Int} (k : keeps q w0 w) (h1 : q ≠ pg) (h2 : q ≠ newpage) :
    keeps q w0 (unmap_and_move_out w pg newpage result rc).2 := by
  unfold unmap_and_move_out
  lift_lets
  intro v1 v2 w1 w2
  have k1 : keeps q w0 w1 :=
    keeps_ite _ (keeps_putback (keeps_dec_zone (keeps_list_del k h1)) h1) k
  exact keeps_store_result (keeps_putback k1 h2)

/-- An invocation of the single-page function for frame `pg` leaves alone the
    descriptor of every frame that is neither `pg` nor the destination handed
    out by the factory, and leaves it on the working list. -/
theorem keeps_unmap_and_move {q : Nat} {w0 w : World} {E : Env} (hE : env_local E)
    {private_ pg : Nat} {force : Bool} {mode : migrate_mode} (k : keeps q w0 w) (h1 : q ≠ pg)
    (h2 : (E.get_new_page w pg private_).1 ≠ some q) :
    keeps q w0 (unmap_and_move E private_ w pg force mode).2 := by
  unfold unmap_and_move
  lift_lets
  intro g w1
  have k1 : keeps q w0 w1 := keeps_log k
  show keeps q w0 (match g.1 with
    | none => (- ENOMEM, w1)
    | some newpage =>
      if page_count w1 pg = 1 then unmap_and_move_out w1 pg newpage g.2 0
      else
        let s : Bool × World :=
          if (w1.mem pg).trans_huge then
            let r := E.split_huge_page w1 pg
            (decide (r.1 ≠ 0), protect w1 r.2 (Event.split_huge_page pg))
          else (false, w1)
        if s.1 then unmap_and_move_out s.2 pg newpage g.2 0
        else
          let r := __unmap_and_move E s.2 pg newpage force mode
          if r.1 = MIGRATEPAGE_BALLOON_SUCCESS then
            let w1 := dec_zone_page_state r.2 pg (isolated_item r.2 pg)
            (MIGRATEPAGE_SUCCESS, w1.log (Event.balloon_page_free pg))
          else unmap_and_move_out r.2 pg newpage g.2 r.1).2
  split
  · exact k1
  · rename_i newpage hnew
    have h3 : q ≠ newpage := by
      intro hq
      apply h2
      rw [← hq] at hnew
      exact hnew
    lift_lets
    intro r0 s r w2
    have ks : keeps q w0 s.2 := by
      apply keeps_ite_snd
      · exact keeps_protect (keeps_trans k1 (hE.split_huge_page w1 pg q h1))
      · exact k1
    have kr : keeps q w0 r.2 := keeps___unmap_and_move hE ks h1 h3
    exact keeps_ite_snd _ (keeps_out k1 h1 h3) (keeps_ite_snd _ (keeps_out ks h1 h3)
      (keeps_ite_snd _ (keeps_log (keeps_dec_zone kr)) (keeps_out kr h1 h3)))

/-! ## The invocations of a run, one after the other -/

theorem visits_from_append (E : Env) (private_ : Nat) (mode : migrate_mode) :
    ∀ (vs : List visit) (wa wb : World) (v : visit), visits_from E private_ mode wa vs wb →
      v.before = wb →
      visits_from E private_ mode wa (vs ++ [v])
        (unmap_and_move E private_ v.before v.pg v.force mode).2 := by
  intro vs
  induction vs with
  | nil =>
    intro wa wb v h hv
    simp only [visits_from] at h
    simp only [List.nil_append, visits_from]
    exact ⟨hv.trans h, trivial⟩
  | cons u rest ih =>
    intro wa wb v h hv
    simp only [visits_from] at h
    simp only [List.cons_append, visits_from]
    exact ⟨h.1, ih _ _ v h.2 hv⟩

theorem migrate_pages_list_chain (E : Env) (private_ : Nat) (mode : migrate_mode) (pass : Nat)
    (wa : World) :
    ∀ (l : List Nat) (s : mp_state), visits_from E private_ mode wa s.visits s.w →
      visits_from E private_ mode wa (migrate_pages_list E private_ mode pass l s).2.visits
        (migrate_pages_list E private_ mode pass l s).2.w := by
  intro l
  induction l with
  | nil => intro s h; exact h
  | cons pg rest ih =>
    intro s h
    have hstep := visits_from_append E private_ mode s.visits wa s.w
      (visit.mk pass pg (decide (pass > 2))
        (unmap_and_move E private_ s.w pg (decide (pass > 2)) mode).1 s.w) h rfl
    rw [migrate_pages_list_cons]
    split
    · exact hstep
    · split
      · exact ih _ hstep
      · split
        · exact ih _ hstep
        · exact ih _ hstep

theorem migrate_pages_loop_chain (E : Env) (private_ : Nat) (mode : migrate_mode) (wa : World) :
    ∀ (fuel pass : Nat) (s : mp_state), visits_from E private_ mode wa s.visits s.w →
      visits_from E private_ mode wa (migrate_pages_loop E private_ mode fuel pass s).2.visits
        (migrate_pages_loop E private_ mode fuel pass s).2.w := by
  intro fuel
  induction fuel with
  | zero => intro pass s h; exact h
  | succ fuel ih =>
    intro pass s h
    have hl := migrate_pages_list_chain E private_ mode pass wa s.w.from_
      (mp_state.mk 0 s.nr_failed s.nr_succeeded s.w s.visits (s.passes + 1)) h
    simp only [migrate_pages_loop]
    split
    · split
      · exact hl
      · exact ih _ _ hl
    · exact h

/-- The invocations recorded by `migrate_pages` follow one another: the first
    starts from the state of the call (with `PF_SWAPWRITE` set), each of the
    others from the state its predecessor left. -/
theorem migrate_pages_chain (E : Env) (private_ : Nat) (mode : migrate_mode) (w : World) :
    ∃ wa wb, wa.mem = w.mem ∧ wa.from_ = w.from_ ∧
      visits_from E private_ mode wa (migrate_pages E private_ mode w).visits wb := by
  refine ⟨if !w.PF_SWAPWRITE then { w with PF_SWAPWRITE := true } else w, _, ?_, ?_,
    migrate_pages_loop_chain E private_ mode _ 10 0
      (mp_state.mk 1 0 0 (if !w.PF_SWAPWRITE then { w with PF_SWAPWRITE := true } else w) [] 0)
      rfl⟩
  · split <;> rfl
  · split <;> rfl

/-- A frame that no invocation before number `i` was called for, and that the
    factory did not hand out to any of them, has its initial descriptor when
    invocation number `i` starts, and is on the working list if it was. -/
theorem visit_before_keeps (E : Env) (private_ : Nat) (mode : migrate_mode) (hE : env_local E)
    (q : Nat) (w0 : World) :
    ∀ (vs : List visit) (wa wb : World) (i : Nat) (v : visit),
      visits_from E private_ mode wa vs wb → vs[i]? = some v → keeps q w0 wa →
      (∀ u ∈ vs.take i, u.pg ≠ q ∧ (E.get_new_page u.before u.pg private_).1 ≠ some q) →
      keeps q w0 v.before := by
  intro vs
  induction vs with
  | nil => intro wa wb i v _ hv; simp at hv
  | cons u rest ih =>
    intro wa wb i v h hv k hfree
    simp only [visits_from] at h
    cases i with
    | zero =>
      simp only [List.getElem?_cons_zero, Option.some.injEq] at hv
      rw [← hv, h.1]
      exact k
    | succ j =>
      simp only [List.getElem?_cons_succ] at hv
      have hu := hfree u (by simp)
      refine ih _ wb j v h.2 hv ?_ (fun x hx => hfree x (by simp [hx]))
      rw [← h.1] at k
      exact keeps_unmap_and_move hE k (Ne.symm hu.1) hu.2

/-- The services of the example environment change nothing. -/
theorem demo_env_local : env_local demo_env where
  split_huge_page := fun w _ q _ => keeps_refl q w
  balloon_page_migrate := fun w _ _ _ q _ _ => keeps_refl q w
  try_to_free_buffers := fun w _ q _ => keeps_refl q w
  try_to_release_page := fun w _ q _ => keeps_refl q w
  migratepage := fun _ _ h => absurd h (by simp [demo_env])
  writepage := fun _ _ h => absurd h (by simp [demo_env])

/-! ## The frames of the first pass -/

/-- One pass over the list `l` makes its invocations for the frames of `l`, in
    the order of the list: for all of them when the pass runs to its end, for
    a front part of them when it is left through `goto out`. -/
theorem migrate_pages_list_pgs (E : Env) (private_ : Nat) (mode : migrate_mode) (pass : Nat) :
    ∀ (l : List Nat) (s : mp_state), ∃ new : List visit,
      (migrate_pages_list E private_ mode pass l s).2.visits = s.visits ++ new ∧
      new.map visit.pg = l.take new.length ∧
      (∀ u ∈ new, u.pass = pass) ∧
      ((migrate_pages_list E private_ mode pass l s).1 = false → new.length = l.length) := by
  intro l
  induction l with
  | nil =>
    intro s
    exact ⟨[], by simp [migrate_pages_list], rfl, fun u hu => by simp at hu, fun _ => rfl⟩
  | cons pg rest ih =>
    intro s
    obtain ⟨v, hvdef⟩ : ∃ v : visit, v = visit.mk pass pg (decide (pass > 2))
        (unmap_and_move E private_ s.w pg (decide (pass > 2)) mode).1 s.w := ⟨_, rfl⟩
    have hvpg : v.pg = pg := by rw [hvdef]
    have hvpass : v.pass = pass := by rw [hvdef]
    have hnext : ∀ s1 : mp_state, s1.visits = s.visits ++ [v] → ∃ new : List visit,
        (migrate_pages_list E private_ mode pass rest s1).2.visits = s.visits ++ new ∧
        new.map visit.pg = (pg :: rest).take new.length ∧
        (∀ u ∈ new, u.pass = pass) ∧
        ((migrate_pages_list E private_ mode pass rest s1).1 = false →
          new.length = (pg :: rest).length) := by
      intro s1 hs1
      obtain ⟨new, h1, h2, h3, h4⟩ := ih s1
      refine ⟨v :: new, ?_, ?_, ?_, ?_⟩
      · rw [h1, hs1, List.append_assoc]
        rfl
      · simp only [List.map_cons, List.length_cons, List.take_succ_cons, hvpg, h2]
      · intro u hu
        rcases List.mem_cons.1 hu with h | h
        · rw [h]; exact hvpass
        · exact h3 u h
      · intro hf
        simp only [List.length_cons, h4 hf]
    rw [migrate_pages_list_cons, ← hvdef]
    split
    · refine ⟨[v], rfl, ?_, ?_, fun h => by simp at h⟩
      · simp [hvpg]
      · intro u hu
        have : u = v := by simpa using hu
        rw [this]
        exact hvpass
    · split
      · exact hnext _ rfl
      · split
        · exact hnext _ rfl
        · exact hnext _ rfl

theorem migrate_pages_loop_visits (E : Env) (private_ : Nat) (mode : migrate_mode) :
    ∀ (fuel pass : Nat) (s : mp_state), ∃ later : List visit,
      (migrate_pages_loop E private_ mode fuel pass s).2.visits = s.visits ++ later := by
  intro fuel
  induction fuel with
  | zero => intro pass s; exact ⟨[], by simp [migrate_pages_loop]⟩
  | succ fuel ih =>
    intro pass s
    obtain ⟨new, hnew, -⟩ := migrate_pages_list_pgs E private_ mode pass s.w.from_
      (mp_state.mk 0 s.nr_failed s.nr_succeeded s.w s.visits (s.passes + 1))
    simp only [migrate_pages_loop]
    split
    · split
      · exact ⟨new, hnew⟩
      · obtain ⟨later, hlater⟩ := ih (pass + 1) (migrate_pages_list E private_ mode pass s.w.from_
          (mp_state.mk 0 s.nr_failed s.nr_succeeded s.w s.visits (s.passes + 1))).2
        refine ⟨new ++ later, ?_⟩
        rw [hlater, hnew, List.append_assoc]
    · exact ⟨[], by simp⟩

theorem migrate_pages_loop_succ (E : Env) (private_ : Nat) (mode : migrate_mode)
    (fuel pass : Nat) (s : mp_state) (h : pass < 10 ∧ s.retry ≠ 0) :
    migrate_pages_loop E private_ mode (fuel + 1) pass s =
      if (migrate_pages_list E private_ mode pass s.w.from_
          (mp_state.mk 0 s.nr_failed s.nr_succeeded s.w s.visits (s.passes + 1))).1 then
        (true, (migrate_pages_list E private_ mode pass s.w.from_
          (mp_state.mk 0 s.nr_failed s.nr_succeeded s.w s.visits (s.passes + 1))).2)
      else migrate_pages_loop E private_ mode fuel (pass + 1)
        (migrate_pages_list E private_ mode pass s.w.from_
          (mp_state.mk 0 s.nr_failed s.nr_succeeded s.w s.visits (s.passes + 1))).2 := by
  simp only [migrate_pages_loop, if_pos h]

/-- The invocations of `migrate_pages` start with those of the first pass,
    which are for the frames of the working list, in the order of the list;
    when there are invocations after the first pass, the first pass was for
    every frame of the list. -/
theorem migrate_pages_first_pass (E : Env) (private_ : Nat) (mode : migrate_mode) (w : World) :
    ∃ new later : List visit,
      (migrate_pages E private_ mode w).visits = new ++ later ∧
      new.map visit.pg = w.from_.take new.length ∧
      (∀ u ∈ new, u.pass = 0) ∧
      (later ≠ [] → new.length = w.from_.length) := by
  obtain ⟨w0, hw0, hfrom⟩ : ∃ w0 : World,
      w0 = (if !w.PF_SWAPWRITE then { w with PF_SWAPWRITE := true } else w) ∧
      w0.from_ = w.from_ := by
    refine ⟨_, rfl, ?_⟩
    split <;> rfl
  have hvis : (migrate_pages E private_ mode w).visits =
      (migrate_pages_loop E private_ mode 10 0 (mp_state.mk 1 0 0 w0 [] 0)).2.visits := by
    rw [hw0]
    rfl
  obtain ⟨new, hnew, hpgs, hpass, hfull⟩ := migrate_pages_list_pgs E private_ mode 0 w0.from_
    (mp_state.mk 0 0 0 w0 [] (0 + 1))
  rw [hfrom] at hpgs
  have hstep : migrate_pages_loop E private_ mode 10 0 (mp_state.mk 1 0 0 w0 [] 0) =
      if (migrate_pages_list E private_ mode 0 w0.from_ (mp_state.mk 0 0 0 w0 [] (0 + 1))).1 then
        (true, (migrate_pages_list E private_ mode 0 w0.from_
          (mp_state.mk 0 0 0 w0 [] (0 + 1))).2)
      else migrate_pages_loop E private_ mode 9 (0 + 1)
        (migrate_pages_list E private_ mode 0 w0.from_ (mp_state.mk 0 0 0 w0 [] (0 + 1))).2 :=
    migrate_pages_loop_succ E private_ mode 9 0 (mp_state.mk 1 0 0 w0 [] 0)
      ⟨by decide, show (1 : Int) ≠ 0 by decide⟩
  rw [hvis, hstep]
  cases hb : (migrate_pages_list E private_ mode 0 w0.from_ (mp_state.mk 0 0 0 w0 [] (0 + 1))).1
  · obtain ⟨later, hlater⟩ := migrate_pages_loop_visits E private_ mode 9 (0 + 1)
      (migrate_pages_list E private_ mode 0 w0.from_ (mp_state.mk 0 0 0 w0 [] (0 + 1))).2
    refine ⟨new, later, ?_, hpgs, hpass, fun _ => by rw [← hfrom]; exact hfull hb⟩
    simp only [Bool.false_eq_true, if_false]
    rw [hlater, hnew]
    rfl
  · refine ⟨new, [], ?_, hpgs, hpass, fun h => absurd rfl h⟩
    simp only [if_true]
    rw [hnew]
    simp

/-! ## Frames for which `__unmap_and_move` is not entered

Each lemma of this section says that one operation adds no entry into
`__unmap_and_move` for frame `q` to the ghost trace. -/

theorem ne_refl (q : Nat) (w : World) : not_entered q w w :=
  ⟨[], (List.append_nil _).symm, fun e he => by simp at he⟩

theorem ne_of_trace {q : Nat} {w0 w w1 : World} (k : not_entered q w0 w)
    (h : w1.trace = w.trace) : not_entered q w0 w1 := by
  obtain ⟨l, hl, hq⟩ := k
  exact ⟨l, h.trans hl, hq⟩

theorem ne_append {q : Nat} {w0 w w1 : World} {e : Event} (k : not_entered q w0 w)
    (h : w1.trace = w.trace ++ [e]) (he : is_entry q e = false) : not_entered q w0 w1 := by
  obtain ⟨l, hl, hq⟩ := k
  refine ⟨l ++ [e], ?_, ?_⟩
  · rw [h, hl, List.append_assoc]
  · intro x hx
    rcases List.mem_append.1 hx with h1 | h1
    · exact hq x h1
    · have : x = e := by simpa using h1
      rw [this]
      exact he

theorem ne_log {q : Nat} {w0 w : World} {e : Event} (k : not_entered q w0 w)
    (he : is_entry q e = false) : not_entered q w0 (w.log e) := ne_append k rfl he

theorem ne_protect {q : Nat} {w0 w w1 : World} {e : Event} (k : not_entered q w0 w)
    (he : is_entry q e = false) : not_entered q w0 (protect w w1 e) := ne_append k rfl he

theorem ne_ite {q : Nat} {w0 a b : World} (c : Prop) [Decidable c] (ka : not_entered q w0 a)
    (kb : not_entered q w0 b) : not_entered q w0 (if c then a else b) := by
  split
  · exact ka
  · exact kb

theorem ne_ite_snd {α : Type} {q : Nat} {w0 : World} {a b : α × World} (c : Prop)
    [Decidable c] (ka : not_entered q w0 a.2) (kb : not_entered q w0 b.2) :
    not_entered q w0 (if c then a else b).2 := by
  split
  · exact ka
  · exact kb

theorem ne_set_page {q : Nat} {w0 w : World} {pg : Nat} {p : page} (k : not_entered q w0 w) :
    not_entered q w0 (w.set_page pg p) := ne_of_trace k rfl

theorem ne_modify {q : Nat} {w0 w : World} {pg : Nat} {f : page → page}
    (k : not_entered q w0 w) : not_entered q w0 (modify_page w pg f) := ne_of_trace k rfl

theorem ne_trylock {q : Nat} {w0 w : World} {pg : Nat} (k : not_entered q w0 w) :
    not_entered q w0 (trylock_page w pg).2 := by
  unfold trylock_page
  split
  · exact ne_log k rfl
  · exact ne_log (ne_set_page k) rfl

theorem ne_lock {q : Nat} {w0 w : World} {pg : Nat} (k : not_entered q w0 w) :
    not_entered q w0 (lock_page w pg) := ne_log (ne_set_page k) rfl

theorem ne_unlock {q : Nat} {w0 w : World} {pg : Nat} (k : not_entered q w0 w) :
    not_entered q w0 (unlock_page w pg) := ne_log (ne_set_page k) rfl

theorem ne_wait_writeback {q : Nat} {w0 w : World} {pg : Nat} (k : not_entered q w0 w) :
    not_entered q w0 (wait_on_page_writeback w pg) := ne_log (ne_set_page k) rfl

theorem ne_get_page {q : Nat} {w0 w : World} {pg : Nat} (k : not_entered q w0 w) :
    not_entered q w0 (get_page w pg) := ne_set_page k

theorem ne_putback {q : Nat} {w0 w : World} {pg : Nat} (k : not_entered q w0 w) :
    not_entered q w0 (putback_lru_page w pg) := ne_log (ne_set_page k) rfl

theorem ne_bug_on {q : Nat} {w0 w : World} {c : Bool} (k : not_entered q w0 w) :
    not_entered q w0 (BUG_ON w c) := by
  unfold BUG_ON
  split
  · exact ne_of_trace k rfl
  · exact k

theorem ne_dec_zone {q : Nat} {w0 w : World} {pg : Nat} {item : zone_stat_item}
    (k : not_entered q w0 w) : not_entered q w0 (dec_zone_page_state w pg item) :=
  ne_of_trace k rfl

theorem ne_inc_zone {q : Nat} {w0 w : World} {pg : Nat} {item : zone_stat_item}
    (k : not_entered q w0 w) : not_entered q w0 (inc_zone_page_state w pg item) :=
  ne_of_trace k rfl

theorem ne_list_del {q : Nat} {w0 w : World} {pg : Nat} (k : not_entered q w0 w) :
    not_entered q w0 (list_del w pg) := ne_of_trace k rfl

theorem ne_store_result {q : Nat} {w0 w : World} {result : Option Nat} {rc : Int}
    {newpage : Nat} (k : not_entered q w0 w) :
    not_entered q w0 (store_result w result rc newpage) := by
  unfold store_result
  split
  · split
    · exact ne_of_trace k rfl
    · exact ne_of_trace k rfl
  · exact k

theorem ne_set_pte_at {q : Nat} {w0 w : World} {mm addr : Nat} {e : pte_t}
    (k : not_entered q w0 w) : not_entered q w0 (set_pte_at w mm addr e) := ne_of_trace k rfl

theorem ne_page_add_rmap {q : Nat} {w0 w : World} {pg : Nat} (k : not_entered q w0 w) :
    not_entered q w0 (page_add_rmap w pg) := ne_set_page k

theorem ne_radix_tree_replace_slot {q : Nat} {w0 w : World} {mapping index item : Nat}
    (k : not_entered q w0 w) :
    not_entered q w0 (radix_tree_replace_slot w mapping index item) := ne_of_trace k rfl

theorem ne_freeze {q : Nat} {w0 w : World} {pg : Nat} {count : Int} (k : not_entered q w0 w) :
    not_entered q w0 (page_freeze_refs w pg count).2 := by
  unfold page_freeze_refs
  split
  · exact ne_set_page k
  · exact k

theorem ne_unfreeze {q : Nat} {w0 w : World} {pg : Nat} {count : Int}
    (k : not_entered q w0 w) : not_entered q w0 (page_unfreeze_refs w pg count) :=
  ne_set_page k

theorem ne_rmap_walk_list {q : Nat} {w0 : World}
    (fn : World → vm_area_struct → Nat → Int × World)
    (hfn : ∀ w vma addr, not_entered q w0 w → not_entered q w0 (fn w vma addr).2) :
    ∀ (l : List (vm_area_struct × Nat)) (w : World), not_entered q w0 w →
      not_entered q w0 (rmap_walk_list fn l w) := by
  intro l
  induction l with
  | nil => intro w k; exact k
  | cons x rest ih =>
    intro w k
    obtain ⟨vma, addr⟩ := x
    simp only [rmap_walk_list]
    split
    · exact hfn w vma addr k
    · exact ih _ (hfn w vma addr k)

theorem ne_rmap_walk {q : Nat} {w0 w : World} {pg : Nat}
    {fn : World → vm_area_struct → Nat → Int × World} (k : not_entered q w0 w)
    (hfn : ∀ w vma addr, not_entered q w0 w → not_entered q w0 (fn w vma addr).2) :
    not_entered q w0 (rmap_walk w pg fn) := by
  unfold rmap_walk
  split
  · exact k
  · exact ne_rmap_walk_list fn hfn _ w k

theorem ne_remove_migration_pte {q : Nat} {w0 w : World} {new : Nat}
    {vma : vm_area_struct} {addr old : Nat} (k : not_entered q w0 w) :
    not_entered q w0 (remove_migration_pte w new vma addr old).2 := by
  unfold remove_migration_pte
  simp only
  repeat' split
  all_goals exact k

theorem ne_remove_migration_ptes {q : Nat} {w0 w : World} {old new : Nat}
    (k : not_entered q w0 w) : not_entered q w0 (remove_migration_ptes w old new) :=
  ne_rmap_walk (ne_log k rfl) (fun _ _ _ k1 => ne_remove_migration_pte k1)

theorem ne_try_to_unmap_one {q : Nat} {w0 w : World} {E : Env} {pg : Nat}
    {vma : vm_area_struct} {addr : Nat} (k : not_entered q w0 w) :
    not_entered q w0 (try_to_unmap_one E pg w vma addr) := by
  unfold try_to_unmap_one
  repeat' split
  all_goals exact k

theorem ne_try_to_unmap {q : Nat} {w0 w : World} {E : Env} {pg : Nat}
    (k : not_entered q w0 w) : not_entered q w0 (try_to_unmap E w pg) :=
  ne_rmap_walk (ne_log k rfl) (fun _ _ _ k1 => ne_try_to_unmap_one k1)

theorem ne_mlock_migrate_page {q : Nat} {w0 w : World} {newpage pg : Nat}
    (k : not_entered q w0 w) : not_entered q w0 (mlock_migrate_page w newpage pg) := by
  unfold mlock_migrate_page
  split
  · exact ne_inc_zone (ne_modify (ne_dec_zone (ne_modify k)))
  · exact k

theorem ne_migrate_page_copy {q : Nat} {w0 w : World} {newpage pg : Nat}
    (k : not_entered q w0 w) : not_entered q w0 (migrate_page_copy w newpage pg) := by
  unfold migrate_page_copy
  lift_lets
  intro w1 w2 w3 w4 w5 w6 w7 w8 w9 w10 w11 w12 w13 w14
  have k1 : not_entered q w0 w1 := ne_log k rfl
  have k2 : not_entered q w0 w2 := ne_modify k1
  have k3 : not_entered q w0 w3 := ne_ite _ (ne_modify k2) k2
  have k4 : not_entered q w0 w4 := ne_ite _ (ne_modify k3) k3
  have k5 : not_entered q w0 w5 := ne_ite _ (ne_modify k4) k4
  have k6 : not_entered q w0 w6 :=
    ne_ite _ (ne_modify (ne_modify k5)) (ne_ite _ (ne_modify (ne_modify k5)) k5)
  have k7 : not_entered q w0 w7 := ne_ite _ (ne_modify k6) k6
  have k8 : not_entered q w0 w8 := ne_ite _ (ne_modify k7) k7
  have k9 : not_entered q w0 w9 := ne_ite _ (ne_modify (ne_modify k8)) k8
  have k10 : not_entered q w0 w10 := ne_mlock_migrate_page k9
  have k11 : not_entered q w0 w11 := ne_log k10 rfl
  have k12 : not_entered q w0 w12 := ne_modify k11
  have k13 : not_entered q w0 w13 := ne_modify k12
  have k14 : not_entered q w0 w14 := ne_modify k13
  exact ne_ite _ (ne_modify k14) k14

theorem ne_move_mapping_commit {q : Nat} {w0 w : World} {m slot newpage pg : Nat}
    {expected_count : Int} (k : not_entered q w0 w) :
    not_entered q w0 (migrate_page_move_mapping_commit w m slot newpage pg expected_count) := by
  unfold migrate_page_move_mapping_commit
  lift_lets
  intro w2 w3 w4 w5 w6 w7
  have k2 : not_entered q w0 w2 := ne_get_page k
  have k3 : not_entered q w0 w3 := ne_ite _ (ne_modify k2) k2
  have k4 : not_entered q w0 w4 := ne_radix_tree_replace_slot k3
  have k5 : not_entered q w0 w5 := ne_unfreeze k4
  have k6 : not_entered q w0 w6 := ne_dec_zone k5
  have k7 : not_entered q w0 w7 := ne_inc_zone k6
  exact ne_ite _ (ne_inc_zone (ne_dec_zone k7)) k7

theorem ne_move_mapping_lock {q : Nat} {w0 w : World} {head : Option Nat}
    {mode : migrate_mode} (k : not_entered q w0 w) :
    not_entered q w0 (migrate_page_move_mapping_lock w head mode).2 := by
  unfold migrate_page_move_mapping_lock
  split
  · exact k
  · split
    · exact ne_of_trace k rfl
    · exact k

theorem ne_move_mapping {q : Nat} {w0 w : World} {mapping : Option Nat} {newpage pg : Nat}
    {head : Option Nat} {mode : migrate_mode} (k : not_entered q w0 w) :
    not_entered q w0 (migrate_page_move_mapping w mapping newpage pg head mode).2 := by
  unfold migrate_page_move_mapping
  split
  · exact ne_ite_snd _ k k
  · lift_lets
    intro slot expected_count fr lk
    have kfr : not_entered q w0 fr.2 := ne_freeze k
    have klk : not_entered q w0 lk.2 := ne_move_mapping_lock kfr
    exact ne_ite_snd _ k (ne_ite_snd _ kfr (ne_ite_snd _ (ne_unfreeze klk)
      (ne_move_mapping_commit klk)))

theorem ne_migrate_page {q : Nat} {w0 w : World} {mapping : Option Nat} {newpage pg : Nat}
    {mode : migrate_mode} (k : not_entered q w0 w) :
    not_entered q w0 (migrate_page w mapping newpage pg mode).2 := by
  unfold migrate_page
  lift_lets
  intro w1 r
  have kr : not_entered q w0 r.2 := ne_move_mapping (ne_bug_on k)
  exact ne_ite_snd _ kr (ne_migrate_page_copy kr)

theorem ne_writeout {q : Nat} {w0 w : World} {E : Env} {mapping pg : Nat}
    (k : not_entered q w0 w) : not_entered q w0 (writeout E w mapping pg).2 := by
  unfold writeout
  split
  · exact k
  · lift_lets
    intro w1 w2 r w3 w4
    have k2 : not_entered q w0 w2 := ne_remove_migration_ptes (ne_modify k)
    have k3 : not_entered q w0 w3 := ne_protect k2 rfl
    have k4 : not_entered q w0 w4 := ne_ite _ (ne_lock k3) k3
    exact ne_ite_snd _ k (by exact k4)

theorem ne_fallback {q : Nat} {w0 w : World} {E : Env} {mapping newpage pg : Nat}
    {mode : migrate_mode} (k : not_entered q w0 w) :
    not_entered q w0 (fallback_migrate_page E w mapping newpage pg mode).2 := by
  unfold fallback_migrate_page
  split
  · exact ne_ite_snd _ k (ne_writeout k)
  · lift_lets
    intro r rel
    have krel : not_entered q w0 rel.2 := by
      apply ne_ite_snd
      · exact ne_protect k rfl
      · exact k
    exact ne_ite_snd _ krel (ne_migrate_page krel)

theorem ne_prepare {q : Nat} {w0 w : World} {newpage pg : Nat} (k : not_entered q w0 w) :
    not_entered q w0 (move_to_new_page_prepare w newpage pg) := by
  unfold move_to_new_page_prepare
  lift_lets
  intro t w1 w2 w3
  have k1 : not_entered q w0 w1 := ne_bug_on (ne_trylock k)
  have k2 : not_entered q w0 w2 := ne_modify k1
  have k3 : not_entered q w0 w3 := ne_modify k2
  exact ne_ite _ (ne_modify k3) k3

theorem ne_finish {q : Nat} {w0 w : World} {newpage pg : Nat} {remap_swapcache : Bool}
    {rc : Int} (k : not_entered q w0 w) :
    not_entered q w0 (move_to_new_page_finish w newpage pg remap_swapcache rc) := by
  unfold move_to_new_page_finish
  lift_lets
  intro w2 w1
  have k2 : not_entered q w0 w2 := ne_ite _ (ne_remove_migration_ptes k) k
  have k1 : not_entered q w0 w1 := ne_ite _ (ne_modify k) (ne_modify k2)
  exact ne_unlock k1

theorem ne_move_to_new_page {q : Nat} {w0 w : World} {E : Env} {newpage pg : Nat}
    {remap_swapcache : Bool} {mode : migrate_mode} (k : not_entered q w0 w) :
    not_entered q w0 (move_to_new_page E w newpage pg remap_swapcache mode).2 := by
  unfold move_to_new_page
  lift_lets
  intro w1 r
  have k1 : not_entered q w0 w1 := ne_prepare (ne_log k rfl)
  have kr : not_entered q w0 r.2 := by
    show not_entered q w0 (match page_mapping E w1 pg with
      | none => migrate_page w1 none newpage pg mode
      | some m =>
        match E.migratepage m with
        | some hook =>
          ((hook w1 newpage pg mode).1,
            protect w1 (hook w1 newpage pg mode).2 (Event.hook_migratepage newpage pg))
        | none => fallback_migrate_page E w1 m newpage pg mode).2
    split
    · exact ne_migrate_page k1
    · split
      · exact ne_protect k1 rfl
      · exact ne_fallback k1
  exact ne_finish kr

theorem ne_uncharge {q : Nat} {w0 w : World} {pg newpage : Nat} {rc : Int}
    (k : not_entered q w0 w) : not_entered q w0 (unmap_and_move_uncharge w pg newpage rc).2 :=
  ne_unlock (ne_log k rfl)

theorem ne_skip_unmap {q : Nat} {w0 w : World} {E : Env} {pg newpage : Nat}
    {remap_swapcache : Bool} {anon_vma : Option Nat} {mode : migrate_mode}
    (k : not_entered q w0 w) :
    not_entered q w0
      (unmap_and_move_skip_unmap E w pg newpage remap_swapcache anon_vma mode).2 := by
  unfold unmap_and_move_skip_unmap
  lift_lets
  intro r w1 w2
  have kr : not_entered q w0 r.2 := ne_ite_snd _ (ne_move_to_new_page k) k
  have k1 : not_entered q w0 w1 := ne_ite _ (ne_remove_migration_ptes kr) kr
  have k2 : not_entered q w0 w2 := by
    show not_entered q w0 (match anon_vma with
      | some a => w1.log (Event.put_anon_vma a)
      | none => w1)
    split
    · exact ne_log k1 rfl
    · exact k1
  exact ne_uncharge k2

theorem ne___unmap_and_move {q : Nat} {w0 w : World} {E : Env} {pg newpage : Nat}
    {force : Bool} {mode : migrate_mode} (k : not_entered q w0 w) (h1 : pg ≠ q) :
    not_entered q w0 (__unmap_and_move E w pg newpage force mode).2 := by
  unfold __unmap_and_move
  lift_lets
  intro wa t wb wc wd w1 a anon_vma remap_swapcache we b wf wg
  have ka : not_entered q w0 wa := ne_log k (by simp [is_entry, h1])
  have kt : not_entered q w0 t.2 := ne_trylock ka
  have kb : not_entered q w0 wb := ne_ite _ (ne_lock kt) kt
  have kc : not_entered q w0 wc := ne_log kb rfl
  have kd : not_entered q w0 wd := ne_ite _ (ne_wait_writeback kc) kc
  have k1 : not_entered q w0 w1 := ne_log kd rfl
  have ke : not_entered q w0 we := by
    show not_entered q w0 (if (PageAnon wd pg && !PageKsm wd pg) = true then
        match E.page_get_anon_vma wd pg with
        | some av => (some av, true, false, w1)
        | none =>
          if (wd.mem pg).PG_swapcache = true then (none, false, false, w1)
          else (none, true, true, w1)
      else ((none : Option Nat), true, false, wd)).2.2.2
    split
    · split
      · exact k1
      · split
        · exact k1
        · exact k1
    · exact kd
  have kf : not_entered q w0 wf := ne_protect ke rfl
  have kg : not_entered q w0 wg := ne_try_to_unmap ke
  have kbal : not_entered q w0 (protect we b.2 (Event.balloon_page_migrate newpage pg)) :=
    ne_protect ke rfl
  exact ne_ite_snd _ kt (ne_ite_snd _ kt (ne_ite_snd _ (ne_uncharge kc)
    (ne_ite_snd _ (ne_uncharge kc) (ne_ite_snd _ (ne_uncharge ke)
      (ne_ite_snd _ (ne_uncharge kbal) (ne_ite_snd _
        (ne_ite_snd _ (ne_uncharge kf) (ne_skip_unmap ke))
        (ne_skip_unmap kg)))))))

theorem ne_out {q : Nat} {w0 w : World} {pg newpage : Nat} {result : Option Nat}
    {rc : Int} (k : not_entered q w0 w) :
    not_entered q w0 (unmap_and_move_out w pg newpage result rc).2 := by
  unfold unmap_and_move_out
  lift_lets
  intro v1 v2 w1 w2
  have k1 : not_entered q w0 w1 := ne_ite _ (ne_putback (ne_dec_zone (ne_list_del k))) k
  exact ne_store_result (ne_putback k1)

/-- An invocation of the single-page function for frame `pg` adds no entry
    into `__unmap_and_move` for another frame to the trace. -/
theorem ne_unmap_and_move {q : Nat} {w0 w : World} {E : Env} {private_ pg : Nat}
    {force : Bool} {mode : migrate_mode} (k : not_entered q w0 w) (h1 : pg ≠ q) :
    not_entered q w0 (unmap_and_move E private_ w pg force mode).2 := by
  unfold unmap_and_move
  lift_lets
  intro g w1
  have k1 : not_entered q w0 w1 := ne_log k rfl
  show not_entered q w0 (match g.1 with
    | none => (- ENOMEM, w1)
    | some newpage =>
      if page_count w1 pg = 1 then unmap_and_move_out w1 pg newpage g.2 0
      else
        let s : Bool × World :=
          if (w1.mem pg).trans_huge then
            let r := E.split_huge_page w1 pg
            (decide (r.1 ≠ 0), protect w1 r.2 (Event.split_huge_page pg))
          else (false, w1)
        if s.1 then unmap_and_move_out s.2 pg newpage g.2 0
        else
          let r := __unmap_and_move E s.2 pg newpage force mode
          if r.1 = MIGRATEPAGE_BALLOON_SUCCESS then
            let w1 := dec_zone_page_state r.2 pg (isolated_item r.2 pg)
            (MIGRATEPAGE_SUCCESS, w1.log (Event.balloon_page_free pg))
          else unmap_and_move_out r.2 pg newpage g.2 r.1).2
  split
  · exact k1
  · rename_i newpage hnew
    lift_lets
    intro r0 s r w2
    have ks : not_entered q w0 s.2 := by
      apply ne_ite_snd
      · exact ne_protect k1 rfl
      · exact k1
    have kr : not_entered q w0 r.2 := ne___unmap_and_move ks h1
    exact ne_ite_snd _ (ne_out k1) (ne_ite_snd _ (ne_out ks)
      (ne_ite_snd _ (ne_log (ne_dec_zone kr) rfl) (ne_out kr)))

/-- A frame that no invocation before number `i` was called for has no entry
    into `__unmap_and_move` in the trace when invocation number `i` starts. -/
theorem visit_before_not_entered (E : Env) (private_ : Nat) (mode : migrate_mode)
    (q : Nat) (w0 : World) :
    ∀ (vs : List visit) (wa wb : World) (i : Nat) (v : visit),
      visits_from E private_ mode wa vs wb → vs[i]? = some v → not_entered q w0 wa →
      (∀ u ∈ vs.take i, u.pg ≠ q) → not_entered q w0 v.before := by
  intro vs
  induction vs with
  | nil => intro wa wb i v _ hv; simp at hv
  | cons u rest ih =>
    intro wa wb i v h hv k hfree
    simp only [visits_from] at h
    cases i with
    | zero =>
      simp only [List.getElem?_cons_zero, Option.some.injEq] at hv
      rw [← hv, h.1]
      exact k
    | succ j =>
      simp only [List.getElem?_cons_succ] at hv
      have hu := hfree u (by simp)
      refine ih _ wb j v h.2 hv ?_ (fun x hx => hfree x (by simp [hx]))
      rw [← h.1] at k
      exact ne_unmap_and_move k hu

/-- The invocations recorded by `migrate_pages` follow one another from a state
    that has the frames, the working list and the trace of the call. -/
theorem migrate_pages_chain_trace (E : Env) (private_ : Nat) (mode : migrate_mode)
    (w : World) :
    ∃ wa wb, wa.trace = w.trace ∧
      visits_from E private_ mode wa (migrate_pages E private_ mode w).visits wb := by
  refine ⟨if !w.PF_SWAPWRITE then { w with PF_SWAPWRITE := true } else w, _, ?_,
    migrate_pages_loop_chain E private_ mode _ 10 0
      (mp_state.mk 1 0 0 (if !w.PF_SWAPWRITE then { w with PF_SWAPWRITE := true } else w) [] 0)
      rfl⟩
  split <;> rfl

theorem not_entered_no_event {q : Nat} {w0 w : World} (k : not_entered q w0 w) :
    ∃ l : List Event, w.trace = w0.trace ++ l ∧
      ∀ np f, Event.__unmap_and_move q np f ∉ l := by
  obtain ⟨l, hl, hq⟩ := k
  refine ⟨l, hl, fun np f hmem => ?_⟩
  have h := hq _ hmem
  simp [is_entry] at h

/-! ## The single-page entry point and the factory -/

/-- When the factory returns `NULL`, `unmap_and_move` returns `-ENOMEM` and does
    nothing else: the state is the one before the call with the factory call
    added to the ghost trace. -/
theorem unmap_and_move_factory_none (E : Env) (private_ : Nat) (w : World) (pg : Nat)
    (force : Bool) (mode : migrate_mode) (h : (E.get_new_page w pg private_).1 = none) :
    unmap_and_move E private_ w pg force mode =
      (- ENOMEM, w.log (Event.get_new_page pg none)) := by
  simp only [unmap_and_move, h]

/-- When the factory returns `NULL` for the frame of invocation number `i`,
    `migrate_pages` returns `-ENOMEM`, that invocation is the last one, and the
    state left is the state `v.before` with the factory call recorded. -/
theorem factory_none_stops_run (E : Env) (private_ : Nat) (mode : migrate_mode)
    (w : World) (i : Nat) (v : visit)
    (hv : (migrate_pages E private_ mode w).visits[i]? = some v)
    (hnone : (E.get_new_page v.before v.pg private_).1 = none) :
    (migrate_pages E private_ mode w).rc = - ENOMEM ∧
      (migrate_pages E private_ mode w).visits.length = i + 1 ∧
      (migrate_pages E private_ mode w).w.trace =
        v.before.trace ++ [Event.get_new_page v.pg none] ∧
      (migrate_pages E private_ mode w).w.mem = v.before.mem ∧
      (migrate_pages E private_ mode w).w.from_ = v.before.from_ ∧
      (migrate_pages E private_ mode w).w.page_tree = v.before.page_tree ∧
      (migrate_pages E private_ mode w).w.pte = v.before.pte ∧
      (migrate_pages E private_ mode w).nr_succeeded =
        (successes ((migrate_pages E private_ mode w).visits.take i) : Nat) := by
  obtain ⟨l, post, hvis, -, -, hs, hrc, hmem, hfrom, htree, hpte, htrace⟩ :=
    migrate_pages_unfold E private_ mode w
  rw [hvis] at hv ⊢
  rw [hrc, hs, hmem, hfrom, htree, hpte, htrace]
  have hmemv : v ∈ l.2.visits := List.getElem?_mem hv
  have hrcv : v.rc = - ENOMEM := by
    rw [post.logged v hmemv, unmap_and_move_factory_none E private_ _ _ _ _ hnone]
  have hl : l.1 = true := by
    cases hb : l.1 with
    | true => rfl
    | false => exact absurd hrcv (post.completed hb v hmemv)
  obtain ⟨init, last, hinit, hlast, hno, -, hw⟩ := post.aborted hl
  have hi : i = init.length := by
    rw [hinit] at hv
    by_contra hne
    have hlt : i < (init ++ [last]).length := by
      by_contra hge
      rw [List.getElem?_eq_none (by omega)] at hv
      exact absurd hv (by simp)
    have hlt2 : i < init.length := by
      simp at hlt; omega
    rw [List.getElem?_append_left hlt2] at hv
    exact hno v (List.getElem?_mem hv) hrcv
  have hvl : v = last := by
    rw [hinit, hi] at hv
    simpa using hv.symm
  subst hvl
  rw [unmap_and_move_factory_none E private_ _ _ _ _ hnone] at hw
  rw [hw, post.succeeded_eq, hinit, hi]
  refine ⟨by simp [hl], by simp, rfl, rfl, rfl, rfl, rfl, ?_⟩
  simp [successes, List.countP_append, (visit_kinds_oom v hrcv).2.1]

/-- Claim C3, as the code has it.  If the factory returns `NULL` for the frame
    of the invocation number `i` (counted from 0 over the whole run),
    `migrate_pages` returns `-ENOMEM`; that invocation is the last one, so no
    later frame is visited; the only event after the state `v.before` in which
    the factory was asked is the factory call itself, so `__unmap_and_move` is
    not entered in that invocation; the frame descriptors, the working list,
    the cache slots and the translations are exactly those of `v.before`, so
    what the earlier invocations did stays; the successes counted are those of
    the earlier invocations.  When the services of the environment only touch
    the frames they are called for, every frame that no earlier invocation was
    called for or got as its destination has the descriptor it had when
    `migrate_pages` was called, and is on the working list if it was.  When
    the failing invocation is one of the first `w.from_.length` ones, it
    belongs to the first pass and the invocations were for the first `i + 1`
    frames of the list, in order; then, for a list without repetition, no
    invocation but number `i` was for the frame of the failing invocation or
    for a frame behind it, and the run added no entry into `__unmap_and_move`
    for one of these frames to the trace; if moreover the services of the
    environment only touch the frames they are called for and the factory
    never hands out a frame of the list, these frames are on the working list
    with the descriptors they had at the call. -/
theorem migrate_pages_factory_none (E : Env) (private_ : Nat) (mode : migrate_mode)
    (w : World) (i : Nat) (v : visit)
    (hv : (migrate_pages E private_ mode w).visits[i]? = some v)
    (hnone : (E.get_new_page v.before v.pg private_).1 = none) :
    (migrate_pages E private_ mode w).rc = - ENOMEM ∧
      (migrate_pages E private_ mode w).visits.length = i + 1 ∧
      (migrate_pages E private_ mode w).w.trace =
        v.before.trace ++ [Event.get_new_page v.pg none] ∧
      (migrate_pages E private_ mode w).w.mem = v.before.mem ∧
      (migrate_pages E private_ mode w).w.from_ = v.before.from_ ∧
      (migrate_pages E private_ mode w).w.page_tree = v.before.page_tree ∧
      (migrate_pages E private_ mode w).w.pte = v.before.pte ∧
      (migrate_pages E private_ mode w).nr_succeeded =
        (successes ((migrate_pages E private_ mode w).visits.take i) : Nat) ∧
      (env_local E → ∀ q,
        (∀ u ∈ (migrate_pages E private_ mode w).visits.take i,
          u.pg ≠ q ∧ (E.get_new_page u.before u.pg private_).1 ≠ some q) →
        (migrate_pages E private_ mode w).w.mem q = w.mem q ∧
          (q ∈ w.from_ → q ∈ (migrate_pages E private_ mode w).w.from_)) ∧
      (i < w.from_.length →
        v.pass = 0 ∧
        (migrate_pages E private_ mode w).visits.map visit.pg = w.from_.take (i + 1) ∧
        (w.from_.Nodup →
          (∀ j u, (migrate_pages E private_ mode w).visits[j]? = some u →
            u.pg ∈ w.from_.drop i → j = i) ∧
          (∀ q ∈ w.from_.drop i, ∃ l : List Event,
            (migrate_pages E private_ mode w).w.trace = w.trace ++ l ∧
              ∀ np f, Event.__unmap_and_move q np f ∉ l) ∧
          (env_local E →
            (∀ w1 pg q, (E.get_new_page w1 pg private_).1 = some q → q ∉ w.from_) →
            ∀ q ∈ w.from_.drop i,
              (migrate_pages E private_ mode w).w.mem q = w.mem q ∧
                q ∈ (migrate_pages E private_ mode w).w.from_))) := by
  have main : (migrate_pages E private_ mode w).rc = - ENOMEM ∧
      (migrate_pages E private_ mode w).visits.length = i + 1 ∧
      (migrate_pages E private_ mode w).w.trace =
        v.before.trace ++ [Event.get_new_page v.pg none] ∧
      (migrate_pages E private_ mode w).w.mem = v.before.mem ∧
      (migrate_pages E private_ mode w).w.from_ = v.before.from_ ∧
      (migrate_pages E private_ mode w).w.page_tree = v.before.page_tree ∧
      (migrate_pages E private_ mode w).w.pte = v.before.pte ∧
      (migrate_pages E private_ mode w).nr_succeeded =
        (successes ((migrate_pages E private_ mode w).visits.take i) : Nat) :=
    factory_none_stops_run E private_ mode w i v hv hnone
  obtain ⟨c1, c2, c3, c4, c5, c6, c7, c8⟩ := main
  have c9 : env_local E → ∀ q,
      (∀ u ∈ (migrate_pages E private_ mode w).visits.take i,
        u.pg ≠ q ∧ (E.get_new_page u.before u.pg private_).1 ≠ some q) →
      (migrate_pages E private_ mode w).w.mem q = w.mem q ∧
        (q ∈ w.from_ → q ∈ (migrate_pages E private_ mode w).w.from_) := by
    intro hE q hfree
    obtain ⟨wa, wb, hm, hf, hch⟩ := migrate_pages_chain E private_ mode w
    have k0 : keeps q w wa := ⟨by rw [hm], fun h => by rw [hf]; exact h⟩
    have kv := visit_before_keeps E private_ mode hE q w _ wa wb i v hch hv k0 hfree
    exact ⟨by rw [c4]; exact kv.1, fun h => by rw [c5]; exact kv.2 h⟩
  refine ⟨c1, c2, c3, c4, c5, c6, c7, c8, c9, ?_⟩
  intro hi
  obtain ⟨new, later, hsplit, hpgs, hpass, hfull⟩ := migrate_pages_first_pass E private_ mode w
  have hlen : new.length + later.length = i + 1 := by
    rw [← c2, hsplit, List.length_append]
  have hlater : later = [] := by
    by_contra hne
    have h1 := hfull hne
    have h2 : 1 ≤ later.length := by
      cases later with
      | nil => exact absurd rfl hne
      | cons a l => simp
    omega
  have hvis : (migrate_pages E private_ mode w).visits = new := by
    rw [hsplit, hlater, List.append_nil]
  have hnl : new.length = i + 1 := by
    rw [hlater] at hlen
    simpa using hlen
  have hmap : (migrate_pages E private_ mode w).visits.map visit.pg = w.from_.take (i + 1) := by
    rw [hvis, hpgs, hnl]
  have hearlier : ∀ j u, (migrate_pages E private_ mode w).visits[j]? = some u → j < i →
      u.pg ∈ w.from_.take i := by
    intro j u hu hj
    have h1 : ((migrate_pages E private_ mode w).visits.map visit.pg)[j]? = some u.pg := by
      rw [List.getElem?_map, hu]
      rfl
    rw [hmap] at h1
    have h2 : (w.from_.take i)[j]? = some u.pg := by
      rw [List.getElem?_take] at h1 ⊢
      rw [if_pos (by omega)] at h1
      rw [if_pos hj]
      exact h1
    exact List.getElem?_mem h2
  refine ⟨?_, hmap, ?_⟩
  · apply hpass
    rw [← hvis]
    exact List.getElem?_mem hv
  · intro hnd
    have hfree : ∀ q ∈ w.from_.drop i,
        ∀ u ∈ (migrate_pages E private_ mode w).visits.take i, u.pg ≠ q := by
      intro q hq u hu
      obtain ⟨j, hj⟩ := List.getElem?_of_mem hu
      rw [List.getElem?_take] at hj
      have hji : j < i := by
        by_contra hge
        rw [if_neg hge] at hj
        exact absurd hj (by simp)
      rw [if_pos hji] at hj
      intro heq
      exact List.disjoint_take_drop hnd (le_refl i) (hearlier j u hj hji) (heq ▸ hq)
    refine ⟨?_, ?_, ?_⟩
    · intro j u hu hq
      obtain ⟨hjl, -⟩ := List.getElem?_eq_some.1 hu
      rw [c2] at hjl
      by_contra hne
      have hji : j < i := by omega
      exact List.disjoint_take_drop hnd (le_refl i) (hearlier j u hu hji) hq
    · intro q hq
      obtain ⟨wa, wb, htr, hch⟩ := migrate_pages_chain_trace E private_ mode w
      have k0 : not_entered q w wa := ne_of_trace (ne_refl q w) htr
      have kv := visit_before_not_entered E private_ mode q w _ wa wb i v hch hv k0 (hfree q hq)
      have kf : not_entered q w (migrate_pages E private_ mode w).w :=
        ne_append kv c3 rfl
      exact not_entered_no_event kf
    · intro hE hfresh q hq
      have hqm : q ∈ w.from_ := List.mem_of_mem_drop hq
      have h := c9 hE q (fun u hu =>
        ⟨hfree q hq u hu, fun hsome => hfresh _ _ _ hsome hqm⟩)
      exact ⟨h.1, h.2 hqm⟩

theorem demo_env_fresh (l : List Nat) (hl : ∀ q ∈ l, q < 100) :
    ∀ (w1 : World) (pg q : Nat), (demo_env.get_new_page w1 pg 0).1 = some q →
      q ∉ (demo_world l).from_ := by
  intro w1 pg q h hq
  have h2 : (if pg = 2 then ((none : Option Nat), (none : Option Nat))
      else (some (pg + 100), some pg)).1 = some q := h
  have hq2 : q < 100 := hl q hq
  split at h2
  · simp at h2
  · simp only [Option.some.injEq] at h2
    omega

/-- Witness of claim C3: the working list `[0, 1, 2, 3, 4]` of the example,
    where the factory returns `NULL` for the third frame.  The run returns
    `-ENOMEM` after three invocations, all of the first pass, for frames 0, 1
    and 2; frames 0 and 1 are counted as migrated and their content is in
    frames 100 and 101, and frames 2, 3 and 4 are on the list with the
    descriptors they had at the start.  The services of the example
    environment only touch the frames they are called for, the list has no
    repetition and the factory hands out frames from 100 on. -/
theorem migrate_pages_factory_none_witness :
    ∃ v, (migrate_pages demo_env 0 MIGRATE_ASYNC (demo_world [0, 1, 2, 3, 4])).visits[2]? =
        some v ∧
      (demo_env.get_new_page v.before v.pg 0).1 = none ∧
      v.pass = 0 ∧
      (migrate_pages demo_env 0 MIGRATE_ASYNC (demo_world [0, 1, 2, 3, 4])).rc = - ENOMEM ∧
      (migrate_pages demo_env 0 MIGRATE_ASYNC (demo_world [0, 1, 2, 3, 4])).visits.length = 3 ∧
      (migrate_pages demo_env 0 MIGRATE_ASYNC (demo_world [0, 1, 2, 3, 4])).visits.map visit.pg =
        [0, 1, 2] ∧
      (migrate_pages demo_env 0 MIGRATE_ASYNC (demo_world [0, 1, 2, 3, 4])).w.from_ =
        [2, 3, 4] ∧
      (migrate_pages demo_env 0 MIGRATE_ASYNC (demo_world [0, 1, 2, 3, 4])).nr_succeeded = 2 ∧
      (∀ pg ∈ [2, 3, 4],
        (migrate_pages demo_env 0 MIGRATE_ASYNC (demo_world [0, 1, 2, 3, 4])).w.mem pg =
          demo_mem pg ∧
        pg ∈ (migrate_pages demo_env 0 MIGRATE_ASYNC (demo_world [0, 1, 2, 3, 4])).w.from_) ∧
      (∀ pg ∈ [2, 3, 4], ∃ l : List Event,
        (migrate_pages demo_env 0 MIGRATE_ASYNC (demo_world [0, 1, 2, 3, 4])).w.trace =
          (demo_world [0, 1, 2, 3, 4]).trace ++ l ∧
        ∀ np f, Event.__unmap_and_move pg np f ∉ l) ∧
      ((migrate_pages demo_env 0 MIGRATE_ASYNC (demo_world [0, 1, 2, 3, 4])).w.mem 100).data =
        [1, 2, 3] ∧
      ((migrate_pages demo_env 0 MIGRATE_ASYNC (demo_world [0, 1, 2, 3, 4])).w.mem 101).data =
        [4, 5] ∧
      env_local demo_env := by
  cases h : (migrate_pages demo_env 0 MIGRATE_ASYNC (demo_world [0, 1, 2, 3, 4])).visits[2]? with
  | none =>
    have hsome : ((migrate_pages demo_env 0 MIGRATE_ASYNC
        (demo_world [0, 1, 2, 3, 4])).visits[2]?).isSome = true := rfl
    rw [h] at hsome
    exact absurd hsome (by simp)
  | some v =>
    have hpg : ((migrate_pages demo_env 0 MIGRATE_ASYNC
        (demo_world [0, 1, 2, 3, 4])).visits[2]?).map visit.pg = some 2 := rfl
    rw [h] at hpg
    have hpg2 : v.pg = 2 := by simpa using hpg
    have hnone : (demo_env.get_new_page v.before v.pg 0).1 = none := by
      simp [demo_env, hpg2]
    obtain ⟨h1, h2, -, -, -, -, -, -, -, h10⟩ := migrate_pages_factory_none demo_env 0
      MIGRATE_ASYNC (demo_world [0, 1, 2, 3, 4]) 2 v h hnone
    obtain ⟨hpass, hmap, hrest⟩ := h10 (by decide)
    obtain ⟨-, hquiet, hkeep⟩ := hrest (by decide)
    exact ⟨v, rfl, hnone, hpass, h1, h2, hmap, rfl, rfl,
      hkeep demo_env_local (demo_env_fresh [0, 1, 2, 3, 4] (by decide)), hquiet, rfl, rfl,
      demo_env_local⟩

/-- Counterexample to claim C3 as stated: the factory returns `NULL` on a
    second visit.  With the working list `[6]`, the mode `MIGRATE_SYNC`, a
    `writepage` hook and a factory with one spare frame, the first pass enters
    `__unmap_and_move` for the dirty frame 6, writes it out (which clears its
    dirty bit) and returns `-EAGAIN`; in the second pass the factory returns
    `NULL` for frame 6.  The run returns `-ENOMEM`, but the single-page
    function was entered for that frame and the frame is not in the state it
    had at the call. -/
theorem migrate_pages_factory_none_on_revisit :
    (migrate_pages revisit_env 0 MIGRATE_SYNC (demo_world [6])).visits.map
        (fun v => (v.pass, v.pg, v.rc)) = [(0, 6, - EAGAIN), (1, 6, - ENOMEM)] ∧
      ((migrate_pages revisit_env 0 MIGRATE_SYNC (demo_world [6])).visits[1]?).map
        (fun v => (revisit_env.get_new_page v.before v.pg 0).1) = some none ∧
      (migrate_pages revisit_env 0 MIGRATE_SYNC (demo_world [6])).rc = - ENOMEM ∧
      Event.__unmap_and_move 6 106 false ∈
        (migrate_pages revisit_env 0 MIGRATE_SYNC (demo_world [6])).w.trace ∧
      ((demo_world [6]).mem 6).PG_dirty = true ∧
      ((migrate_pages revisit_env 0 MIGRATE_SYNC (demo_world [6])).w.mem 6).PG_dirty = false ∧
      (migrate_pages revisit_env 0 MIGRATE_SYNC (demo_world [6])).w.mem 6 ≠
        (demo_world [6]).mem 6 := by
  refine ⟨rfl, rfl, rfl, of_decide_eq_true rfl, rfl, rfl, fun h => ?_⟩
  have h2 : ((migrate_pages revisit_env 0 MIGRATE_SYNC (demo_world [6])).w.mem 6).PG_dirty =
      ((demo_world [6]).mem 6).PG_dirty := congrArg page.PG_dirty h
  have h3 : false = true := h2
  exact Bool.noConfusion h3

/-! ## A frame whose only reference is the caller's -/

theorem putback_lru_page_data (w : World) (pg q : Nat) :
    ((putback_lru_page w pg).mem q).data = (w.mem q).data ∧
      ((putback_lru_page w pg).mem q).PG_locked = (w.mem q).PG_locked := by
  simp only [putback_lru_page, World.log, World.set_page, upd]
  split_ifs with h
  · subst h; exact ⟨rfl, rfl⟩
  · exact ⟨rfl, rfl⟩

theorem putback_lru_page_trace (w : World) (pg : Nat) :
    (putback_lru_page w pg).trace = w.trace ++ [Event.putback_lru_page pg] ∧
      (putback_lru_page w pg).from_ = w.from_ := ⟨rfl, rfl⟩

/-- With a reference count of 1 and a factory that returns a frame,
    `unmap_and_move` goes straight to the label `out` with `rc = 0`. -/
theorem unmap_and_move_count_one (E : Env) (private_ : Nat) (w : World) (pg newpage : Nat)
    (force : Bool) (mode : migrate_mode)
    (hnew : (E.get_new_page w pg private_).1 = some newpage)
    (hcount : (w.mem pg)._count = 1) :
    unmap_and_move E private_ w pg force mode =
      unmap_and_move_out (w.log (Event.get_new_page pg (some newpage))) pg newpage
        (E.get_new_page w pg private_).2 0 := by
  simp [unmap_and_move, hnew, page_count, World.log, hcount]

theorem store_result_fields (w : World) (result : Option Nat) (rc : Int) (newpage : Nat) :
    (store_result w result rc newpage).mem = w.mem ∧
      (store_result w result rc newpage).trace = w.trace ∧
      (store_result w result rc newpage).from_ = w.from_ ∧
      (store_result w result rc newpage).page_tree = w.page_tree ∧
      (store_result w result rc newpage).pte = w.pte ∧
      (store_result w result rc newpage).PGMIGRATE_SUCCESS = w.PGMIGRATE_SUCCESS := by
  cases result with
  | none => exact ⟨rfl, rfl, rfl, rfl, rfl, rfl⟩
  | some slot =>
    simp only [store_result]
    split <;> exact ⟨rfl, rfl, rfl, rfl, rfl, rfl⟩

/-- The label `out` of `unmap_and_move` with `rc = 0`: what it leaves behind. -/
theorem unmap_and_move_out_zero (w : World) (pg newpage : Nat) (result : Option Nat) :
    (unmap_and_move_out w pg newpage result 0).1 = 0 ∧
      (unmap_and_move_out w pg newpage result 0).2.trace =
        w.trace ++ [Event.putback_lru_page pg, Event.putback_lru_page newpage] ∧
      (unmap_and_move_out w pg newpage result 0).2.from_ = w.from_.erase pg ∧
      (∀ q, ((unmap_and_move_out w pg newpage result 0).2.mem q).data = (w.mem q).data) ∧
      (∀ q, ((unmap_and_move_out w pg newpage result 0).2.mem q).PG_locked =
        (w.mem q).PG_locked) ∧
      (unmap_and_move_out w pg newpage result 0).2.PGMIGRATE_SUCCESS = w.PGMIGRATE_SUCCESS := by
  have h0 : (0 : Int) ≠ - EAGAIN := by simp [EAGAIN]
  have hw : (unmap_and_move_out w pg newpage result 0).2 =
      store_result (putback_lru_page (putback_lru_page (dec_zone_page_state (list_del w pg) pg
        (isolated_item (list_del w pg) pg)) pg) newpage) result 0 newpage := by
    simp only [unmap_and_move_out, if_pos h0]
  refine ⟨rfl, ?_, ?_, ?_, ?_, ?_⟩
  rotate_left 4
  · rw [hw, (store_result_fields _ _ _ _).2.2.2.2.2]
    rfl
  · rw [hw, (store_result_fields _ _ _ _).2.1]
    simp [putback_lru_page_trace, dec_zone_page_state, mod_zone_stat, list_del]
  · rw [hw, (store_result_fields _ _ _ _).2.2.1]
    simp [putback_lru_page_trace, dec_zone_page_state, mod_zone_stat, list_del]
  · intro q
    rw [hw, (store_result_fields _ _ _ _).1]
    simp [(putback_lru_page_data _ _ _).1, dec_zone_page_state, mod_zone_stat, list_del]
  · intro q
    rw [hw, (store_result_fields _ _ _ _).1]
    simp [(putback_lru_page_data _ _ _).2, dec_zone_page_state, mod_zone_stat, list_del]

/-- Claim C10, as amended.  For a working list holding a single frame whose
    reference count is 1 and a factory that returns a frame, `migrate_pages`
    returns 0 and counts 1 success and no failure; the only events are the
    factory call and the two putbacks, so `__unmap_and_move` is not entered,
    the frame is not locked and nothing is copied: the content and the lock bit
    of every frame, the destination included, are what they were; the event
    counter of successful migrations goes up by 1. -/
theorem migrate_pages_single_unreferenced (E : Env) (private_ : Nat) (mode : migrate_mode)
    (w : World) (pg : Nat) (hlist : w.from_ = [pg]) (hcount : (w.mem pg)._count = 1)
    (hfac : ∀ w1 : World, (E.get_new_page w1 pg private_).1 ≠ none) :
    (migrate_pages E private_ mode w).rc = 0 ∧
      (migrate_pages E private_ mode w).nr_succeeded = 1 ∧
      (migrate_pages E private_ mode w).nr_failed = 0 ∧
      (migrate_pages E private_ mode w).passes = 1 ∧
      (migrate_pages E private_ mode w).w.from_ = [] ∧
      (∃ newpage, (migrate_pages E private_ mode w).w.trace =
        w.trace ++ [Event.get_new_page pg (some newpage), Event.putback_lru_page pg,
          Event.putback_lru_page newpage]) ∧
      (∀ q, ((migrate_pages E private_ mode w).w.mem q).data = (w.mem q).data) ∧
      (∀ q, ((migrate_pages E private_ mode w).w.mem q).PG_locked = (w.mem q).PG_locked) ∧
      (migrate_pages E private_ mode w).w.PGMIGRATE_SUCCESS = w.PGMIGRATE_SUCCESS + 1 := by
  obtain ⟨w0, hw0, hw0mem, hw0from, hw0trace, hw0ev⟩ : ∃ w0 : World,
      w0 = (if !w.PF_SWAPWRITE then { w with PF_SWAPWRITE := true } else w) ∧
      w0.mem = w.mem ∧ w0.from_ = w.from_ ∧ w0.trace = w.trace ∧
      w0.PGMIGRATE_SUCCESS = w.PGMIGRATE_SUCCESS := by
    refine ⟨_, rfl, ?_, ?_, ?_, ?_⟩ <;> split <;> rfl
  obtain ⟨newpage, hnew⟩ : ∃ n, (E.get_new_page w0 pg private_).1 = some n := by
    cases h : (E.get_new_page w0 pg private_).1 with
    | none => exact absurd h (hfac w0)
    | some n => exact ⟨n, rfl⟩
  have hum : ∀ force, unmap_and_move E private_ w0 pg force mode =
      unmap_and_move_out (w0.log (Event.get_new_page pg (some newpage))) pg newpage
        (E.get_new_page w0 pg private_).2 0 := fun force =>
    unmap_and_move_count_one E private_ w0 pg newpage force mode hnew (by rw [hw0mem]; exact hcount)
  obtain ⟨hz1, hz2, hz3, hz4, hz5, hz6⟩ := unmap_and_move_out_zero
    (w0.log (Event.get_new_page pg (some newpage))) pg newpage (E.get_new_page w0 pg private_).2
  have h1 : (0 : Int) ≠ - ENOMEM := by simp [ENOMEM]
  have h2 : (0 : Int) ≠ - EAGAIN := by simp [EAGAIN]
  have hloop : migrate_pages_loop E private_ mode 10 0
      { retry := 1, nr_failed := 0, nr_succeeded := 0, w := w0, visits := [], passes := 0 } =
      (false, mp_state.mk 0 0 1
        (unmap_and_move_out (w0.log (Event.get_new_page pg (some newpage))) pg newpage
          (E.get_new_page w0 pg private_).2 0).2
        [visit.mk 0 pg false 0 w0] 1) := by
    simp [migrate_pages_loop, hw0from, hlist, migrate_pages_list_cons, hum, hz1, h1, h2,
      MIGRATEPAGE_SUCCESS, migrate_pages_list]
  have hres : ∃ wf : World, (migrate_pages E private_ mode w).w = wf ∧
      wf.mem = (unmap_and_move_out (w0.log (Event.get_new_page pg (some newpage))) pg newpage
          (E.get_new_page w0 pg private_).2 0).2.mem ∧
      wf.from_ = (unmap_and_move_out (w0.log (Event.get_new_page pg (some newpage))) pg newpage
          (E.get_new_page w0 pg private_).2 0).2.from_ ∧
      wf.trace = (unmap_and_move_out (w0.log (Event.get_new_page pg (some newpage))) pg newpage
          (E.get_new_page w0 pg private_).2 0).2.trace ∧
      wf.PGMIGRATE_SUCCESS = (unmap_and_move_out (w0.log (Event.get_new_page pg (some newpage)))
          pg newpage (E.get_new_page w0 pg private_).2 0).2.PGMIGRATE_SUCCESS + 1 := by
    refine ⟨_, rfl, ?_, ?_, ?_, ?_⟩
    · simp only [migrate_pages, ← hw0, hloop]
      split <;> split <;> split <;> rfl
    · simp only [migrate_pages, ← hw0, hloop]
      split <;> split <;> split <;> rfl
    · simp only [migrate_pages, ← hw0, hloop]
      split <;> split <;> split <;> rfl
    · simp only [migrate_pages, ← hw0, hloop]
      have h10 : (1 : Int) ≠ 0 := by decide
      have h00 : ¬ ((0 : Int) ≠ 0) := by decide
      rw [if_pos h10, if_neg h00]
      split <;> rfl
  obtain ⟨wf, hwf, hmem, hfrom, htrace, hev⟩ := hres
  refine ⟨?_, ?_, ?_, ?_, ?_, ⟨newpage, ?_⟩, ?_, ?_, ?_⟩
  rotate_left 8
  · rw [hwf, hev, hz6]; simp [World.log, hw0ev]
  · simp only [migrate_pages, ← hw0, hloop]; simp
  · simp only [migrate_pages, ← hw0, hloop]
  · simp only [migrate_pages, ← hw0, hloop]
  · simp only [migrate_pages, ← hw0, hloop]
  · rw [hwf, hfrom, hz3]; simp [World.log, hw0from, hlist]
  · rw [hwf, htrace, hz2]; simp [World.log, hw0trace]
  · intro q; rw [hwf, hmem, hz4]; simp [World.log, hw0mem]
  · intro q; rw [hwf, hmem, hz5]; simp [World.log, hw0mem]

/-- Witness of claim C10 as amended: frame 5 of the example. -/
theorem migrate_pages_single_unreferenced_witness :
    (demo_world [5]).from_ = [5] ∧ ((demo_world [5]).mem 5)._count = 1 ∧
      (∀ w1 : World, (demo_env.get_new_page w1 5 0).1 ≠ none) ∧
      (migrate_pages demo_env 0 MIGRATE_ASYNC (demo_world [5])).rc = 0 ∧
      (migrate_pages demo_env 0 MIGRATE_ASYNC (demo_world [5])).nr_succeeded = 1 :=
  ⟨rfl, rfl, fun _ => by simp [demo_env],
    (migrate_pages_single_unreferenced demo_env 0 MIGRATE_ASYNC (demo_world [5]) 5 rfl rfl
      (fun _ => by simp [demo_env])).1,
    (migrate_pages_single_unreferenced demo_env 0 MIGRATE_ASYNC (demo_world [5]) 5 rfl rfl
      (fun _ => by simp [demo_env])).2.1⟩

/-- Counterexample to claim C10 as stated: frame 5 of the example is an
    anonymous frame, unmapped, not in the swap cache, with reference count 1;
    the factory returns frame 105; `migrate_pages` returns 0 with 1 success
    and the state machine is not entered, but the content of the destination
    is not the content of the source (nothing was copied). -/
theorem migrate_pages_single_unreferenced_not_copied :
    PageAnon (demo_world [5]) 5 = true ∧ page_mapped (demo_world [5]) 5 = false ∧
      ((demo_world [5]).mem 5).PG_swapcache = false ∧
      page_count (demo_world [5]) 5 = 1 ∧
      (demo_env.get_new_page (demo_world [5]) 5 0).1 = some 105 ∧
      (migrate_pages demo_env 0 MIGRATE_ASYNC (demo_world [5])).rc = 0 ∧
      (migrate_pages demo_env 0 MIGRATE_ASYNC (demo_world [5])).nr_succeeded = 1 ∧
      ((demo_world [5]).mem 5).data = [9, 9] ∧
      ((migrate_pages demo_env 0 MIGRATE_ASYNC (demo_world [5])).w.mem 105).data = [] ∧
      ((migrate_pages demo_env 0 MIGRATE_ASYNC (demo_world [5])).w.mem 105).data ≠
        ((demo_world [5]).mem 5).data :=
  ⟨rfl, rfl, rfl, rfl, rfl, rfl, rfl, rfl, rfl, of_decide_eq_true rfl⟩

/-! ## Relocation of a dirty page-cache frame -/

theorem upd_same {α : Type} (f : Nat → α) (i : Nat) (v : α) : upd f i v i = v := by
  simp [upd]

theorem upd_other {α : Type} (f : Nat → α) (i j : Nat) (v : α) (h : j ≠ i) :
    upd f i v j = f j := by
  simp [upd, h]

theorem upd_self {α : Type} (f : Nat → α) (i : Nat) : upd f i (f i) = f := by
  funext j
  by_cases h : j = i
  · subst h; simp [upd]
  · simp [upd, h]

theorem only_touches_refl (n : Nat) (w : World) : only_touches n w w :=
  ⟨fun _ _ => rfl, rfl, rfl, rfl, rfl, rfl, rfl, rfl, rfl, rfl, rfl⟩

theorem only_touches_trans (n : Nat) (w w1 w2 : World) (h1 : only_touches n w w1)
    (h2 : only_touches n w1 w2) : only_touches n w w2 :=
  ⟨fun q hq => (h2.mem_other q hq).trans (h1.mem_other q hq),
    h2.count_eq.trans h1.count_eq, h2.from_eq.trans h1.from_eq,
    h2.page_tree_eq.trans h1.page_tree_eq, h2.vm_stat_eq.trans h1.vm_stat_eq,
    h2.buffers_eq.trans h1.buffers_eq, h2.pmd_eq.trans h1.pmd_eq,
    h2.huge_pte_eq.trans h1.huge_pte_eq, h2.pte_eq.trans h1.pte_eq,
    h2.vmas_eq.trans h1.vmas_eq, h2.result_eq.trans h1.result_eq⟩

theorem only_touches_modify (n : Nat) (w : World) (f : page → page)
    (hf : ∀ p, (f p)._count = p._count) : only_touches n w (modify_page w n f) :=
  ⟨fun q hq => upd_other _ _ _ _ hq, by
    show (upd w.mem n (f (w.mem n)) n)._count = _
    rw [upd_same, hf], rfl, rfl, rfl, rfl, rfl, rfl, rfl, rfl, rfl⟩

theorem only_touches_set_page (n : Nat) (w : World) (p : page)
    (hp : p._count = (w.mem n)._count) : only_touches n w (w.set_page n p) :=
  ⟨fun q hq => upd_other _ _ _ _ hq, by
    show (upd w.mem n p n)._count = _
    rw [upd_same, hp], rfl, rfl, rfl, rfl, rfl, rfl, rfl, rfl, rfl⟩

theorem only_touches_log (n : Nat) (w : World) (e : Event) : only_touches n w (w.log e) :=
  ⟨fun _ _ => rfl, rfl, rfl, rfl, rfl, rfl, rfl, rfl, rfl, rfl, rfl⟩

theorem only_touches_trylock (n : Nat) (w : World) : only_touches n w (trylock_page w n).2 := by
  unfold trylock_page
  split
  · exact only_touches_log n w _
  · exact ⟨fun q hq => upd_other _ _ _ _ hq, by
      show (upd w.mem n _ n)._count = _
      rw [upd_same], rfl, rfl, rfl, rfl, rfl, rfl, rfl, rfl, rfl⟩

theorem only_touches_unlock (n : Nat) (w : World) : only_touches n w (unlock_page w n) :=
  ⟨fun q hq => upd_other _ _ _ _ hq, by
    show (upd w.mem n _ n)._count = _
    rw [upd_same], rfl, rfl, rfl, rfl, rfl, rfl, rfl, rfl, rfl⟩

theorem only_touches_bug_on (n : Nat) (w : World) (c : Bool) : only_touches n w (BUG_ON w c) := by
  unfold BUG_ON
  split
  · exact ⟨fun _ _ => rfl, rfl, rfl, rfl, rfl, rfl, rfl, rfl, rfl, rfl, rfl⟩
  · exact only_touches_refl n w

/-- The start of `move_to_new_page` changes nothing but the descriptor of the
    destination (not its reference count) and the ghost fields. -/
theorem only_touches_prepare (w : World) (newpage pg : Nat) :
    only_touches newpage w (move_to_new_page_prepare w newpage pg) := by
  obtain ⟨wa, hwa⟩ : ∃ wa, wa = BUG_ON (trylock_page w newpage).2 (!(trylock_page w newpage).1) :=
    ⟨_, rfl⟩
  obtain ⟨wb, hwb⟩ : ∃ wb, wb = modify_page wa newpage
      (fun p => { p with index := (wa.mem pg).index }) := ⟨_, rfl⟩
  obtain ⟨wc, hwc⟩ : ∃ wc, wc = modify_page wb newpage
      (fun p => { p with mapping := (wb.mem pg).mapping }) := ⟨_, rfl⟩
  have hdef : move_to_new_page_prepare w newpage pg =
      if (wc.mem pg).PG_swapbacked then
        modify_page wc newpage (fun p => { p with PG_swapbacked := true })
      else wc := by
    rw [hwc, hwb, hwa]; rfl
  have h1 : only_touches newpage w wa := by
    rw [hwa]
    exact only_touches_trans _ _ _ _ (only_touches_trylock newpage w)
      (only_touches_bug_on newpage _ _)
  have h2 : only_touches newpage w wb := by
    rw [hwb]
    exact only_touches_trans _ _ _ _ h1 (only_touches_modify newpage wa _ (fun _ => rfl))
  have h3 : only_touches newpage w wc := by
    rw [hwc]
    exact only_touches_trans _ _ _ _ h2 (only_touches_modify newpage wb _ (fun _ => rfl))
  rw [hdef]
  split
  · exact only_touches_trans _ _ _ _ h3 (only_touches_modify newpage wc _ (fun _ => rfl))
  · exact h3

theorem page_mapping_congr (E : Env) (w w1 : World) (pg : Nat) (h : w1.mem pg = w.mem pg) :
    page_mapping E w1 pg = page_mapping E w pg := by
  simp only [page_mapping, h]

/-- Claim C6, as amended.  For a dirty frame with an address space that has no
    `migratepage` hook, in any mode other than `MIGRATE_SYNC` (so in
    `MIGRATE_ASYNC`), `fallback_migrate_page` returns `-EBUSY` and leaves the
    state alone, and `move_to_new_page` returns `-EBUSY`, which is not Retry;
    the descriptor of the source frame, the cache slots, the reference count
    of every frame, the per-zone counters, the buffers and the translations are
    unchanged, and no `BUG()` fires when the destination was not locked. -/
theorem move_to_new_page_dirty_not_sync (E : Env) (w : World) (newpage pg m : Nat)
    (remap_swapcache : Bool) (mode : migrate_mode)
    (hne : newpage ≠ pg) (hfree : (w.mem newpage).PG_locked = false)
    (hdirty : (w.mem pg).PG_dirty = true)
    (hmap : page_mapping E w pg = some m) (hhook : E.migratepage m = none)
    (hmode : mode ≠ MIGRATE_SYNC) :
    fallback_migrate_page E w m newpage pg mode = (- EBUSY, w) ∧
      (move_to_new_page E w newpage pg remap_swapcache mode).1 = - EBUSY ∧
      (move_to_new_page E w newpage pg remap_swapcache mode).1 ≠ - EAGAIN ∧
      (move_to_new_page E w newpage pg remap_swapcache mode).2.mem pg = w.mem pg ∧
      (move_to_new_page E w newpage pg remap_swapcache mode).2.page_tree = w.page_tree ∧
      (∀ q, ((move_to_new_page E w newpage pg remap_swapcache mode).2.mem q)._count =
        (w.mem q)._count) ∧
      (move_to_new_page E w newpage pg remap_swapcache mode).2.vm_stat = w.vm_stat ∧
      (move_to_new_page E w newpage pg remap_swapcache mode).2.buffers = w.buffers ∧
      (move_to_new_page E w newpage pg remap_swapcache mode).2.pte = w.pte ∧
      (move_to_new_page E w newpage pg remap_swapcache mode).2.oops = w.oops := by
  have hne2 : pg ≠ newpage := Ne.symm hne
  have hprep := only_touches_trans _ _ _ _
    (only_touches_log newpage w (Event.move_to_new_page newpage pg))
    (only_touches_prepare (w.log (Event.move_to_new_page newpage pg)) newpage pg)
  have hoops : (move_to_new_page_prepare (w.log (Event.move_to_new_page newpage pg))
      newpage pg).oops = w.oops := by
    have ht : trylock_page (w.log (Event.move_to_new_page newpage pg)) newpage =
        (true, ((w.log (Event.move_to_new_page newpage pg)).set_page newpage
          { (w.log (Event.move_to_new_page newpage pg)).mem newpage with PG_locked := true }).log
            (Event.trylock_page newpage true)) := by
      simp [trylock_page, World.log, hfree]
    simp only [move_to_new_page_prepare, ht, BUG_ON]
    simp only [Bool.not_true, Bool.false_eq_true, if_false]
    split <;> rfl
  have hrel : (move_to_new_page E w newpage pg remap_swapcache mode) =
      (- EBUSY, move_to_new_page_finish
        (move_to_new_page_prepare (w.log (Event.move_to_new_page newpage pg)) newpage pg)
        newpage pg remap_swapcache (- EBUSY)) := by
    have hm := page_mapping_congr E w _ pg (hprep.mem_other pg hne2)
    have hd : ((move_to_new_page_prepare (w.log (Event.move_to_new_page newpage pg))
        newpage pg).mem pg).PG_dirty = true := by
      rw [hprep.mem_other pg hne2]; exact hdirty
    simp only [move_to_new_page, hm, hmap, hhook, fallback_migrate_page, hd, if_true]
    simp [hmode]
  rw [hrel]
  generalize move_to_new_page_prepare (w.log (Event.move_to_new_page newpage pg)) newpage pg = wp
    at hprep hoops
  have hfin : only_touches newpage wp
      (move_to_new_page_finish wp newpage pg remap_swapcache (- EBUSY)) := by
    have hrc : (- EBUSY : Int) ≠ MIGRATEPAGE_SUCCESS := by simp [EBUSY, MIGRATEPAGE_SUCCESS]
    simp only [move_to_new_page_finish, if_pos hrc]
    refine only_touches_trans _ _ _ _ ?_ (only_touches_unlock newpage _)
    exact only_touches_modify newpage wp _ (fun _ => rfl)
  have hfoops : (move_to_new_page_finish wp newpage pg remap_swapcache (- EBUSY)).oops =
      wp.oops := by
    have hrc : (- EBUSY : Int) ≠ MIGRATEPAGE_SUCCESS := by simp [EBUSY, MIGRATEPAGE_SUCCESS]
    simp only [move_to_new_page_finish, if_pos hrc]
    rfl
  have hall := only_touches_trans _ _ _ _ hprep hfin
  refine ⟨by simp [fallback_migrate_page, hdirty, hmode], rfl, by simp [EBUSY, EAGAIN],
    hall.mem_other pg hne2, hall.page_tree_eq, ?_,
    hall.vm_stat_eq, hall.buffers_eq, hall.pte_eq, hfoops.trans hoops⟩
  intro q
  by_cases hq : q = newpage
  · subst hq; exact hall.count_eq
  · rw [hall.mem_other q hq]

/-- Witness of claim C6 as amended: frame 6 of the example (dirty, in the page
    cache of address space 3, no hooks) with destination 106 in
    `MIGRATE_ASYNC`. -/
theorem move_to_new_page_dirty_not_sync_witness :
    (106 : Nat) ≠ 6 ∧ ((demo_world []).mem 106).PG_locked = false ∧
      ((demo_world []).mem 6).PG_dirty = true ∧
      page_mapping demo_env (demo_world []) 6 = some 3 ∧
      demo_env.migratepage 3 = none ∧ MIGRATE_ASYNC ≠ MIGRATE_SYNC ∧
      (move_to_new_page demo_env (demo_world []) 106 6 true MIGRATE_ASYNC).1 = - EBUSY ∧
      (move_to_new_page demo_env (demo_world []) 106 6 true MIGRATE_ASYNC).2.mem 6 =
        (demo_world []).mem 6 :=
  ⟨by decide, rfl, rfl, rfl, rfl, by decide,
    (move_to_new_page_dirty_not_sync demo_env (demo_world []) 106 6 3 true MIGRATE_ASYNC
      (by decide) rfl rfl rfl rfl (by decide)).2.1,
    (move_to_new_page_dirty_not_sync demo_env (demo_world []) 106 6 3 true MIGRATE_ASYNC
      (by decide) rfl rfl rfl rfl (by decide)).2.2.2.1⟩

/-- Counterexample to claim C6 as stated: for the dirty page-cache frame 6 of
    the example, relocation under `MIGRATE_ASYNC` returns `-EBUSY` (-16) and
    not Retry (`-EAGAIN`, -11), both from `fallback_migrate_page` and from
    `move_to_new_page`; the batch driver counts the frame as a permanent
    failure and does not retry it. -/
theorem move_to_new_page_dirty_async_not_retry :
    ((demo_world []).mem 6).PG_dirty = true ∧
      page_mapping demo_env (demo_world []) 6 = some 3 ∧
      demo_env.migratepage 3 = none ∧
      (fallback_migrate_page demo_env (demo_world []) 3 106 6 MIGRATE_ASYNC).1 = -16 ∧
      (move_to_new_page demo_env (demo_world []) 106 6 true MIGRATE_ASYNC).1 = -16 ∧
      (move_to_new_page demo_env (demo_world []) 106 6 true MIGRATE_ASYNC).1 ≠ - EAGAIN ∧
      (migrate_pages demo_env 0 MIGRATE_ASYNC (demo_world [6])).visits.map
        (fun v => (v.pass, v.pg, v.rc)) = [(0, 6, -16)] ∧
      (migrate_pages demo_env 0 MIGRATE_ASYNC (demo_world [6])).rc = 1 :=
  ⟨rfl, rfl, rfl, rfl, rfl, of_decide_eq_true rfl, rfl, rfl⟩

/-! ## Cache-slot relocation -/

/-- The try-lock loop of `buffer_migrate_lock_buffers` started after the
    buffers `orig` (all free) were referenced and locked: it fails exactly when
    a later buffer is already locked, a failure gives back every buffer as it
    was, and a success leaves every buffer locked with one more reference. -/
theorem buffer_trylock_loop_spec (rest : List buffer_head) :
    ∀ orig : List buffer_head, (∀ b ∈ orig, b.BH_Lock = false) →
      ((buffer_trylock_loop (orig.map (fun b => lock_buffer (get_bh b))) rest).1 = false ↔
        ∃ b ∈ rest, b.BH_Lock = true) ∧
      ((buffer_trylock_loop (orig.map (fun b => lock_buffer (get_bh b))) rest).1 = false →
        (buffer_trylock_loop (orig.map (fun b => lock_buffer (get_bh b))) rest).2 =
          orig ++ rest) ∧
      ((buffer_trylock_loop (orig.map (fun b => lock_buffer (get_bh b))) rest).1 = true →
        (buffer_trylock_loop (orig.map (fun b => lock_buffer (get_bh b))) rest).2 =
          (orig ++ rest).map (fun b => lock_buffer (get_bh b))) := by
  induction rest with
  | nil =>
    intro orig _
    simp [buffer_trylock_loop]
  | cons bh rest ih =>
    intro orig horig
    by_cases hl : bh.BH_Lock = true
    · have hstep : buffer_trylock_loop (orig.map (fun b => lock_buffer (get_bh b))) (bh :: rest) =
          (false, (orig.map (fun b => lock_buffer (get_bh b))).map
            (fun b => put_bh (unlock_buffer b)) ++ put_bh (get_bh bh) :: rest) := by
        simp [buffer_trylock_loop, trylock_buffer, get_bh, hl]
      rw [hstep]
      refine ⟨⟨fun _ => ⟨bh, by simp, hl⟩, fun _ => rfl⟩, fun _ => ?_, fun h => by simp at h⟩
      have hbh : put_bh (get_bh bh) = bh := by
        cases bh; simp [put_bh, get_bh]
      have hmap : (orig.map (fun b => lock_buffer (get_bh b))).map
          (fun b => put_bh (unlock_buffer b)) = orig := by
        rw [List.map_map]
        conv_rhs => rw [← List.map_id orig]
        apply List.map_congr_left
        intro b hb
        have := horig b hb
        cases b
        simp_all [put_bh, get_bh, lock_buffer, unlock_buffer]
      simp [hbh, hmap]
    · have hl2 : bh.BH_Lock = false := by simpa using hl
      have hstep : buffer_trylock_loop (orig.map (fun b => lock_buffer (get_bh b))) (bh :: rest) =
          buffer_trylock_loop ((orig ++ [bh]).map (fun b => lock_buffer (get_bh b))) rest := by
        simp [buffer_trylock_loop, trylock_buffer, get_bh, hl2, lock_buffer]
      rw [hstep]
      have horig2 : ∀ b ∈ orig ++ [bh], b.BH_Lock = false := by
        intro b hb
        rcases List.mem_append.1 hb with hb | hb
        · exact horig b hb
        · simp at hb; rw [hb]; exact hl2
      obtain ⟨h1, h2, h3⟩ := ih (orig ++ [bh]) horig2
      refine ⟨?_, ?_, ?_⟩
      · rw [h1]
        constructor
        · rintro ⟨b, hb, hbl⟩
          exact ⟨b, List.mem_cons_of_mem _ hb, hbl⟩
        · rintro ⟨b, hb, hbl⟩
          rcases List.mem_cons.1 hb with rfl | hb
          · rw [hl2] at hbl; exact absurd hbl (by simp)
          · exact ⟨b, hb, hbl⟩
      · intro h; rw [h2 h]; simp
      · intro h; rw [h3 h]; simp

/-- In `MIGRATE_ASYNC`, `buffer_migrate_lock_buffers` fails exactly when some
    buffer of the ring is already locked, and then gives the ring back as it
    was. -/
theorem buffer_migrate_lock_buffers_async (ring : List buffer_head) :
    ((buffer_migrate_lock_buffers ring MIGRATE_ASYNC).1 = false ↔
        ∃ b ∈ ring, b.BH_Lock = true) ∧
      ((buffer_migrate_lock_buffers ring MIGRATE_ASYNC).1 = false →
        (buffer_migrate_lock_buffers ring MIGRATE_ASYNC).2 = ring) := by
  have h := buffer_trylock_loop_spec ring [] (by simp)
  simp only [List.map_nil, List.nil_append] at h
  simp only [buffer_migrate_lock_buffers, ne_eq, not_true_eq_false, if_false]
  exact ⟨h.1, h.2.1⟩

theorem set_page_self (w : World) (pg : Nat) : w.set_page pg (w.mem pg) = w := by
  show { w with mem := upd w.mem pg (w.mem pg) } = w
  rw [upd_self]

/-- Freezing the reference count at its current value and storing that value
    back gives the state before. -/
theorem unfreeze_freeze (w : World) (pg : Nat) (count : Int)
    (h : (w.mem pg)._count = count) :
    page_unfreeze_refs (page_freeze_refs w pg count).2 pg count = w := by
  have hfr : page_freeze_refs w pg count = (true, w.set_page pg { w.mem pg with _count := 0 }) := by
    simp [page_freeze_refs, h]
  rw [hfr]
  have hm : (page_unfreeze_refs (w.set_page pg { w.mem pg with _count := 0 }) pg count).mem =
      w.mem := by
    funext q
    by_cases hq : q = pg
    · subst hq
      show upd _ q _ q = _
      rw [upd_same]
      show { (upd w.mem q _ q) with _count := count } = _
      rw [upd_same, ← h]
    · show upd (upd w.mem pg _) pg _ q = _
      rw [upd_other _ _ _ _ hq, upd_other _ _ _ _ hq]
  have hw : page_unfreeze_refs (w.set_page pg { w.mem pg with _count := 0 }) pg count =
      { w with mem := (page_unfreeze_refs (w.set_page pg { w.mem pg with _count := 0 }) pg count).mem } :=
    rfl
  rw [hw, hm]

/-- The buffer-lock test of `migrate_page_move_mapping`: it can only fail in
    `MIGRATE_ASYNC` with buffers, it does when some buffer is already locked,
    and a failure leaves the state as it was. -/
theorem migrate_page_move_mapping_lock_spec (w : World) (head : Option Nat)
    (mode : migrate_mode) :
    ((migrate_page_move_mapping_lock w head mode).1 = true →
      (migrate_page_move_mapping_lock w head mode).2 = w) ∧
    (∀ h, head = some h → mode = MIGRATE_ASYNC → (∃ b ∈ w.buffers h, b.BH_Lock = true) →
      (migrate_page_move_mapping_lock w head mode).1 = true) ∧
    ((migrate_page_move_mapping_lock w head mode).1 = true →
      mode = MIGRATE_ASYNC ∧ ∃ h, head = some h ∧ ∃ b ∈ w.buffers h, b.BH_Lock = true) := by
  cases head with
  | none =>
    refine ⟨fun h => ?_, fun h hh => by simp at hh, fun h => ?_⟩ <;>
      simp [migrate_page_move_mapping_lock] at h
  | some hd =>
    by_cases hm : mode = MIGRATE_ASYNC
    · subst hm
      obtain ⟨h1, h2⟩ := buffer_migrate_lock_buffers_async (w.buffers hd)
      obtain ⟨b, hb⟩ : ∃ b, b = buffer_migrate_lock_buffers (w.buffers hd) MIGRATE_ASYNC :=
        ⟨_, rfl⟩
      rw [← hb] at h1 h2
      have hdef : migrate_page_move_mapping_lock w (some hd) MIGRATE_ASYNC =
          (!b.1, { w with buffers := upd w.buffers hd b.2 }) := by
        simp [migrate_page_move_mapping_lock, hb]
      rw [hdef]
      refine ⟨fun h => ?_, fun h hh _ hb => ?_, fun h => ⟨rfl, hd, rfl, ?_⟩⟩
      · have hf : b.1 = false := by
          simpa using h
        show { w with buffers := upd w.buffers hd b.2 } = w
        rw [h2 hf, upd_self]
      · have hh2 : hd = h := by simpa using hh
        subst hh2
        simpa using h1.2 hb
      · have hf : b.1 = false := by
          simpa using h
        exact h1.1 hf
    · have hdef : migrate_page_move_mapping_lock w (some hd) mode = (false, w) := by
        simp [migrate_page_move_mapping_lock, hm]
      rw [hdef]
      refine ⟨fun h => by simp at h, fun h _ hh => absurd hh hm, fun h => by simp at h⟩

/-- Claim C7.  `migrate_page_move_mapping` returns `MIGRATEPAGE_SUCCESS` or
    `-EAGAIN`; whenever it does not succeed the whole state is the one before
    the call (slot, reference counts, flags of the destination and per-zone
    counters included); it returns `-EAGAIN` for a frame without address
    space whose reference count is not 1, for a frame with an address space
    whose reference count is not `2 + page_has_private` or whose slot does not
    hold it, and in `MIGRATE_ASYNC` with buffers one of which is already
    locked. -/
theorem migrate_page_move_mapping_failure_atomic (w : World) (mapping : Option Nat)
    (newpage pg : Nat) (head : Option Nat) (mode : migrate_mode) :
    ((migrate_page_move_mapping w mapping newpage pg head mode).1 = MIGRATEPAGE_SUCCESS ∨
      (migrate_page_move_mapping w mapping newpage pg head mode).1 = - EAGAIN) ∧
    ((migrate_page_move_mapping w mapping newpage pg head mode).1 ≠ MIGRATEPAGE_SUCCESS →
      (migrate_page_move_mapping w mapping newpage pg head mode).2 = w) ∧
    (mapping = none → page_count w pg ≠ 1 →
      (migrate_page_move_mapping w mapping newpage pg head mode).1 = - EAGAIN) ∧
    (∀ m, mapping = some m →
      (page_count w pg ≠ 2 + page_has_private w pg ∨
        w.page_tree m (page_index w pg) ≠ some pg) →
      (migrate_page_move_mapping w mapping newpage pg head mode).1 = - EAGAIN) ∧
    (∀ m h, mapping = some m → head = some h → mode = MIGRATE_ASYNC →
      (∃ b ∈ w.buffers h, b.BH_Lock = true) →
      (migrate_page_move_mapping w mapping newpage pg head mode).1 = - EAGAIN) := by
  have hne : (- EAGAIN : Int) ≠ MIGRATEPAGE_SUCCESS := by simp [EAGAIN, MIGRATEPAGE_SUCCESS]
  cases mapping with
  | none =>
    by_cases hc : page_count w pg ≠ 1
    · have hdef : migrate_page_move_mapping w none newpage pg head mode = (- EAGAIN, w) := by
        simp only [migrate_page_move_mapping, if_pos hc]
      rw [hdef]
      exact ⟨Or.inr rfl, fun _ => rfl, fun _ _ => rfl, fun m hm => by simp at hm,
        fun m h hm => by simp at hm⟩
    · have hdef : migrate_page_move_mapping w none newpage pg head mode =
          (MIGRATEPAGE_SUCCESS, w) := by
        simp only [migrate_page_move_mapping, if_neg hc]
      rw [hdef]
      exact ⟨Or.inl rfl, fun _ => rfl, fun _ h => absurd h hc, fun m hm => by simp at hm,
        fun m h hm => by simp at hm⟩
  | some m =>
    by_cases hc : page_count w pg ≠ 2 + page_has_private w pg ∨
        w.page_tree m (page_index w pg) ≠ some pg
    · have hdef : migrate_page_move_mapping w (some m) newpage pg head mode = (- EAGAIN, w) := by
        simp only [migrate_page_move_mapping, if_pos hc]
      rw [hdef]
      exact ⟨Or.inr rfl, fun _ => rfl, fun h => by simp at h, fun _ _ _ => rfl,
        fun _ _ _ _ _ _ => rfl⟩
    · have hcount : (w.mem pg)._count = 2 + page_has_private w pg := by
        by_contra h
        exact hc (Or.inl h)
      have hfr : page_freeze_refs w pg (2 + page_has_private w pg) =
          (true, w.set_page pg { w.mem pg with _count := 0 }) := by
        simp [page_freeze_refs, hcount]
      obtain ⟨hl1, hl2, -⟩ := migrate_page_move_mapping_lock_spec
        (page_freeze_refs w pg (2 + page_has_private w pg)).2 head mode
      by_cases hlk : (migrate_page_move_mapping_lock
          (page_freeze_refs w pg (2 + page_has_private w pg)).2 head mode).1 = true
      · have hdef : migrate_page_move_mapping w (some m) newpage pg head mode =
            (- EAGAIN, w) := by
          simp only [migrate_page_move_mapping, if_neg hc]
          rw [if_neg (by simp [hfr]), if_pos hlk, hl1 hlk,
            unfreeze_freeze w pg _ hcount]
        rw [hdef]
        exact ⟨Or.inr rfl, fun _ => rfl, fun h => by simp at h, fun _ _ _ => rfl,
          fun _ _ _ _ _ _ => rfl⟩
      · have hdef : (migrate_page_move_mapping w (some m) newpage pg head mode).1 =
            MIGRATEPAGE_SUCCESS := by
          simp only [migrate_page_move_mapping, if_neg hc]
          rw [if_neg (by simp [hfr]), if_neg hlk]
        refine ⟨Or.inl hdef, fun h => absurd hdef h, fun h => by simp at h,
          fun m2 hm2 hc2 => ?_, fun m2 h hm2 hh hmode hb => ?_⟩
        · have : m2 = m := by simpa using hm2.symm
          subst this
          exact absurd hc2 hc
        · exfalso
          apply hlk
          apply hl2 h hh hmode
          obtain ⟨b, hb1, hb2⟩ := hb
          exact ⟨b, by rw [hfr]; exact hb1, hb2⟩

theorem mod_zone_stat_apply (w : World) (zone : Nat) (item : zone_stat_item) (d : Int)
    (z : Nat) (i : zone_stat_item) :
    (mod_zone_stat w zone item d).vm_stat z i =
      w.vm_stat z i + (if z = zone ∧ i = item then d else 0) := by
  simp only [mod_zone_stat, upd]
  by_cases hz : z = zone
  · subst hz
    by_cases hi : i = item
    · simp [hi]
    · simp [hi]
  · simp [hz]

theorem mod_zone_stat_fields (w : World) (zone : Nat) (item : zone_stat_item) (d : Int) :
    (mod_zone_stat w zone item d).mem = w.mem ∧
      (mod_zone_stat w zone item d).page_tree = w.page_tree := ⟨rfl, rfl⟩

/-- The commit part of `migrate_page_move_mapping` on distinct frames: the
    slot, the two descriptors and the per-zone counters after it. -/
theorem migrate_page_move_mapping_commit_spec (w : World) (m slot newpage pg : Nat)
    (e : Int) (hne : newpage ≠ pg) :
    (migrate_page_move_mapping_commit w m slot newpage pg e).page_tree m slot = some newpage ∧
    ((migrate_page_move_mapping_commit w m slot newpage pg e).mem pg)._count = e - 1 ∧
    ((migrate_page_move_mapping_commit w m slot newpage pg e).mem newpage)._count =
      (w.mem newpage)._count + 1 ∧
    ((w.mem pg).PG_swapcache = true →
      ((migrate_page_move_mapping_commit w m slot newpage pg e).mem newpage).PG_swapcache = true ∧
      ((migrate_page_move_mapping_commit w m slot newpage pg e).mem newpage).private_ =
        (w.mem pg).private_) ∧
    ((w.mem pg).PG_swapcache = false →
      ((migrate_page_move_mapping_commit w m slot newpage pg e).mem newpage).PG_swapcache =
        (w.mem newpage).PG_swapcache ∧
      ((migrate_page_move_mapping_commit w m slot newpage pg e).mem newpage).private_ =
        (w.mem newpage).private_) ∧
    (∀ z i, (migrate_page_move_mapping_commit w m slot newpage pg e).vm_stat z i =
      w.vm_stat z i
        - (if z = (w.mem pg).zone ∧ (i = zone_stat_item.NR_FILE_PAGES ∨
            (i = zone_stat_item.NR_SHMEM ∧ (w.mem pg).PG_swapcache = false ∧
              (w.mem pg).PG_swapbacked = true)) then 1 else 0)
        + (if z = (w.mem newpage).zone ∧ (i = zone_stat_item.NR_FILE_PAGES ∨
            (i = zone_stat_item.NR_SHMEM ∧ (w.mem pg).PG_swapcache = false ∧
              (w.mem pg).PG_swapbacked = true)) then 1 else 0)) := by
  have hne2 : pg ≠ newpage := Ne.symm hne
  -- the state after `get_page` and the optional transfer of the swap-cache bit
  obtain ⟨w3, hw3⟩ : ∃ w3, w3 = (if ((get_page w newpage).mem pg).PG_swapcache then
      modify_page (get_page w newpage) newpage (fun p =>
        { p with PG_swapcache := true, private_ := ((get_page w newpage).mem pg).private_ })
      else get_page w newpage) := ⟨_, rfl⟩
  have hgp : (get_page w newpage).mem pg = w.mem pg := upd_other _ _ _ _ hne2
  have h3pg : w3.mem pg = w.mem pg := by
    rw [hw3]; split
    · exact (upd_other _ _ _ _ hne2).trans hgp
    · exact hgp
  have h3stat : w3.vm_stat = w.vm_stat := by
    rw [hw3]; split <;> rfl
  have h3count : (w3.mem newpage)._count = (w.mem newpage)._count + 1 := by
    rw [hw3]; split
    · show (upd _ newpage _ newpage : page)._count = _
      rw [upd_same]
      show (upd w.mem newpage _ newpage : page)._count = _
      rw [upd_same]
    · show (upd w.mem newpage _ newpage : page)._count = _
      rw [upd_same]
  have h3zone : (w3.mem newpage).zone = (w.mem newpage).zone := by
    rw [hw3]; split
    · show (upd _ newpage _ newpage : page).zone = _
      rw [upd_same]
      show (upd w.mem newpage _ newpage : page).zone = _
      rw [upd_same]
    · show (upd w.mem newpage _ newpage : page).zone = _
      rw [upd_same]
  have h3sc : (w.mem pg).PG_swapcache = true →
      (w3.mem newpage).PG_swapcache = true ∧ (w3.mem newpage).private_ = (w.mem pg).private_ := by
    intro h
    rw [hw3, hgp, if_pos h]
    show (upd _ newpage _ newpage : page).PG_swapcache = true ∧ (upd _ newpage _ newpage : page).private_ = _
    rw [upd_same]
    exact ⟨rfl, rfl⟩
  have h3nsc : (w.mem pg).PG_swapcache = false →
      (w3.mem newpage).PG_swapcache = (w.mem newpage).PG_swapcache ∧
      (w3.mem newpage).private_ = (w.mem newpage).private_ := by
    intro h
    rw [hw3, hgp, h]
    simp only [Bool.false_eq_true, if_false]
    show (upd w.mem newpage _ newpage : page).PG_swapcache = _ ∧ (upd w.mem newpage _ newpage : page).private_ = _
    rw [upd_same]
    exact ⟨rfl, rfl⟩
  -- the state after the slot is replaced and the count is stored back
  obtain ⟨w5, hw5⟩ : ∃ w5, w5 = page_unfreeze_refs (radix_tree_replace_slot w3 m slot newpage)
      pg (e - 1) := ⟨_, rfl⟩
  have h5new : w5.mem newpage = w3.mem newpage := by
    rw [hw5]; exact upd_other _ _ _ _ hne
  have h5count : (w5.mem pg)._count = e - 1 := by
    rw [hw5]
    show (upd _ pg _ pg : page)._count = _
    rw [upd_same]
  have h5zone : (w5.mem pg).zone = (w.mem pg).zone ∧
      (w5.mem pg).PG_swapcache = (w.mem pg).PG_swapcache ∧
      (w5.mem pg).PG_swapbacked = (w.mem pg).PG_swapbacked := by
    rw [hw5]
    show (upd _ pg _ pg : page).zone = _ ∧ (upd _ pg _ pg : page).PG_swapcache = _ ∧
      (upd _ pg _ pg : page).PG_swapbacked = _
    rw [upd_same]
    show (w3.mem pg).zone = _ ∧ (w3.mem pg).PG_swapcache = _ ∧ (w3.mem pg).PG_swapbacked = _
    rw [h3pg]
    exact ⟨rfl, rfl, rfl⟩
  have h5tree : w5.page_tree m slot = some newpage := by
    rw [hw5]
    show (upd _ m _ m : Nat → Option Nat) slot = _
    rw [upd_same, upd_same]
  have h5stat : w5.vm_stat = w.vm_stat := by
    rw [hw5]; exact h3stat
  have hdef : migrate_page_move_mapping_commit w m slot newpage pg e =
      (if !(w5.mem pg).PG_swapcache && (w5.mem pg).PG_swapbacked then
        mod_zone_stat (mod_zone_stat (mod_zone_stat (mod_zone_stat w5 (w5.mem pg).zone
          zone_stat_item.NR_FILE_PAGES (-1)) (w5.mem newpage).zone zone_stat_item.NR_FILE_PAGES 1)
          (w5.mem pg).zone zone_stat_item.NR_SHMEM (-1)) (w5.mem newpage).zone
          zone_stat_item.NR_SHMEM 1
      else mod_zone_stat (mod_zone_stat w5 (w5.mem pg).zone
          zone_stat_item.NR_FILE_PAGES (-1)) (w5.mem newpage).zone
          zone_stat_item.NR_FILE_PAGES 1) := by
    rw [hw5, hw3]; rfl
  have hmem : (migrate_page_move_mapping_commit w m slot newpage pg e).mem = w5.mem ∧
      (migrate_page_move_mapping_commit w m slot newpage pg e).page_tree = w5.page_tree := by
    rw [hdef]; split <;> exact ⟨rfl, rfl⟩
  refine ⟨by rw [hmem.2]; exact h5tree, by rw [hmem.1]; exact h5count,
    by rw [hmem.1, h5new]; exact h3count,
    fun h => by rw [hmem.1, h5new]; exact h3sc h,
    fun h => by rw [hmem.1, h5new]; exact h3nsc h, ?_⟩
  intro z i
  rw [hdef, h5zone.1, h5zone.2.1, h5zone.2.2, h5new, h3zone]
  by_cases hshm : (!(w.mem pg).PG_swapcache && (w.mem pg).PG_swapbacked) = true
  · rw [if_pos hshm]
    simp only [mod_zone_stat_apply, h5stat]
    have hb : (w.mem pg).PG_swapcache = false ∧ (w.mem pg).PG_swapbacked = true := by
      simpa using hshm
    simp only [hb.1, hb.2, and_self, and_true]
    cases i <;> simp <;> split_ifs <;> ring
  · rw [if_neg hshm]
    simp only [mod_zone_stat_apply, h5stat]
    have hb : ¬ ((w.mem pg).PG_swapcache = false ∧ (w.mem pg).PG_swapbacked = true) := by
      simpa using hshm
    cases i <;> simp [hb]; split_ifs <;> ring

theorem migrate_page_move_mapping_lock_fields (w : World) (head : Option Nat)
    (mode : migrate_mode) :
    (migrate_page_move_mapping_lock w head mode).2.mem = w.mem ∧
      (migrate_page_move_mapping_lock w head mode).2.page_tree = w.page_tree ∧
      (migrate_page_move_mapping_lock w head mode).2.vm_stat = w.vm_stat := by
  cases head with
  | none => exact ⟨rfl, rfl, rfl⟩
  | some h =>
    simp only [migrate_page_move_mapping_lock]
    split <;> exact ⟨rfl, rfl, rfl⟩

/-- Claim C8.  When `migrate_page_move_mapping` succeeds on a frame with an
    address space and a destination that is another frame, with
    `e = 2 + page_has_private(page)`: the reference count of the source was
    `e` and is `e - 1`; the slot of the source holds the destination; the
    destination has one more reference; the destination has the swap-cache bit
    and the private value of the source when the source is in the swap cache
    and keeps its own otherwise (so a destination whose bit was clear has it
    exactly when the source had it); `NR_FILE_PAGES` goes down by one in the
    zone of the source and up by one in the zone of the destination, `NR_SHMEM`
    does the same exactly when the source is swap-backed and not in the swap
    cache, and no other counter changes. -/
theorem migrate_page_move_mapping_success (w : World) (m newpage pg : Nat)
    (head : Option Nat) (mode : migrate_mode) (hne : newpage ≠ pg)
    (hs : (migrate_page_move_mapping w (some m) newpage pg head mode).1 = MIGRATEPAGE_SUCCESS) :
    (w.mem pg)._count = 2 + page_has_private w pg ∧
    ((migrate_page_move_mapping w (some m) newpage pg head mode).2.mem pg)._count =
      2 + page_has_private w pg - 1 ∧
    (migrate_page_move_mapping w (some m) newpage pg head mode).2.page_tree m
      (page_index w pg) = some newpage ∧
    ((migrate_page_move_mapping w (some m) newpage pg head mode).2.mem newpage)._count =
      (w.mem newpage)._count + 1 ∧
    ((w.mem pg).PG_swapcache = true →
      ((migrate_page_move_mapping w (some m) newpage pg head mode).2.mem newpage).PG_swapcache =
        true ∧
      ((migrate_page_move_mapping w (some m) newpage pg head mode).2.mem newpage).private_ =
        (w.mem pg).private_) ∧
    ((w.mem pg).PG_swapcache = false →
      ((migrate_page_move_mapping w (some m) newpage pg head mode).2.mem newpage).PG_swapcache =
        (w.mem newpage).PG_swapcache ∧
      ((migrate_page_move_mapping w (some m) newpage pg head mode).2.mem newpage).private_ =
        (w.mem newpage).private_) ∧
    ((w.mem newpage).PG_swapcache = false →
      (((migrate_page_move_mapping w (some m) newpage pg head mode).2.mem newpage).PG_swapcache =
        true ↔ (w.mem pg).PG_swapcache = true)) ∧
    (∀ z i, (migrate_page_move_mapping w (some m) newpage pg head mode).2.vm_stat z i =
      w.vm_stat z i
        - (if z = (w.mem pg).zone ∧ (i = zone_stat_item.NR_FILE_PAGES ∨
            (i = zone_stat_item.NR_SHMEM ∧ (w.mem pg).PG_swapcache = false ∧
              (w.mem pg).PG_swapbacked = true)) then 1 else 0)
        + (if z = (w.mem newpage).zone ∧ (i = zone_stat_item.NR_FILE_PAGES ∨
            (i = zone_stat_item.NR_SHMEM ∧ (w.mem pg).PG_swapcache = false ∧
              (w.mem pg).PG_swapbacked = true)) then 1 else 0)) := by
  have hne2 : pg ≠ newpage := Ne.symm hne
  have hc : ¬ (page_count w pg ≠ 2 + page_has_private w pg ∨
      w.page_tree m (page_index w pg) ≠ some pg) := by
    intro h
    have : (migrate_page_move_mapping w (some m) newpage pg head mode).1 = - EAGAIN := by
      simp only [migrate_page_move_mapping, if_pos h]
    rw [this] at hs
    simp [EAGAIN, MIGRATEPAGE_SUCCESS] at hs
  have hcount : (w.mem pg)._count = 2 + page_has_private w pg := by
    by_contra h
    exact hc (Or.inl h)
  have hfr : page_freeze_refs w pg (2 + page_has_private w pg) =
      (true, w.set_page pg { w.mem pg with _count := 0 }) := by
    simp [page_freeze_refs, hcount]
  obtain ⟨wl, hwl⟩ : ∃ wl, wl = (migrate_page_move_mapping_lock
      (w.set_page pg { w.mem pg with _count := 0 }) head mode).2 := ⟨_, rfl⟩
  have hlk : (migrate_page_move_mapping_lock
      (w.set_page pg { w.mem pg with _count := 0 }) head mode).1 = false := by
    cases hb : (migrate_page_move_mapping_lock
      (w.set_page pg { w.mem pg with _count := 0 }) head mode).1 with
    | false => rfl
    | true =>
      exfalso
      have : (migrate_page_move_mapping w (some m) newpage pg head mode).1 = - EAGAIN := by
        simp only [migrate_page_move_mapping, if_neg hc, hfr]
        simp [hb]
      rw [this] at hs
      simp [EAGAIN, MIGRATEPAGE_SUCCESS] at hs
  have hdef : (migrate_page_move_mapping w (some m) newpage pg head mode).2 =
      migrate_page_move_mapping_commit wl m (page_index w pg) newpage pg
        (2 + page_has_private w pg) := by
    simp only [migrate_page_move_mapping, if_neg hc, hfr]
    simp [hlk, hwl]
  obtain ⟨hlmem, hltree, hlstat⟩ := migrate_page_move_mapping_lock_fields
    (w.set_page pg { w.mem pg with _count := 0 }) head mode
  rw [← hwl] at hlmem hltree hlstat
  have hwlnew : wl.mem newpage = w.mem newpage := by
    rw [hlmem]; exact upd_other _ _ _ _ hne
  have hwlpg : (wl.mem pg).PG_swapcache = (w.mem pg).PG_swapcache ∧
      (wl.mem pg).private_ = (w.mem pg).private_ ∧ (wl.mem pg).zone = (w.mem pg).zone ∧
      (wl.mem pg).PG_swapbacked = (w.mem pg).PG_swapbacked := by
    rw [hlmem]
    show (upd _ pg _ pg : page).PG_swapcache = _ ∧ (upd _ pg _ pg : page).private_ = _ ∧
      (upd _ pg _ pg : page).zone = _ ∧ (upd _ pg _ pg : page).PG_swapbacked = _
    rw [upd_same]
    exact ⟨rfl, rfl, rfl, rfl⟩
  have hwlstat : wl.vm_stat = w.vm_stat := hlstat
  obtain ⟨c1, c2, c3, c4, c5, c6⟩ := migrate_page_move_mapping_commit_spec wl m
    (page_index w pg) newpage pg (2 + page_has_private w pg) hne
  rw [hwlnew] at c3 c5 c6
  rw [hwlpg.1] at c4 c5 c6
  rw [hwlpg.2.1] at c4
  rw [hwlpg.2.2.1, hwlpg.2.2.2, hwlstat] at c6
  rw [hdef]
  refine ⟨hcount, c2, c1, c3, c4, c5, ?_, c6⟩
  intro hfresh
  constructor
  · intro h
    by_contra hsc
    have hsc2 : (w.mem pg).PG_swapcache = false := by simpa using hsc
    rw [(c5 hsc2).1, hfresh] at h
    exact absurd h (by simp)
  · intro h
    exact (c4 h).1

/-- Witness of claim C8: the clean page-cache frame 1 of the example (address
    space 3, index 9) and the free frame 101. -/
theorem migrate_page_move_mapping_success_witness :
    (101 : Nat) ≠ 1 ∧
      (migrate_page_move_mapping (demo_world []) (some 3) 101 1 none MIGRATE_ASYNC).1 =
        MIGRATEPAGE_SUCCESS ∧
      ((migrate_page_move_mapping (demo_world []) (some 3) 101 1 none MIGRATE_ASYNC).2.mem
        1)._count = 2 + page_has_private (demo_world []) 1 - 1 ∧
      (migrate_page_move_mapping (demo_world []) (some 3) 101 1 none MIGRATE_ASYNC).2.page_tree
        3 (page_index (demo_world []) 1) = some 101 :=
  ⟨by decide, rfl,
    (migrate_page_move_mapping_success (demo_world []) 3 101 1 none MIGRATE_ASYNC (by decide)
      rfl).2.1,
    (migrate_page_move_mapping_success (demo_world []) 3 101 1 none MIGRATE_ASYNC (by decide)
      rfl).2.2.1⟩

/-! ## The driver for one huge page -/

/-- An unsupported huge-page size makes `unmap_and_move_huge_page` return
    `-ENOSYS`, whatever the factory returned. -/
theorem unmap_and_move_huge_page_unsupported (E : Env) (private_ : Nat) (w : World)
    (hpage : Nat) (force : Bool) (mode : migrate_mode)
    (h : E.hugepage_migration_support
      (w.log (Event.get_new_page hpage (E.get_new_page w hpage private_).1)) hpage = false) :
    (unmap_and_move_huge_page E private_ w hpage force mode).1 = - ENOSYS := by
  simp [unmap_and_move_huge_page, h]

/-- The loop of `migrate_huge_page`, entered at `pass` after `pass` attempts
    that all returned `-EAGAIN`, establishes the postcondition. -/
theorem migrate_huge_page_loop_post (E : Env) (private_ : Nat) (mode : migrate_mode)
    (hpage : Nat) (fuel : Nat) :
    ∀ (pass : Nat) (rc : Int) (w : World) (vs : List visit),
      fuel + pass = 10 → vs.length = pass →
      (pass ≠ 0 → rc = - EAGAIN) →
      (∀ v ∈ vs, v.rc = - EAGAIN) →
      (∀ i v, vs[i]? = some v → v.pass = i ∧ v.pg = hpage ∧ (v.force = true ↔ i > 2) ∧
        v.rc = (unmap_and_move_huge_page E private_ v.before hpage v.force mode).1) →
      huge_post E private_ mode hpage
        (migrate_huge_page_loop E private_ hpage mode fuel pass rc w vs) ∧
      (fuel ≠ 0 → 1 ≤ (migrate_huge_page_loop E private_ hpage mode fuel pass rc w vs).2.2.length)
      := by
  have hAS : (- EAGAIN : Int) ≠ MIGRATEPAGE_SUCCESS := by simp [EAGAIN, MIGRATEPAGE_SUCCESS]
  have hAM : (- EAGAIN : Int) ≠ - ENOMEM := by simp [EAGAIN, ENOMEM]
  have hAI : (- EAGAIN : Int) ≠ - EIO := by simp [EAGAIN, EIO]
  have hMS : (- ENOMEM : Int) ≠ MIGRATEPAGE_SUCCESS := by simp [ENOMEM, MIGRATEPAGE_SUCCESS]
  have hIS : (- EIO : Int) ≠ MIGRATEPAGE_SUCCESS := by simp [ EIO, MIGRATEPAGE_SUCCESS]
  have hIM : (- EIO : Int) ≠ - ENOMEM := by simp [ EIO, ENOMEM]
  induction fuel with
  | zero =>
    intro pass rc w vs hf hlen hrc hall hatt
    have hp : pass = 10 := by omega
    have hdef : migrate_huge_page_loop E private_ hpage mode 0 pass rc w vs = (rc, w, vs) := rfl
    rw [hdef]
    have hrc2 : rc = - EAGAIN := hrc (by omega)
    refine ⟨⟨by simp only [hlen]; omega, hatt, fun i v hv _ => hall v (List.getElem?_mem hv),
      ?_, ?_, ?_, ?_⟩, fun h => absurd rfl h⟩
    · rintro ⟨v, hv, hvs⟩; rw [hall v hv] at hvs; exact absurd hvs hAS
    · rintro ⟨v, hv, hvs⟩; rw [hall v hv] at hvs; exact absurd hvs hAM
    · rintro ⟨v, hv, -, hvs, -⟩; exact absurd (hall v hv) hvs
    · simp only [hrc2, true_iff]; exact ⟨by omega, hall⟩
  | succ fuel ih =>
    intro pass rc w vs hf hlen hrc hall hatt
    have hp : pass < 10 := by omega
    obtain ⟨v, hvdef⟩ : ∃ v : visit, v = visit.mk pass hpage (decide (pass > 2))
        (unmap_and_move_huge_page E private_ w hpage (decide (pass > 2)) mode).1 w := ⟨_, rfl⟩
    have hvrc : (unmap_and_move_huge_page E private_ w hpage (decide (pass > 2)) mode).1 =
        v.rc := by rw [hvdef]
    have hdef : migrate_huge_page_loop E private_ hpage mode (fuel + 1) pass rc w vs =
        if v.rc = - ENOMEM then
          (v.rc, (unmap_and_move_huge_page E private_ w hpage (decide (pass > 2)) mode).2,
            vs ++ [v])
        else if v.rc = - EAGAIN then
          migrate_huge_page_loop E private_ hpage mode fuel (pass + 1) v.rc
            (unmap_and_move_huge_page E private_ w hpage (decide (pass > 2)) mode).2 (vs ++ [v])
        else if v.rc = MIGRATEPAGE_SUCCESS then
          (v.rc, (unmap_and_move_huge_page E private_ w hpage (decide (pass > 2)) mode).2,
            vs ++ [v])
        else
          (- EIO, (unmap_and_move_huge_page E private_ w hpage (decide (pass > 2)) mode).2,
            vs ++ [v]) := by
      simp only [migrate_huge_page_loop, if_pos hp, hvdef]
    have hatt2 : ∀ i u, (vs ++ [v])[i]? = some u → u.pass = i ∧ u.pg = hpage ∧
        (u.force = true ↔ i > 2) ∧
        u.rc = (unmap_and_move_huge_page E private_ u.before hpage u.force mode).1 := by
      intro i u hu
      by_cases hi : i < vs.length
      · rw [List.getElem?_append_left hi] at hu
        exact hatt i u hu
      · have hi2 : i = vs.length := by
          by_contra hne
          rw [List.getElem?_eq_none (by simp; omega)] at hu
          exact absurd hu (by simp)
        subst hi2
        have : u = v := by simpa using hu.symm
        subst this
        rw [hvdef]
        simp [hlen]
    have hearly : ∀ i u, (vs ++ [v])[i]? = some u → i + 1 < (vs ++ [v]).length →
        u.rc = - EAGAIN := by
      intro i u hu hi
      have hi2 : i < vs.length := by simp at hi; omega
      rw [List.getElem?_append_left hi2] at hu
      exact hall u (List.getElem?_mem hu)
    have hmem : ∀ u ∈ vs ++ [v], u.rc = - EAGAIN ∨ u = v := by
      intro u hu
      rcases List.mem_append.1 hu with h | h
      · exact Or.inl (hall u h)
      · exact Or.inr (by simpa using h)
    have hlen2 : (vs ++ [v]).length ≤ 10 := by simp; omega
    have hstop : ∀ res : Int, v.rc ≠ - EAGAIN →
        (v.rc = MIGRATEPAGE_SUCCESS → res = MIGRATEPAGE_SUCCESS) →
        (v.rc = - ENOMEM → res = - ENOMEM) →
        (v.rc ≠ MIGRATEPAGE_SUCCESS → v.rc ≠ - ENOMEM → res = - EIO) →
        huge_post E private_ mode hpage
          (res, (unmap_and_move_huge_page E private_ w hpage (decide (pass > 2)) mode).2,
            vs ++ [v]) := by
      intro res hnr hs hm ho
      refine ⟨hlen2, hatt2, hearly, ?_, ?_, ?_, ?_⟩
      · rintro ⟨u, hu, hus⟩
        rcases hmem u hu with h | h
        · rw [h] at hus; exact absurd hus hAS
        · subst h; exact hs hus
      · rintro ⟨u, hu, hus⟩
        rcases hmem u hu with h | h
        · rw [h] at hus; exact absurd hus hAM
        · subst h; exact hm hus
      · rintro ⟨u, hu, h1, h2, h3⟩
        rcases hmem u hu with h | h
        · exact absurd h h2
        · subst h; exact ho h1 h3
      · constructor
        · intro hres
          exfalso
          by_cases h1 : v.rc = MIGRATEPAGE_SUCCESS
          · have := hs h1
            show False
            rw [this] at hres
            exact hAS hres.symm
          · by_cases h2 : v.rc = - ENOMEM
            · have := hm h2
              show False
              rw [this] at hres
              exact hAM hres.symm
            · have := ho h1 h2
              show False
              rw [this] at hres
              exact hAI hres.symm
        · rintro ⟨-, hall2⟩
          exact absurd (hall2 v (by simp)) hnr
    rw [hdef]
    by_cases h1 : v.rc = - ENOMEM
    · rw [if_pos h1]
      refine ⟨hstop v.rc (by rw [h1]; exact fun h => hAM h.symm)
        (fun h => by rw [h1] at h; exact absurd h hMS) (fun h => h)
        (fun _ h => absurd h1 h), fun _ => by simp⟩
    · rw [if_neg h1]
      by_cases h2 : v.rc = - EAGAIN
      · rw [if_pos h2]
        obtain ⟨post, -⟩ := ih (pass + 1) v.rc
          (unmap_and_move_huge_page E private_ w hpage (decide (pass > 2)) mode).2 (vs ++ [v])
          (by omega) (by simp [hlen]) (fun _ => h2)
          (fun u hu => by
            rcases hmem u hu with h | h
            · exact h
            · rw [h]; exact h2) hatt2
        refine ⟨post, fun _ => ?_⟩
        have := post.attempt
        by_contra hlt
        have hz : (migrate_huge_page_loop E private_ hpage mode fuel (pass + 1) v.rc
          (unmap_and_move_huge_page E private_ w hpage (decide (pass > 2)) mode).2
          (vs ++ [v])).2.2.length = 0 := by omega
        have hiff := post.retry_iff
        cases fuel with
        | zero =>
          have : migrate_huge_page_loop E private_ hpage mode 0 (pass + 1) v.rc
            (unmap_and_move_huge_page E private_ w hpage (decide (pass > 2)) mode).2
            (vs ++ [v]) = (v.rc, (unmap_and_move_huge_page E private_ w hpage
              (decide (pass > 2)) mode).2, vs ++ [v]) := rfl
          rw [this] at hz
          simp at hz
        | succ f =>
          have := (ih (pass + 1) v.rc
            (unmap_and_move_huge_page E private_ w hpage (decide (pass > 2)) mode).2 (vs ++ [v])
            (by omega) (by simp [hlen]) (fun _ => h2)
            (fun u hu => by
              rcases hmem u hu with h | h
              · exact h
              · rw [h]; exact h2) hatt2).2 (by omega)
          omega
      · rw [if_neg h2]
        by_cases h3 : v.rc = MIGRATEPAGE_SUCCESS
        · rw [if_pos h3]
          refine ⟨hstop v.rc h2 (fun h => h) (fun h => absurd h h1)
            (fun h => absurd h3 h), fun _ => by simp⟩
        · rw [if_neg h3]
          refine ⟨hstop (- EIO) h2 (fun h => absurd h h3) (fun h => absurd h h1)
            (fun _ _ => rfl), fun _ => by simp⟩

/-! ## Rate limiting -/

set_option maxRecDepth 100000 in
/-- Counterexample to claim C5 as stated, with 4 KiB pages (`PAGE_SHIFT = 12`,
    budget 32768 pages) and a window of 10 jiffies.  First: 65 calls for 512
    pages each (the size of a huge page) at the same instant are all admitted,
    33280 pages in one window.  Second: the counter is reset at the window
    boundary, so 65 such calls at jiffies 1009 and 65 more at jiffies 1011
    (the window opened at 1000 ends at 1010) admit 66560 pages inside the
    window `[1005, 1015)`. -/
theorem ratelimit_budget_exceeded :
    ratelimit_pages 12 = 32768 ∧
      admitted_in_window 1000 10 (ratelimit_run 10 (ratelimit_pages 12)
        { numabalancing_migrate_nr_pages := 0, numabalancing_migrate_next_window := 0 }
        (List.replicate 65 { jiffies := 1000, nr_pages := 512 })).1 = 33280 ∧
      ¬ (admitted_in_window 1000 10 (ratelimit_run 10 (ratelimit_pages 12)
        { numabalancing_migrate_nr_pages := 0, numabalancing_migrate_next_window := 0 }
        (List.replicate 65 { jiffies := 1000, nr_pages := 512 })).1 ≤ ratelimit_pages 12) ∧
      admitted_in_window 1005 10 (ratelimit_run 10 (ratelimit_pages 12)
        { numabalancing_migrate_nr_pages := 0, numabalancing_migrate_next_window := 1010 }
        (List.replicate 65 { jiffies := 1009, nr_pages := 512 } ++
          List.replicate 65 { jiffies := 1011, nr_pages := 512 })).1 = 66560 := by
  refine ⟨rfl, by decide, by decide, by decide⟩

/-- Calls that do not open a new window add what they admit to the counter,
    and the counter stays at most `limit + M` when no call asks for more than
    `M` pages. -/
theorem ratelimit_run_same_window (interval limit M : Nat) (hno : limit + M < ULONG_SPAN) :
    ∀ (calls : List ratelimit_call) (pgdat : pglist_data),
      pgdat.numabalancing_migrate_nr_pages ≤ limit + M →
      (∀ c ∈ calls, time_after c.jiffies pgdat.numabalancing_migrate_next_window = false) →
      (∀ c ∈ calls, c.nr_pages ≤ M) →
      (ratelimit_run interval limit pgdat calls).2.numabalancing_migrate_nr_pages =
        pgdat.numabalancing_migrate_nr_pages +
          admitted_total (ratelimit_run interval limit pgdat calls).1 ∧
      (ratelimit_run interval limit pgdat calls).2.numabalancing_migrate_nr_pages ≤ limit + M
      := by
  intro calls
  induction calls with
  | nil => intro pgdat h _ _; simp [ratelimit_run, admitted_total, h]
  | cons c cs ih =>
    intro pgdat hle hwin hM
    have hc : time_after c.jiffies pgdat.numabalancing_migrate_next_window = false :=
      hwin c (List.mem_cons_self _ _)
    have hcM : c.nr_pages ≤ M := hM c (List.mem_cons_self _ _)
    by_cases hlim : pgdat.numabalancing_migrate_nr_pages > limit
    · have hstep : numamigrate_update_ratelimit c.jiffies interval limit pgdat c.nr_pages =
          (true, pgdat) := by
        simp [numamigrate_update_ratelimit, hc, hlim]
      obtain ⟨h1, h2⟩ := ih pgdat hle (fun d hd => hwin d (List.mem_cons_of_mem _ hd))
        (fun d hd => hM d (List.mem_cons_of_mem _ hd))
      simp only [ratelimit_run, hstep, admitted_total]
      exact ⟨by simpa using h1, h2⟩
    · have hmod : (pgdat.numabalancing_migrate_nr_pages + c.nr_pages) % ULONG_SPAN =
          pgdat.numabalancing_migrate_nr_pages + c.nr_pages := by
        apply Nat.mod_eq_of_lt
        omega
      have hstep : numamigrate_update_ratelimit c.jiffies interval limit pgdat c.nr_pages =
          (false, { pgdat with numabalancing_migrate_nr_pages :=
            pgdat.numabalancing_migrate_nr_pages + c.nr_pages }) := by
        simp [numamigrate_update_ratelimit, hc, hlim, hmod]
      obtain ⟨h1, h2⟩ := ih { pgdat with numabalancing_migrate_nr_pages :=
          pgdat.numabalancing_migrate_nr_pages + c.nr_pages }
        (by simp only; omega) (fun d hd => hwin d (List.mem_cons_of_mem _ hd))
        (fun d hd => hM d (List.mem_cons_of_mem _ hd))
      simp only [ratelimit_run, hstep, admitted_total]
      simp only at h1 h2
      refine ⟨?_, h2⟩
      rw [h1]
      simp
      omega

/-- Claim C5, as amended.  Take the call that opens an accounting window (its
    clock value is after `numabalancing_migrate_next_window`, so it resets the
    counter) and any calls after it that are not after the end of that window.
    If no call asks for more than `M` pages, the pages admitted by all these
    calls are at most `limit + M`, and they are what the counter holds. -/
theorem ratelimit_window_bound (interval limit M : Nat) (pgdat : pglist_data)
    (c0 : ratelimit_call) (rest : List ratelimit_call)
    (hopen : time_after c0.jiffies pgdat.numabalancing_migrate_next_window = true)
    (hin : ∀ c ∈ rest, time_after c.jiffies ((c0.jiffies + interval) % ULONG_SPAN) = false)
    (hM : ∀ c ∈ c0 :: rest, c.nr_pages ≤ M) (hno : limit + M < ULONG_SPAN) :
    admitted_total (ratelimit_run interval limit pgdat (c0 :: rest)).1 ≤ limit + M ∧
      (ratelimit_run interval limit pgdat (c0 :: rest)).2.numabalancing_migrate_nr_pages =
        admitted_total (ratelimit_run interval limit pgdat (c0 :: rest)).1 := by
  have hc0 : c0.nr_pages ≤ M := hM c0 (List.mem_cons_self _ _)
  have hmod : c0.nr_pages % ULONG_SPAN = c0.nr_pages := Nat.mod_eq_of_lt (by omega)
  have hstep : numamigrate_update_ratelimit c0.jiffies interval limit pgdat c0.nr_pages =
      (false, { numabalancing_migrate_nr_pages := c0.nr_pages,
                numabalancing_migrate_next_window := (c0.jiffies + interval) % ULONG_SPAN }) := by
    simp [numamigrate_update_ratelimit, hopen, hmod]
  obtain ⟨h1, h2⟩ := ratelimit_run_same_window interval limit M hno rest
    { numabalancing_migrate_nr_pages := c0.nr_pages,
      numabalancing_migrate_next_window := (c0.jiffies + interval) % ULONG_SPAN }
    (by simp only; omega) hin (fun d hd => hM d (List.mem_cons_of_mem _ hd))
  simp only [ratelimit_run, hstep, admitted_total]
  simp only at h1 h2
  simp only [Bool.false_eq_true, if_false]
  exact ⟨by omega, h1⟩

set_option maxRecDepth 100000 in
/-- Witness of claim C5 as amended: the 65 huge-page calls of the
    counterexample, in the window opened by the first of them. -/
theorem ratelimit_window_bound_witness :
    time_after 1000 0 = true ∧
      (∀ c ∈ List.replicate 64 ({ jiffies := 1000, nr_pages := 512 } : ratelimit_call),
        time_after c.jiffies ((1000 + 10) % ULONG_SPAN) = false) ∧
      (∀ c ∈ ({ jiffies := 1000, nr_pages := 512 } : ratelimit_call) ::
          List.replicate 64 { jiffies := 1000, nr_pages := 512 }, c.nr_pages ≤ 512) ∧
      ratelimit_pages 12 + 512 < ULONG_SPAN ∧
      admitted_total (ratelimit_run 10 (ratelimit_pages 12)
        { numabalancing_migrate_nr_pages := 7, numabalancing_migrate_next_window := 0 }
        ({ jiffies := 1000, nr_pages := 512 } ::
          List.replicate 64 { jiffies := 1000, nr_pages := 512 })).1 ≤ ratelimit_pages 12 + 512 :=
  ⟨by decide, by decide, by decide, by decide,
    (ratelimit_window_bound 10 (ratelimit_pages 12) 512
      { numabalancing_migrate_nr_pages := 7, numabalancing_migrate_next_window := 0 }
      { jiffies := 1000, nr_pages := 512 }
      (List.replicate 64 { jiffies := 1000, nr_pages := 512 })
      (by decide) (by decide) (by decide) (by decide)).1⟩

/-! ## Flags and content after the copy: `migrate_page_copy` -/

theorem mem_modify_same (w : World) (n : Nat) (f : page → page) :
    (modify_page w n f).mem n = f (w.mem n) := upd_same _ _ _

theorem mem_modify_other (w : World) (n q : Nat) (f : page → page) (h : q ≠ n) :
    (modify_page w n f).mem q = w.mem q := upd_other _ _ _ _ h

/-- Claim C11.  After `migrate_page_copy(newpage, page)` on two different
    frames, whatever the flags were: each of the error, referenced, up-to-date,
    checked and mapped-to-disk bits of the destination is set exactly when it
    was already set there or was set on the source; the active bit of the
    source is clear; if the source was active the destination is active and
    the unevictable bits are as before; if the source was not active but
    unevictable, the destination is unevictable and the source no longer is;
    the source has its swap-cache bit and has-private bit clear and its
    private handle 0; the destination is not under writeback; and the
    destination has the content of the source. -/
theorem migrate_page_copy_flags (w : World) (newpage pg : Nat) (h : newpage ≠ pg) :
    ((migrate_page_copy w newpage pg).mem newpage).PG_error =
        ((w.mem newpage).PG_error || (w.mem pg).PG_error) ∧
      ((migrate_page_copy w newpage pg).mem newpage).PG_referenced =
        ((w.mem newpage).PG_referenced || (w.mem pg).PG_referenced) ∧
      ((migrate_page_copy w newpage pg).mem newpage).PG_uptodate =
        ((w.mem newpage).PG_uptodate || (w.mem pg).PG_uptodate) ∧
      ((migrate_page_copy w newpage pg).mem newpage).PG_checked =
        ((w.mem newpage).PG_checked || (w.mem pg).PG_checked) ∧
      ((migrate_page_copy w newpage pg).mem newpage).PG_mappedtodisk =
        ((w.mem newpage).PG_mappedtodisk || (w.mem pg).PG_mappedtodisk) ∧
      ((migrate_page_copy w newpage pg).mem pg).PG_active = false ∧
      ((w.mem pg).PG_active = true →
        ((migrate_page_copy w newpage pg).mem newpage).PG_active = true ∧
        ((migrate_page_copy w newpage pg).mem newpage).PG_unevictable =
          (w.mem newpage).PG_unevictable ∧
        ((migrate_page_copy w newpage pg).mem pg).PG_unevictable =
          (w.mem pg).PG_unevictable) ∧
      ((w.mem pg).PG_active = false →
        ((migrate_page_copy w newpage pg).mem newpage).PG_active =
          (w.mem newpage).PG_active ∧
        ((migrate_page_copy w newpage pg).mem pg).PG_unevictable = false ∧
        ((w.mem pg).PG_unevictable = true →
          ((migrate_page_copy w newpage pg).mem newpage).PG_unevictable = true)) ∧
      ((migrate_page_copy w newpage pg).mem pg).PG_swapcache = false ∧
      ((migrate_page_copy w newpage pg).mem pg).PG_private = false ∧
      ((migrate_page_copy w newpage pg).mem pg).private_ = 0 ∧
      ((migrate_page_copy w newpage pg).mem newpage).PG_writeback = false ∧
      ((migrate_page_copy w newpage pg).mem newpage).data = (w.mem pg).data := by
  have h2 : pg ≠ newpage := Ne.symm h
  unfold migrate_page_copy mlock_migrate_page
  simp only [apply_ite World.mem, apply_ite (fun (f : Nat → page) => f newpage),
    apply_ite (fun (f : Nat → page) => f pg), mem_modify_same, mem_modify_other _ _ _ _ h,
    mem_modify_other _ _ _ _ h2, World.log, dec_zone_page_state, inc_zone_page_state,
    mod_zone_stat, apply_ite page.PG_error, apply_ite page.PG_referenced,
    apply_ite page.PG_uptodate, apply_ite page.PG_checked, apply_ite page.PG_mappedtodisk,
    apply_ite page.PG_active, apply_ite page.PG_unevictable, apply_ite page.PG_swapcache,
    apply_ite page.PG_private, apply_ite page.private_, apply_ite page.PG_writeback,
    apply_ite page.data, apply_ite page.PG_dirty, apply_ite page.PG_mlocked, ite_self]
  refine ⟨?_, ?_, ?_, ?_, ?_, ?_, ?_, ?_, ?_⟩
  · cases (w.mem pg).PG_error <;> simp
  · cases (w.mem pg).PG_referenced <;> simp
  · cases (w.mem pg).PG_uptodate <;> simp
  · cases (w.mem pg).PG_checked <;> simp
  · cases (w.mem pg).PG_mappedtodisk <;> simp
  · cases (w.mem pg).PG_active <;> simp
  · intro ha
    simp [ha]
  · intro ha
    simp only [ha]
    refine ⟨by simp, ?_, ?_⟩
    · cases (w.mem pg).PG_unevictable <;> simp
    · intro hu
      simp [hu]
  · simp

/-- Witness of claim C11: the copy from frame 7 of the example (every flag set
    but the unevictable bit, swap-cache, private state 42) to frame 8 (fresh,
    under writeback). -/
theorem migrate_page_copy_flags_witness :
    (8 : Nat) ≠ 7 ∧ (flagged_world.mem 7).PG_active = true ∧
      (flagged_world.mem 8).PG_writeback = true ∧
      ((migrate_page_copy flagged_world 8 7).mem 8).PG_error = true ∧
      ((migrate_page_copy flagged_world 8 7).mem 8).PG_active = true ∧
      ((migrate_page_copy flagged_world 8 7).mem 7).PG_active = false ∧
      ((migrate_page_copy flagged_world 8 7).mem 7).PG_swapcache = false ∧
      ((migrate_page_copy flagged_world 8 7).mem 7).PG_private = false ∧
      ((migrate_page_copy flagged_world 8 7).mem 7).private_ = 0 ∧
      ((migrate_page_copy flagged_world 8 7).mem 8).PG_writeback = false ∧
      ((migrate_page_copy flagged_world 8 7).mem 8).data = [11, 12] := by
  obtain ⟨he, -, -, -, -, hsa, hact, -, hsc, hpr, hph, hwb, hdata⟩ :=
    migrate_page_copy_flags flagged_world 8 7 (by decide)
  exact ⟨by decide, rfl, rfl, he, (hact rfl).1, hsa, hsc, hpr, hph, hwb, hdata⟩

/-! ## The lock and writeback steps of `__unmap_and_move` -/

/-- The function `__unmap_and_move` is its lock step followed by
    `unmap_and_move_held`. -/
theorem __unmap_and_move_steps (E : Env) (w : World) (pg newpage : Nat) (force : Bool)
    (mode : migrate_mode) :
    __unmap_and_move E w pg newpage force mode =
      if !(trylock_page (w.log (Event.__unmap_and_move pg newpage force)) pg).1 &&
          (!force || mode = MIGRATE_ASYNC) then
        (- EAGAIN, (trylock_page (w.log (Event.__unmap_and_move pg newpage force)) pg).2)
      else if !(trylock_page (w.log (Event.__unmap_and_move pg newpage force)) pg).1 &&
          (trylock_page (w.log (Event.__unmap_and_move pg newpage force)) pg).2.PF_MEMALLOC then
        (- EAGAIN, (trylock_page (w.log (Event.__unmap_and_move pg newpage force)) pg).2)
      else
        unmap_and_move_held E (unmap_and_move_lock_held w pg newpage force) pg newpage force
          mode := rfl

theorem trylock_page_locked (w : World) (pg : Nat) (h : (w.mem pg).PG_locked = true) :
    trylock_page w pg = (false, w.log (Event.trylock_page pg false)) := by
  simp only [trylock_page, h, if_true]

theorem trylock_page_free (w : World) (pg : Nat) (h : (w.mem pg).PG_locked = false) :
    trylock_page w pg =
      (true, (w.set_page pg { w.mem pg with PG_locked := true }).log
        (Event.trylock_page pg true)) := by
  simp only [trylock_page, h, Bool.false_eq_true, if_false]

/-- With the lock free, `__unmap_and_move` takes it and goes on. -/
theorem __unmap_and_move_free (E : Env) (w : World) (pg newpage : Nat) (force : Bool)
    (mode : migrate_mode) (h : (w.mem pg).PG_locked = false) :
    __unmap_and_move E w pg newpage force mode =
      unmap_and_move_held E (unmap_and_move_lock_held w pg newpage force) pg newpage force
        mode := by
  rw [__unmap_and_move_steps,
    trylock_page_free (w.log (Event.__unmap_and_move pg newpage force)) pg h]
  rfl

/-- With the lock taken by someone else, `__unmap_and_move` gives up when it
    may not block. -/
theorem __unmap_and_move_give_up (E : Env) (w : World) (pg newpage : Nat) (force : Bool)
    (mode : migrate_mode) (h : (w.mem pg).PG_locked = true)
    (hc : force = false ∨ mode = MIGRATE_ASYNC ∨ w.PF_MEMALLOC = true) :
    __unmap_and_move E w pg newpage force mode =
      (- EAGAIN, (w.log (Event.__unmap_and_move pg newpage force)).log
        (Event.trylock_page pg false)) := by
  rw [__unmap_and_move_steps,
    trylock_page_locked (w.log (Event.__unmap_and_move pg newpage force)) pg h]
  rcases hc with hf | hm | hp
  · subst hf
    rfl
  · subst hm
    cases force <;> rfl
  · have hp2 : ((w.log (Event.__unmap_and_move pg newpage force)).log
        (Event.trylock_page pg false)).PF_MEMALLOC = true := hp
    simp only [Bool.not_false, Bool.true_and, hp2, if_true, ite_self]

/-- With the lock taken by someone else, `__unmap_and_move` blocks for it when
    it may. -/
theorem __unmap_and_move_block (E : Env) (w : World) (pg newpage : Nat) (force : Bool)
    (mode : migrate_mode) (h : (w.mem pg).PG_locked = true) (hf : force = true)
    (hm : mode ≠ MIGRATE_ASYNC) (hp : w.PF_MEMALLOC = false) :
    __unmap_and_move E w pg newpage force mode =
      unmap_and_move_held E (unmap_and_move_lock_held w pg newpage force) pg newpage force
        mode := by
  rw [__unmap_and_move_steps,
    trylock_page_locked (w.log (Event.__unmap_and_move pg newpage force)) pg h]
  have hp2 : ((w.log (Event.__unmap_and_move pg newpage force)).log
      (Event.trylock_page pg false)).PF_MEMALLOC = false := hp
  subst hf
  simp [hm, hp2]

/-- The state in which the lock is held, field by field. -/
theorem unmap_and_move_lock_held_fields (w : World) (pg newpage : Nat) (force : Bool) :
    (unmap_and_move_lock_held w pg newpage force).mem =
        upd w.mem pg { w.mem pg with PG_locked := true } ∧
      (unmap_and_move_lock_held w pg newpage force).trace =
        w.trace ++ ([Event.__unmap_and_move pg newpage force,
          Event.trylock_page pg (!(w.mem pg).PG_locked)] ++
          (if (w.mem pg).PG_locked then [Event.lock_page pg] else []) ++
          [Event.mem_cgroup_prepare_migration pg newpage]) ∧
      (unmap_and_move_lock_held w pg newpage force).pte = w.pte ∧
      (unmap_and_move_lock_held w pg newpage force).page_tree = w.page_tree ∧
      (unmap_and_move_lock_held w pg newpage force).vm_stat = w.vm_stat ∧
      (unmap_and_move_lock_held w pg newpage force).from_ = w.from_ := by
  cases h : (w.mem pg).PG_locked
  · simp only [unmap_and_move_lock_held,
      trylock_page_free (w.log (Event.__unmap_and_move pg newpage force)) pg h]
    refine ⟨rfl, ?_, rfl, rfl, rfl, rfl⟩
    simp [World.log, World.set_page]
  · simp only [unmap_and_move_lock_held,
      trylock_page_locked (w.log (Event.__unmap_and_move pg newpage force)) pg h]
    refine ⟨rfl, ?_, rfl, rfl, rfl, rfl⟩
    simp [World.log, World.set_page, lock_page]

/-- Claim C13.  When the lock of the source frame is taken by someone else, so
    that `trylock_page` fails: if `force` is false, or the mode is
    `MIGRATE_ASYNC`, or the caller is under reclaim (`PF_MEMALLOC`),
    `__unmap_and_move` returns `-EAGAIN` and the state is the state of the call
    with two ghost events, the entry and the failed trylock: no charge was
    prepared, nothing was unmapped or relocated, and the frame was not
    unlocked.  Otherwise (`force` true, mode not `MIGRATE_ASYNC`, caller not
    under reclaim) it blocks in `lock_page` and goes on with the lock held. -/
theorem __unmap_and_move_lock_contended (E : Env) (w : World) (pg newpage : Nat)
    (force : Bool) (mode : migrate_mode) (hlocked : (w.mem pg).PG_locked = true) :
    ((force = false ∨ mode = MIGRATE_ASYNC ∨ w.PF_MEMALLOC = true) →
        (__unmap_and_move E w pg newpage force mode).1 = - EAGAIN ∧
        (__unmap_and_move E w pg newpage force mode).2 =
          { w with trace := w.trace ++ [Event.__unmap_and_move pg newpage force,
              Event.trylock_page pg false] } ∧
        ((__unmap_and_move E w pg newpage force mode).2.mem pg).PG_locked = true) ∧
      (force = true → mode ≠ MIGRATE_ASYNC → w.PF_MEMALLOC = false →
        __unmap_and_move E w pg newpage force mode =
          unmap_and_move_held E
            ((lock_page ((w.log (Event.__unmap_and_move pg newpage force)).log
              (Event.trylock_page pg false)) pg).log
              (Event.mem_cgroup_prepare_migration pg newpage)) pg newpage force mode) := by
  constructor
  · intro hc
    rw [__unmap_and_move_give_up E w pg newpage force mode hlocked hc]
    refine ⟨rfl, ?_, hlocked⟩
    simp [World.log]
  · intro hf hm hp
    rw [__unmap_and_move_block E w pg newpage force mode hlocked hf hm hp]
    simp only [unmap_and_move_lock_held,
      trylock_page_locked (w.log (Event.__unmap_and_move pg newpage force)) pg hlocked]
    rfl

/-- Witness of claim C13: frame 3 of the example is locked; without `force`
    the invocation returns `-EAGAIN` and leaves the frame locked. -/
theorem __unmap_and_move_lock_contended_witness :
    (demo_mem 3).PG_locked = true ∧
      (__unmap_and_move demo_env (demo_world [3]) 3 103 false MIGRATE_SYNC).1 = - EAGAIN ∧
      ((__unmap_and_move demo_env (demo_world [3]) 3 103 false MIGRATE_SYNC).2.mem 3).PG_locked =
        true ∧
      (__unmap_and_move demo_env (demo_world [3]) 3 103 false MIGRATE_SYNC).2.trace =
        [Event.__unmap_and_move 3 103 false, Event.trylock_page 3 false] := by
  obtain ⟨h1, h2, h3⟩ := (__unmap_and_move_lock_contended demo_env (demo_world [3]) 3 103 false
    MIGRATE_SYNC rfl).1 (Or.inl rfl)
  exact ⟨rfl, h1, h3, by rw [h2]; rfl⟩

/-- The state fields after `unmap_and_move_uncharge`. -/
theorem unmap_and_move_uncharge_fields (w : World) (pg newpage : Nat) (rc : Int) :
    (unmap_and_move_uncharge w pg newpage rc).1 = rc ∧
      (unmap_and_move_uncharge w pg newpage rc).2.mem =
        upd w.mem pg { w.mem pg with PG_locked := false } ∧
      (unmap_and_move_uncharge w pg newpage rc).2.trace =
        w.trace ++ [Event.mem_cgroup_end_migration pg newpage
          (decide (rc = MIGRATEPAGE_SUCCESS ∨ rc = MIGRATEPAGE_BALLOON_SUCCESS)),
          Event.unlock_page pg] ∧
      (unmap_and_move_uncharge w pg newpage rc).2.pte = w.pte ∧
      (unmap_and_move_uncharge w pg newpage rc).2.page_tree = w.page_tree ∧
      (unmap_and_move_uncharge w pg newpage rc).2.vm_stat = w.vm_stat ∧
      (unmap_and_move_uncharge w pg newpage rc).2.from_ = w.from_ := by
  refine ⟨rfl, rfl, ?_, rfl, rfl, rfl, rfl⟩
  simp [unmap_and_move_uncharge, unlock_page, World.log, World.set_page]

/-- Claim C12, as the code has it.  Take a source frame under writeback.  If
    the mode is `MIGRATE_SYNC` and `force` is false, `__unmap_and_move` returns
    `-EAGAIN`.  If the function gets the lock of the frame (the lock is free,
    or the function may block for it) and the mode is not `MIGRATE_SYNC`, it
    returns `-EBUSY`.  In both cases, with the lock held, only the lock, the
    charge, the uncharge and the unlock happened: the trace has no unmap, no
    relocation and no wait, the translations, the cache slots, the counters
    and the working list are untouched, and the frames are as before except
    that the source is unlocked.  If the mode is `MIGRATE_SYNC` and `force` is
    true, the function, once it holds the lock, waits for writeback and goes on
    with `unmap_and_move_anon`. -/
theorem __unmap_and_move_writeback (E : Env) (w : World) (pg newpage : Nat) (force : Bool)
    (mode : migrate_mode) (hwb : (w.mem pg).PG_writeback = true) :
    (mode = MIGRATE_SYNC → force = false →
        (__unmap_and_move E w pg newpage force mode).1 = - EAGAIN) ∧
      (((w.mem pg).PG_locked = false ∨
          (force = true ∧ mode ≠ MIGRATE_ASYNC ∧ w.PF_MEMALLOC = false)) →
        (mode ≠ MIGRATE_SYNC → (__unmap_and_move E w pg newpage force mode).1 = - EBUSY) ∧
        (mode ≠ MIGRATE_SYNC ∨ force = false →
          (__unmap_and_move E w pg newpage force mode).2.trace =
            w.trace ++ ([Event.__unmap_and_move pg newpage force,
              Event.trylock_page pg (!(w.mem pg).PG_locked)] ++
              (if (w.mem pg).PG_locked then [Event.lock_page pg] else []) ++
              [Event.mem_cgroup_prepare_migration pg newpage,
                Event.mem_cgroup_end_migration pg newpage false, Event.unlock_page pg]) ∧
          (__unmap_and_move E w pg newpage force mode).2.pte = w.pte ∧
          (__unmap_and_move E w pg newpage force mode).2.page_tree = w.page_tree ∧
          (__unmap_and_move E w pg newpage force mode).2.vm_stat = w.vm_stat ∧
          (__unmap_and_move E w pg newpage force mode).2.from_ = w.from_ ∧
          (__unmap_and_move E w pg newpage force mode).2.mem =
            upd w.mem pg { w.mem pg with PG_locked := false }) ∧
        (mode = MIGRATE_SYNC → force = true →
          __unmap_and_move E w pg newpage force mode =
            unmap_and_move_anon E
              (wait_on_page_writeback (unmap_and_move_lock_held w pg newpage force) pg)
              pg newpage mode)) := by
  obtain ⟨hmem, htrace, hpte, htree, hstat, hfrom⟩ :=
    unmap_and_move_lock_held_fields w pg newpage force
  have hwb2 : ((unmap_and_move_lock_held w pg newpage force).mem pg).PG_writeback = true := by
    rw [hmem, upd_same]
    exact hwb
  have hagain : __unmap_and_move E w pg newpage force mode =
      unmap_and_move_held E (unmap_and_move_lock_held w pg newpage force) pg newpage force
        mode → mode = MIGRATE_SYNC → force = false →
      __unmap_and_move E w pg newpage force mode =
        unmap_and_move_uncharge (unmap_and_move_lock_held w pg newpage force) pg newpage
          (- EAGAIN) := by
    intro hstep hm hf
    subst hm
    subst hf
    rw [hstep]
    simp [unmap_and_move_held, hwb2]
  constructor
  · intro hm hf
    cases h : (w.mem pg).PG_locked
    · rw [hagain (__unmap_and_move_free E w pg newpage force mode h) hm hf]
      rfl
    · rw [__unmap_and_move_give_up E w pg newpage force mode h (Or.inl hf)]
  intro hlock
  have hstep : __unmap_and_move E w pg newpage force mode =
      unmap_and_move_held E (unmap_and_move_lock_held w pg newpage force) pg newpage force
        mode := by
    rcases hlock with h | ⟨hf, hm, hp⟩
    · exact __unmap_and_move_free E w pg newpage force mode h
    · cases h : (w.mem pg).PG_locked
      · exact __unmap_and_move_free E w pg newpage force mode h
      · exact __unmap_and_move_block E w pg newpage force mode h hf hm hp
  have hbusy : mode ≠ MIGRATE_SYNC → __unmap_and_move E w pg newpage force mode =
      unmap_and_move_uncharge (unmap_and_move_lock_held w pg newpage force) pg newpage
        (- EBUSY) := by
    intro hm
    rw [hstep]
    simp [unmap_and_move_held, hwb2, hm]
  have hfields : ∀ rc : Int, rc ≠ MIGRATEPAGE_SUCCESS → rc ≠ MIGRATEPAGE_BALLOON_SUCCESS →
      (unmap_and_move_uncharge (unmap_and_move_lock_held w pg newpage force) pg newpage
          rc).2.trace =
        w.trace ++ ([Event.__unmap_and_move pg newpage force,
          Event.trylock_page pg (!(w.mem pg).PG_locked)] ++
          (if (w.mem pg).PG_locked then [Event.lock_page pg] else []) ++
          [Event.mem_cgroup_prepare_migration pg newpage,
            Event.mem_cgroup_end_migration pg newpage false, Event.unlock_page pg]) ∧
      (unmap_and_move_uncharge (unmap_and_move_lock_held w pg newpage force) pg newpage
          rc).2.pte = w.pte ∧
      (unmap_and_move_uncharge (unmap_and_move_lock_held w pg newpage force) pg newpage
          rc).2.page_tree = w.page_tree ∧
      (unmap_and_move_uncharge (unmap_and_move_lock_held w pg newpage force) pg newpage
          rc).2.vm_stat = w.vm_stat ∧
      (unmap_and_move_uncharge (unmap_and_move_lock_held w pg newpage force) pg newpage
          rc).2.from_ = w.from_ ∧
      (unmap_and_move_uncharge (unmap_and_move_lock_held w pg newpage force) pg newpage
          rc).2.mem = upd w.mem pg { w.mem pg with PG_locked := false } := by
    intro rc h0 h1
    obtain ⟨-, umem, utrace, upte, utree, ustat, ufrom⟩ :=
      unmap_and_move_uncharge_fields (unmap_and_move_lock_held w pg newpage force) pg newpage rc
    refine ⟨?_, upte.trans hpte, utree.trans htree, ustat.trans hstat, ufrom.trans hfrom, ?_⟩
    · rw [utrace, htrace]
      simp [h0, h1]
    · rw [umem, hmem, upd_same]
      funext q
      by_cases hq : q = pg
      · subst hq
        rw [upd_same, upd_same]
      · rw [upd_other _ _ _ _ hq, upd_other _ _ _ _ hq, upd_other _ _ _ _ hq]
  refine ⟨?_, ?_, ?_⟩
  · intro hm
    rw [hbusy hm]
    rfl
  · intro hc
    by_cases hm : mode = MIGRATE_SYNC
    · have hf : force = false := by
        rcases hc with h | h
        · exact absurd hm h
        · exact h
      rw [hagain hstep hm hf]
      exact hfields _ (by decide) (by decide)
    · rw [hbusy hm]
      exact hfields _ (by decide) (by decide)
  · intro hm hf
    subst hm
    subst hf
    rw [hstep]
    simp [unmap_and_move_held, hwb2]

/-- Witness of claim C12: frame 4 of the example is under writeback and its
    lock is free; in `MIGRATE_ASYNC` the invocation returns `-EBUSY` and only
    locks, charges, uncharges and unlocks. -/
theorem __unmap_and_move_writeback_witness :
    (demo_mem 4).PG_writeback = true ∧ (demo_mem 4).PG_locked = false ∧
      (__unmap_and_move demo_env (demo_world [4]) 4 104 false MIGRATE_ASYNC).1 = - EBUSY ∧
      (__unmap_and_move demo_env (demo_world [4]) 4 104 false MIGRATE_ASYNC).2.trace =
        [Event.__unmap_and_move 4 104 false, Event.trylock_page 4 true,
          Event.mem_cgroup_prepare_migration 4 104,
          Event.mem_cgroup_end_migration 4 104 false, Event.unlock_page 4] ∧
      (__unmap_and_move demo_env (demo_world [4]) 4 104 false MIGRATE_ASYNC).2.page_tree =
        (demo_world [4]).page_tree := by
  obtain ⟨h1, h3, -⟩ := (__unmap_and_move_writeback demo_env (demo_world [4]) 4 104 false
    MIGRATE_ASYNC rfl).2 (Or.inl rfl)
  obtain ⟨ht, -, htree, -⟩ := h3 (Or.inl (by decide))
  exact ⟨rfl, rfl, h1 (by decide), by rw [ht]; rfl, htree⟩

/-- Counterexample to claim C12 as stated: frame 4 of the example is under
    writeback, its lock is free and the mode is `MIGRATE_ASYNC`, which is not
    `MIGRATE_SYNC`; `__unmap_and_move` returns `-EBUSY`, which is not
    `-EAGAIN`, and `migrate_pages` counts the frame as a permanent failure: it
    returns 1 after a single pass and the frame is off the working list. -/
theorem __unmap_and_move_writeback_async_not_retry :
    (demo_mem 4).PG_writeback = true ∧ (demo_mem 4).PG_locked = false ∧
      MIGRATE_ASYNC ≠ MIGRATE_SYNC ∧
      (__unmap_and_move demo_env (demo_world [4]) 4 104 false MIGRATE_ASYNC).1 = - EBUSY ∧
      (__unmap_and_move demo_env (demo_world [4]) 4 104 false MIGRATE_ASYNC).1 ≠ - EAGAIN ∧
      (migrate_pages demo_env 0 MIGRATE_ASYNC (demo_world [4])).rc = 1 ∧
      (migrate_pages demo_env 0 MIGRATE_ASYNC (demo_world [4])).passes = 1 ∧
      (migrate_pages demo_env 0 MIGRATE_ASYNC (demo_world [4])).w.from_ = [] := by
  refine ⟨rfl, rfl, by decide, rfl, ?_, rfl, rfl, rfl⟩
  have h : (__unmap_and_move demo_env (demo_world [4]) 4 104 false MIGRATE_ASYNC).1 = - EBUSY :=
    rfl
  rw [h]
  decide

/-! ## Resolving a placeholder: `remove_migration_pte` -/

/-- Counterexample to claim C14 as stated: in a mapping whose `vm_page_prot`
    grants write access, a placeholder for frame 0 that recorded no write
    permission is resolved back to frame 0 (`new = old`), which the caller
    holds locked, as a writable entry. -/
theorem remove_migration_pte_writable_from_prot :
    (placeholder_world.mem 0).PG_locked = true ∧
      placeholder_world.pte 1 4096 = pte_t.swap (swp_entry_t.migration false 0) ∧
      (remove_migration_pte placeholder_world 0 writable_vma 4096 0).2.pte 1 4096 =
        pte_t.present 0 { write := true, young := false } false := by
  exact ⟨rfl, rfl, rfl⟩

/-- Claim C14, as the code has it.  `remove_migration_pte(new, vma, addr, old)`
    always returns `SWAP_AGAIN`.  When the leaf entry of `addr` can be reached
    (`huge_pte_offset` finds it for a huge frame, else the `pmd` is a table)
    and is a migration placeholder for `old`, the entry becomes a present
    entry for `new` with the accessed bit clear, writable exactly when the
    placeholder recorded the write permission or `vma->vm_page_prot` grants
    it (so it has the recorded write bit whenever `vm_page_prot` is not
    writable), huge exactly when `new` is; `new` gains one reference and one
    mapping, and no other entry changes.  In every other case (leaf not
    reachable, entry empty, present, a file entry, another swap entry, or a
    placeholder for another frame) the state is unchanged. -/
theorem remove_migration_pte_resolves (w : World) (new : Nat) (vma : vm_area_struct)
    (addr old : Nat) :
    (remove_migration_pte w new vma addr old).1 = SWAP_AGAIN ∧
      (∀ write : Bool,
        (if (w.mem new).huge then w.huge_pte vma.vm_mm addr = true
          else w.pmd vma.vm_mm addr = pmd_state.table) →
        w.pte vma.vm_mm addr = pte_t.swap (swp_entry_t.migration write old) →
        (remove_migration_pte w new vma addr old).2.pte vma.vm_mm addr =
            pte_t.present new { write := vma.vm_page_prot.write || write, young := false }
              (w.mem new).huge ∧
          (vma.vm_page_prot.write = false →
            (remove_migration_pte w new vma addr old).2.pte vma.vm_mm addr =
              pte_t.present new { write := write, young := false } (w.mem new).huge) ∧
          (∀ mm a, ¬(mm = vma.vm_mm ∧ a = addr) →
            (remove_migration_pte w new vma addr old).2.pte mm a = w.pte mm a) ∧
          ((remove_migration_pte w new vma addr old).2.mem new)._count =
            (w.mem new)._count + 1 ∧
          ((remove_migration_pte w new vma addr old).2.mem new)._mapcount =
            (w.mem new)._mapcount + 1) ∧
      ((¬(if (w.mem new).huge then w.huge_pte vma.vm_mm addr = true
            else w.pmd vma.vm_mm addr = pmd_state.table) ∨
          ∀ write : Bool,
            w.pte vma.vm_mm addr ≠ pte_t.swap (swp_entry_t.migration write old)) →
        (remove_migration_pte w new vma addr old).2 = w) := by
  refine ⟨?_, ?_, ?_⟩
  · unfold remove_migration_pte
    simp only
    repeat' split
    all_goals rfl
  · intro write hleaf hpte
    have hfound : (if (w.mem new).huge then w.huge_pte vma.vm_mm addr
        else match w.pmd vma.vm_mm addr with
          | pmd_state.absent => false
          | pmd_state.trans_huge => false
          | pmd_state.table => true) = true := by
      split
      · rename_i hh
        rw [if_pos hh] at hleaf
        exact hleaf
      · rename_i hh
        rw [if_neg hh] at hleaf
        rw [hleaf]
    have hr : remove_migration_pte w new vma addr old =
        (SWAP_AGAIN, page_add_rmap (set_pte_at (get_page w new) vma.vm_mm addr
          (pte_t.present new
            (if write then { write := true, young := false }
              else { write := vma.vm_page_prot.write, young := false })
            ((get_page w new).mem new).huge)) new) := by
      unfold remove_migration_pte
      simp only [hfound, hpte]
      simp
    rw [hr]
    have hhuge : ((get_page w new).mem new).huge = (w.mem new).huge := by
      show (upd _ new _ new : page).huge = _
      rw [upd_same]
    have hprot : (if write then ({ write := true, young := false } : pgprot_t)
        else { write := vma.vm_page_prot.write, young := false }) =
        { write := vma.vm_page_prot.write || write, young := false } := by
      cases write <;> simp
    rw [hhuge, hprot]
    have hentry : (page_add_rmap (set_pte_at (get_page w new) vma.vm_mm addr
          (pte_t.present new { write := vma.vm_page_prot.write || write, young := false }
            (w.mem new).huge)) new).pte vma.vm_mm addr =
        pte_t.present new { write := vma.vm_page_prot.write || write, young := false }
          (w.mem new).huge := by
      show upd _ vma.vm_mm (upd _ addr _) vma.vm_mm addr = _
      rw [upd_same, upd_same]
    refine ⟨hentry, ?_, ?_, ?_, ?_⟩
    · intro hp
      rw [hentry, hp, Bool.false_or]
    · intro mm a hne
      show upd _ vma.vm_mm (upd _ addr _) mm a = _
      by_cases hmm : mm = vma.vm_mm
      · subst hmm
        have ha : a ≠ addr := fun h => hne ⟨rfl, h⟩
        rw [upd_same, upd_other _ _ _ _ ha]
        rfl
      · rw [upd_other _ _ _ _ hmm]
        rfl
    · simp only [page_add_rmap, mem_modify_same, set_pte_at, get_page, World.set_page, upd_same]
    · simp only [page_add_rmap, mem_modify_same, set_pte_at, get_page, World.set_page, upd_same]
  · intro hc
    unfold remove_migration_pte
    simp only
    rcases hc with hleaf | hpte
    · have hfound : (if (w.mem new).huge then w.huge_pte vma.vm_mm addr
          else match w.pmd vma.vm_mm addr with
            | pmd_state.absent => false
            | pmd_state.trans_huge => false
            | pmd_state.table => true) = false := by
        split
        · rename_i hh
          rw [if_pos hh] at hleaf
          simpa using hleaf
        · rename_i hh
          rw [if_neg hh] at hleaf
          cases hp : w.pmd vma.vm_mm addr
          · rfl
          · rfl
          · exact absurd hp hleaf
      rw [hfound]
      rfl
    · repeat' split
      all_goals first
        | rfl
        | (rename_i heq hw _; exact absurd (by rw [heq, not_not.1 hw]) (hpte _))

/-- Witness of claim C14: in a mapping whose `vm_page_prot` grants no write
    access, the read-only placeholder for frame 0 of the example is resolved
    back to frame 0 as a read-only entry, and frame 0 gains a reference. -/
theorem remove_migration_pte_resolves_witness :
    placeholder_world.pmd 1 4096 = pmd_state.table ∧
      placeholder_world.pte 1 4096 = pte_t.swap (swp_entry_t.migration false 0) ∧
      (remove_migration_pte placeholder_world 0 private_vma 4096 0).2.pte 1 4096 =
        pte_t.present 0 { write := false, young := false } false ∧
      ((remove_migration_pte placeholder_world 0 private_vma 4096 0).2.mem 0)._count = 2 := by
  obtain ⟨-, h, -, hc, -⟩ := (remove_migration_pte_resolves placeholder_world 0 private_vma 4096
    0).2.1 false rfl rfl
  exact ⟨rfl, rfl, h rfl, hc⟩

/-! ## All-or-nothing buffer locking: `buffer_migrate_lock_buffers` -/

/-- Claim C15.  For a non-empty ring of buffers, `buffer_migrate_lock_buffers`
    in `MIGRATE_ASYNC` returns true exactly when every buffer of the ring was
    unlocked, so that each trylock in traversal order succeeds; then every
    buffer is locked and has one more reference; when it returns false every
    buffer has the lock bit and the reference count it had before the call. -/
theorem buffer_migrate_lock_buffers_all_or_nothing (ring : List buffer_head)
    (_hring : ring ≠ []) :
    ((buffer_migrate_lock_buffers ring MIGRATE_ASYNC).1 = true ↔
        ∀ b ∈ ring, b.BH_Lock = false) ∧
      ((buffer_migrate_lock_buffers ring MIGRATE_ASYNC).1 = true →
        (buffer_migrate_lock_buffers ring MIGRATE_ASYNC).2 =
          ring.map (fun b => { b_count := b.b_count + 1, BH_Lock := true })) ∧
      ((buffer_migrate_lock_buffers ring MIGRATE_ASYNC).1 = false →
        (buffer_migrate_lock_buffers ring MIGRATE_ASYNC).2 = ring) := by
  have h := buffer_trylock_loop_spec ring [] (by simp)
  simp only [List.map_nil, List.nil_append] at h
  have hdef : buffer_migrate_lock_buffers ring MIGRATE_ASYNC = buffer_trylock_loop [] ring := by
    simp [buffer_migrate_lock_buffers]
  rw [hdef]
  obtain ⟨h1, h2, h3⟩ := h
  refine ⟨?_, ?_, h2⟩
  · constructor
    · intro ht b hb
      cases hl : b.BH_Lock
      · rfl
      · have hf := h1.2 ⟨b, hb, hl⟩
        rw [ht] at hf
        exact absurd hf (by simp)
    · intro hall
      cases ht : (buffer_trylock_loop [] ring).1
      · obtain ⟨b, hb, hl⟩ := h1.1 ht
        rw [hall b hb] at hl
        exact absurd hl (by simp)
      · rfl
  · intro ht
    rw [h3 ht]
    rfl

/-- Witness of claim C15: a ring of three buffers whose last one is locked.
    The call fails, and the two buffers locked on the way are unlocked and
    released again. -/
theorem buffer_migrate_lock_buffers_all_or_nothing_witness :
    (buffer_migrate_lock_buffers
        [{ b_count := 1, BH_Lock := false }, { b_count := 2, BH_Lock := false },
          { b_count := 1, BH_Lock := true }] MIGRATE_ASYNC).1 = false ∧
      (buffer_migrate_lock_buffers
        [{ b_count := 1, BH_Lock := false }, { b_count := 2, BH_Lock := false },
          { b_count := 1, BH_Lock := true }] MIGRATE_ASYNC).2 =
        [{ b_count := 1, BH_Lock := false }, { b_count := 2, BH_Lock := false },
          { b_count := 1, BH_Lock := true }] :=
  ⟨rfl, (buffer_migrate_lock_buffers_all_or_nothing _ (by simp)).2.2 rfl⟩

/-! ## What becomes of the destination frame -/

/-- Every way out of `unmap_and_move` through the label `out` ends with
    `putback_lru_page(newpage)`, which drops the reference on the destination. -/
theorem unmap_and_move_out_releases (w : World) (pg newpage : Nat) (result : Option Nat)
    (rc : Int) :
    ∃ w1 : World, (unmap_and_move_out w pg newpage result rc).2 =
        store_result (putback_lru_page w1 newpage) result rc newpage ∧
      (unmap_and_move_out w pg newpage result rc).2.trace =
        w1.trace ++ [Event.putback_lru_page newpage] ∧
      ((unmap_and_move_out w pg newpage result rc).2.mem newpage)._count =
        (w1.mem newpage)._count - 1 := by
  refine ⟨_, rfl, ?_, ?_⟩
  · rw [show (unmap_and_move_out w pg newpage result rc).2 =
      store_result (putback_lru_page _ newpage) result rc newpage from rfl,
      (store_result_fields _ result rc newpage).2.1]
    rfl
  · rw [show (unmap_and_move_out w pg newpage result rc).2 =
      store_result (putback_lru_page _ newpage) result rc newpage from rfl,
      (store_result_fields _ result rc newpage).1]
    show (upd _ newpage _ newpage : page)._count = _
    rw [upd_same]

/-- With a destination at hand, `unmap_and_move` returns either through the
    label `out` or, after a balloon page was migrated, with
    `MIGRATEPAGE_SUCCESS`. -/
theorem unmap_and_move_ways_out (E : Env) (private_ : Nat) (w : World) (pg newpage : Nat)
    (force : Bool) (mode : migrate_mode)
    (hnew : (E.get_new_page w pg private_).1 = some newpage) :
    (unmap_and_move E private_ w pg force mode).1 = MIGRATEPAGE_SUCCESS ∨
      ∃ (w1 : World) (rc : Int), unmap_and_move E private_ w pg force mode =
        unmap_and_move_out w1 pg newpage (E.get_new_page w pg private_).2 rc := by
  unfold unmap_and_move
  simp only [hnew]
  repeat' split
  all_goals first
    | exact Or.inr ⟨_, _, rfl⟩
    | exact Or.inl rfl

/-- Whenever the factory gave `unmap_and_move` a destination and the result is
    not `MIGRATEPAGE_SUCCESS`, the last thing done to the frames is
    `putback_lru_page(newpage)`: the reference on the destination is dropped
    on every abort path of this entry point. -/
theorem unmap_and_move_releases (E : Env) (private_ : Nat) (w : World) (pg newpage : Nat)
    (force : Bool) (mode : migrate_mode)
    (hnew : (E.get_new_page w pg private_).1 = some newpage)
    (hrc : (unmap_and_move E private_ w pg force mode).1 ≠ MIGRATEPAGE_SUCCESS) :
    ∃ w1 : World, (unmap_and_move E private_ w pg force mode).2.trace =
        w1.trace ++ [Event.putback_lru_page newpage] ∧
      ((unmap_and_move E private_ w pg force mode).2.mem newpage)._count =
        (w1.mem newpage)._count - 1 := by
  rcases unmap_and_move_ways_out E private_ w pg newpage force mode hnew with h | ⟨w0, rc, h⟩
  · exact absurd h hrc
  · rw [h]
    obtain ⟨w1, -, h2, h3⟩ := unmap_and_move_out_releases w0 pg newpage
      (E.get_new_page w pg private_).2 rc
    exact ⟨w1, h2, h3⟩

/-- When the huge-page size can be migrated and the factory gave
    `unmap_and_move_huge_page` a destination, every way out goes through the
    label `out`. -/
theorem unmap_and_move_huge_page_way_out (E : Env) (private_ : Nat) (w : World)
    (hpage new_hpage : Nat) (force : Bool) (mode : migrate_mode)
    (hnew : (E.get_new_page w hpage private_).1 = some new_hpage)
    (hsup : E.hugepage_migration_support
      (w.log (Event.get_new_page hpage (some new_hpage))) hpage = true) :
    ∃ (w1 : World) (rc : Int), unmap_and_move_huge_page E private_ w hpage force mode =
      (rc, store_result (put_page w1 new_hpage) (E.get_new_page w hpage private_).2 rc
        new_hpage) := by
  unfold unmap_and_move_huge_page
  simp only [hnew, hsup, Bool.not_true, Bool.false_eq_true, if_false]
  exact ⟨_, _, rfl⟩

/-- When the huge-page size can be migrated and the factory gave
    `unmap_and_move_huge_page` a destination, the last thing done to the frames
    is `put_page(new_hpage)`, whatever the result. -/
theorem unmap_and_move_huge_page_releases (E : Env) (private_ : Nat) (w : World)
    (hpage new_hpage : Nat) (force : Bool) (mode : migrate_mode)
    (hnew : (E.get_new_page w hpage private_).1 = some new_hpage)
    (hsup : E.hugepage_migration_support
      (w.log (Event.get_new_page hpage (some new_hpage))) hpage = true) :
    ∃ w1 : World, (unmap_and_move_huge_page E private_ w hpage force mode).2.trace =
        w1.trace ++ [Event.put_page new_hpage] ∧
      ((unmap_and_move_huge_page E private_ w hpage force mode).2.mem new_hpage)._count =
        (w1.mem new_hpage)._count - 1 := by
  obtain ⟨w1, rc, h⟩ := unmap_and_move_huge_page_way_out E private_ w hpage new_hpage force mode
    hnew hsup
  rw [h]
  refine ⟨w1, ?_, ?_⟩
  · show (store_result (put_page w1 new_hpage) _ rc new_hpage).trace = _
    rw [(store_result_fields _ _ _ new_hpage).2.1]
    rfl
  · show ((store_result (put_page w1 new_hpage) _ rc new_hpage).mem new_hpage)._count = _
    rw [(store_result_fields _ _ _ new_hpage).1]
    show (upd _ new_hpage _ new_hpage : page)._count = _
    rw [upd_same]

/-- When the huge-page size cannot be migrated, `unmap_and_move_huge_page`
    returns `-ENOSYS` right after the factory call: a destination the factory
    handed out is neither used nor released. -/
theorem unmap_and_move_huge_page_unsupported_state (E : Env) (private_ : Nat) (w : World)
    (hpage : Nat) (force : Bool) (mode : migrate_mode)
    (hsup : E.hugepage_migration_support
      (w.log (Event.get_new_page hpage (E.get_new_page w hpage private_).1)) hpage = false) :
    unmap_and_move_huge_page E private_ w hpage force mode =
      (- ENOSYS, w.log (Event.get_new_page hpage (E.get_new_page w hpage private_).1)) := by
  simp [unmap_and_move_huge_page, hsup]

/-- Claim C16 at a failing input.  Frame 9 of the example is a huge frame, the
    example machine cannot migrate huge pages, and the factory hands out frame
    109 with the reference of the driver.  `unmap_and_move_huge_page` returns
    `-ENOSYS`, which is not `MIGRATEPAGE_SUCCESS`, and the only thing that
    happened is the factory call: frame 109 still has its reference and no
    `put_page` was done; `migrate_huge_page` then returns `-EIO` after this one
    attempt, with frame 109 still referenced.  On the machine that can migrate
    huge pages the same call ends with `put_page` on frame 109. -/
theorem unmap_and_move_huge_page_enosys_keeps_destination :
    (huge_world.mem 9).huge = true ∧
      (demo_env.get_new_page huge_world 9 0).1 = some 109 ∧
      (unmap_and_move_huge_page demo_env 0 huge_world 9 true MIGRATE_SYNC).1 = - ENOSYS ∧
      (unmap_and_move_huge_page demo_env 0 huge_world 9 true MIGRATE_SYNC).1 ≠
        MIGRATEPAGE_SUCCESS ∧
      (unmap_and_move_huge_page demo_env 0 huge_world 9 true MIGRATE_SYNC).2.trace =
        [Event.get_new_page 9 (some 109)] ∧
      ((unmap_and_move_huge_page demo_env 0 huge_world 9 true MIGRATE_SYNC).2.mem 109)._count =
        (huge_world.mem 109)._count ∧
      (migrate_huge_page demo_env 0 MIGRATE_SYNC huge_world 9).1 = - EIO ∧
      (migrate_huge_page demo_env 0 MIGRATE_SYNC huge_world 9).2.1.trace =
        [Event.get_new_page 9 (some 109)] ∧
      (unmap_and_move_huge_page huge_env 0 huge_world 9 true MIGRATE_SYNC).2.trace.getLast? =
        some (Event.put_page 109) := by
  refine ⟨rfl, rfl, rfl, ?_, rfl, rfl, rfl, rfl, rfl⟩
  have h : (unmap_and_move_huge_page demo_env 0 huge_world 9 true MIGRATE_SYNC).1 = - ENOSYS := rfl
  rw [h]
  decide

/-! ## The attempts of `migrate_huge_page`, one after the other -/

theorem huge_visits_from_append (E : Env) (private_ : Nat) (mode : migrate_mode) (hpage : Nat) :
    ∀ (vs : List visit) (wa wb : World) (v : visit),
      huge_visits_from E private_ mode hpage wa vs wb → v.before = wb →
      huge_visits_from E private_ mode hpage wa (vs ++ [v])
        (unmap_and_move_huge_page E private_ v.before hpage v.force mode).2 := by
  intro vs
  induction vs with
  | nil =>
    intro wa wb v h hv
    simp only [huge_visits_from] at h
    simp only [List.nil_append, huge_visits_from]
    exact ⟨hv.trans h, trivial⟩
  | cons u rest ih =>
    intro wa wb v h hv
    simp only [huge_visits_from] at h
    simp only [List.cons_append, huge_visits_from]
    exact ⟨h.1, ih _ _ v h.2 hv⟩

/-- The loop of `migrate_huge_page` chains its attempts, and it only stops
    after an attempt that returned `-EAGAIN` when that was the tenth. -/
theorem migrate_huge_page_loop_chain (E : Env) (private_ : Nat) (mode : migrate_mode)
    (hpage : Nat) (w0 : World) (fuel : Nat) :
    ∀ (pass : Nat) (rc : Int) (w : World) (vs : List visit),
      fuel + pass = 10 → vs.length = pass →
      huge_visits_from E private_ mode hpage w0 vs w →
      huge_visits_from E private_ mode hpage w0
          (migrate_huge_page_loop E private_ hpage mode fuel pass rc w vs).2.2
          (migrate_huge_page_loop E private_ hpage mode fuel pass rc w vs).2.1 ∧
        (∀ v, (migrate_huge_page_loop E private_ hpage mode fuel pass rc w vs).2.2.getLast? =
            some v → v.rc = - EAGAIN →
          (migrate_huge_page_loop E private_ hpage mode fuel pass rc w vs).2.2.length = 10) := by
  induction fuel with
  | zero =>
    intro pass rc w vs hf hlen hch
    have hdef : migrate_huge_page_loop E private_ hpage mode 0 pass rc w vs = (rc, w, vs) := rfl
    rw [hdef]
    exact ⟨hch, fun _ _ _ => by simp only [hlen]; omega⟩
  | succ fuel ih =>
    intro pass rc w vs hf hlen hch
    have hp : pass < 10 := by omega
    obtain ⟨v, hvdef⟩ : ∃ v : visit, v = visit.mk pass hpage (decide (pass > 2))
        (unmap_and_move_huge_page E private_ w hpage (decide (pass > 2)) mode).1 w := ⟨_, rfl⟩
    have hdef : migrate_huge_page_loop E private_ hpage mode (fuel + 1) pass rc w vs =
        if v.rc = - ENOMEM then
          (v.rc, (unmap_and_move_huge_page E private_ w hpage (decide (pass > 2)) mode).2,
            vs ++ [v])
        else if v.rc = - EAGAIN then
          migrate_huge_page_loop E private_ hpage mode fuel (pass + 1) v.rc
            (unmap_and_move_huge_page E private_ w hpage (decide (pass > 2)) mode).2 (vs ++ [v])
        else if v.rc = MIGRATEPAGE_SUCCESS then
          (v.rc, (unmap_and_move_huge_page E private_ w hpage (decide (pass > 2)) mode).2,
            vs ++ [v])
        else
          (- EIO, (unmap_and_move_huge_page E private_ w hpage (decide (pass > 2)) mode).2,
            vs ++ [v]) := by
      simp only [migrate_huge_page_loop, if_pos hp, hvdef]
    have hch2 : huge_visits_from E private_ mode hpage w0 (vs ++ [v])
        (unmap_and_move_huge_page E private_ w hpage (decide (pass > 2)) mode).2 := by
      have h := huge_visits_from_append E private_ mode hpage vs w0 w v hch (by rw [hvdef])
      rw [hvdef] at h ⊢
      exact h
    have hstop : ∀ res : Int, v.rc ≠ - EAGAIN →
        huge_visits_from E private_ mode hpage w0
            (res, (unmap_and_move_huge_page E private_ w hpage (decide (pass > 2)) mode).2,
              vs ++ [v]).2.2
            (res, (unmap_and_move_huge_page E private_ w hpage (decide (pass > 2)) mode).2,
              vs ++ [v]).2.1 ∧
          (∀ u, (res, (unmap_and_move_huge_page E private_ w hpage (decide (pass > 2)) mode).2,
              vs ++ [v]).2.2.getLast? = some u → u.rc = - EAGAIN →
            (res, (unmap_and_move_huge_page E private_ w hpage (decide (pass > 2)) mode).2,
              vs ++ [v]).2.2.length = 10) := by
      intro res hne
      refine ⟨hch2, fun u hu hrc => ?_⟩
      have huv : u = v := by simpa using hu.symm
      rw [huv] at hrc
      exact absurd hrc hne
    rw [hdef]
    by_cases h1 : v.rc = - ENOMEM
    · rw [if_pos h1]
      exact hstop _ (by rw [h1]; simp [ENOMEM, EAGAIN])
    · rw [if_neg h1]
      by_cases h2 : v.rc = - EAGAIN
      · rw [if_pos h2]
        exact ih (pass + 1) v.rc _ (vs ++ [v]) (by omega) (by simp [hlen]) hch2
      · rw [if_neg h2]
        by_cases h3 : v.rc = MIGRATEPAGE_SUCCESS
        · rw [if_pos h3]
          exact hstop _ h2
        · rw [if_neg h3]
          exact hstop _ h2

theorem huge_visits_from_head (E : Env) (private_ : Nat) (mode : migrate_mode) (hpage : Nat) :
    ∀ (vs : List visit) (wa wb : World), huge_visits_from E private_ mode hpage wa vs wb →
      ∀ v, vs[0]? = some v → v.before = wa := by
  intro vs wa wb h v hv
  cases vs with
  | nil => simp at hv
  | cons u rest =>
    simp only [huge_visits_from] at h
    simp only [List.getElem?_cons_zero, Option.some.injEq] at hv
    rw [← hv]
    exact h.1

theorem huge_visits_from_next (E : Env) (private_ : Nat) (mode : migrate_mode) (hpage : Nat) :
    ∀ (vs : List visit) (wa wb : World), huge_visits_from E private_ mode hpage wa vs wb →
      ∀ i u v, vs[i]? = some u → vs[i + 1]? = some v →
        v.before = (unmap_and_move_huge_page E private_ u.before hpage u.force mode).2 := by
  intro vs
  induction vs with
  | nil => intro wa wb _ i u v hu; simp at hu
  | cons x rest ih =>
    intro wa wb h i u v hu hv
    simp only [huge_visits_from] at h
    simp only [List.getElem?_cons_succ] at hv
    cases i with
    | zero =>
      simp only [List.getElem?_cons_zero, Option.some.injEq] at hu
      rw [← hu]
      exact huge_visits_from_head E private_ mode hpage rest _ wb h.2 v hv
    | succ j =>
      simp only [List.getElem?_cons_succ] at hu
      exact ih _ wb h.2 j u v hu hv

theorem huge_visits_from_last (E : Env) (private_ : Nat) (mode : migrate_mode) (hpage : Nat) :
    ∀ (vs : List visit) (wa wb : World), huge_visits_from E private_ mode hpage wa vs wb →
      ∀ v, vs.getLast? = some v →
        wb = (unmap_and_move_huge_page E private_ v.before hpage v.force mode).2 := by
  intro vs
  induction vs with
  | nil => intro wa wb _ v hv; simp at hv
  | cons x rest ih =>
    intro wa wb h v hv
    simp only [huge_visits_from] at h
    cases rest with
    | nil =>
      simp only [List.getLast?_singleton, Option.some.injEq] at hv
      simp only [huge_visits_from] at h
      rw [← hv]
      exact h.2
    | cons y rest2 =>
      rw [List.getLast?_cons_cons] at hv
      exact ih _ wb h.2 v hv

/-- Claim C9.  `migrate_huge_page` calls `unmap_and_move_huge_page` at least
    once and at most 10 times, attempt number `i` (from 0) with
    `force = (i > 2)`; every attempt but the last returned `-EAGAIN`, and an
    attempt that returned `-EAGAIN` is followed by another one unless it was
    the tenth; it returns 0 if an attempt succeeded, `-ENOMEM` if an attempt
    returned `-ENOMEM`, `-EIO` if an attempt returned anything else than 0,
    `-EAGAIN` and `-ENOMEM` (an unsupported huge-page size makes the attempt
    return `-ENOSYS`, hence `-EIO`), and `-EAGAIN` exactly when all 10
    attempts returned `-EAGAIN`: the value returned is the value of the last
    attempt when that is 0, `-ENOMEM` or `-EAGAIN`, and `-EIO` otherwise.  The
    first attempt starts from the state of the call, every other attempt from
    the state its predecessor left, and the state returned is the one the
    last attempt left. -/
theorem migrate_huge_page_attempts (E : Env) (private_ : Nat) (mode : migrate_mode)
    (w : World) (hpage : Nat) :
    1 ≤ (migrate_huge_page E private_ mode w hpage).2.2.length ∧
    (migrate_huge_page E private_ mode w hpage).2.2.length ≤ 10 ∧
    (∀ i v, (migrate_huge_page E private_ mode w hpage).2.2[i]? = some v →
      v.pass = i ∧ v.pg = hpage ∧ (v.force = true ↔ i > 2) ∧
      v.rc = (unmap_and_move_huge_page E private_ v.before hpage v.force mode).1) ∧
    (∀ i v, (migrate_huge_page E private_ mode w hpage).2.2[i]? = some v →
      i + 1 < (migrate_huge_page E private_ mode w hpage).2.2.length → v.rc = - EAGAIN) ∧
    ((∃ v ∈ (migrate_huge_page E private_ mode w hpage).2.2, v.rc = MIGRATEPAGE_SUCCESS) →
      (migrate_huge_page E private_ mode w hpage).1 = MIGRATEPAGE_SUCCESS) ∧
    ((∃ v ∈ (migrate_huge_page E private_ mode w hpage).2.2, v.rc = - ENOMEM) →
      (migrate_huge_page E private_ mode w hpage).1 = - ENOMEM) ∧
    ((∃ v ∈ (migrate_huge_page E private_ mode w hpage).2.2,
        v.rc ≠ MIGRATEPAGE_SUCCESS ∧ v.rc ≠ - EAGAIN ∧ v.rc ≠ - ENOMEM) →
      (migrate_huge_page E private_ mode w hpage).1 = - EIO) ∧
    ((∃ v ∈ (migrate_huge_page E private_ mode w hpage).2.2,
        E.hugepage_migration_support
          (v.before.log (Event.get_new_page hpage (E.get_new_page v.before hpage private_).1))
          hpage = false) →
      (migrate_huge_page E private_ mode w hpage).1 = - EIO) ∧
    ((migrate_huge_page E private_ mode w hpage).1 = - EAGAIN ↔
      ((migrate_huge_page E private_ mode w hpage).2.2.length = 10 ∧
        ∀ v ∈ (migrate_huge_page E private_ mode w hpage).2.2, v.rc = - EAGAIN)) ∧
    (∀ i v, (migrate_huge_page E private_ mode w hpage).2.2[i]? = some v →
      v.rc = - EAGAIN → i + 1 < 10 →
      i + 1 < (migrate_huge_page E private_ mode w hpage).2.2.length) ∧
    (∀ v, (migrate_huge_page E private_ mode w hpage).2.2.getLast? = some v →
      (migrate_huge_page E private_ mode w hpage).1 =
        if v.rc = MIGRATEPAGE_SUCCESS ∨ v.rc = - ENOMEM ∨ v.rc = - EAGAIN then v.rc
        else - EIO) ∧
    (∀ v, (migrate_huge_page E private_ mode w hpage).2.2[0]? = some v → v.before = w) ∧
    (∀ i u v, (migrate_huge_page E private_ mode w hpage).2.2[i]? = some u →
      (migrate_huge_page E private_ mode w hpage).2.2[i + 1]? = some v →
      v.before = (unmap_and_move_huge_page E private_ u.before hpage u.force mode).2) ∧
    (∀ v, (migrate_huge_page E private_ mode w hpage).2.2.getLast? = some v →
      (migrate_huge_page E private_ mode w hpage).2.1 =
        (unmap_and_move_huge_page E private_ v.before hpage v.force mode).2) := by
  obtain ⟨post, hpos⟩ := migrate_huge_page_loop_post E private_ mode hpage 10 0 0 w []
    (by omega) rfl (fun h => absurd rfl h) (fun v hv => by simp at hv)
    (fun i v hv => by simp at hv)
  obtain ⟨hch, hlast⟩ := migrate_huge_page_loop_chain E private_ mode hpage w 10 0 0 w []
    (by omega) rfl rfl
  have hdef : migrate_huge_page E private_ mode w hpage =
      migrate_huge_page_loop E private_ hpage mode 10 0 0 w [] := rfl
  rw [hdef]
  have hens : (∃ v ∈ (migrate_huge_page_loop E private_ hpage mode 10 0 0 w []).2.2,
      E.hugepage_migration_support
        (v.before.log (Event.get_new_page hpage (E.get_new_page v.before hpage private_).1))
        hpage = false) →
      (migrate_huge_page_loop E private_ hpage mode 10 0 0 w []).1 = - EIO := by
    rintro ⟨v, hv, hsup⟩
    obtain ⟨i, hi⟩ := List.getElem?_of_mem hv
    obtain ⟨-, -, -, hrc⟩ := post.attempt i v hi
    have hens : v.rc = - ENOSYS := by
      rw [hrc]
      exact unmap_and_move_huge_page_unsupported E private_ v.before hpage v.force mode hsup
    apply post.other
    refine ⟨v, hv, ?_, ?_, ?_⟩ <;> rw [hens] <;>
      simp [ENOSYS, MIGRATEPAGE_SUCCESS, EAGAIN, ENOMEM]
  have hnext : ∀ i v, (migrate_huge_page_loop E private_ hpage mode 10 0 0 w []).2.2[i]? =
      some v → v.rc = - EAGAIN → i + 1 < 10 →
      i + 1 < (migrate_huge_page_loop E private_ hpage mode 10 0 0 w []).2.2.length := by
    intro i v hv hrc hi
    obtain ⟨hlt, -⟩ := List.getElem?_eq_some.1 hv
    by_contra hge
    have hil : (migrate_huge_page_loop E private_ hpage mode 10 0 0 w []).2.2.length - 1 = i := by
      omega
    have hl : (migrate_huge_page_loop E private_ hpage mode 10 0 0 w []).2.2.getLast? =
        some v := by
      rw [List.getLast?_eq_getElem?, hil]
      exact hv
    have := hlast v hl hrc
    omega
  have hvalue : ∀ v, (migrate_huge_page_loop E private_ hpage mode 10 0 0 w []).2.2.getLast? =
      some v →
      (migrate_huge_page_loop E private_ hpage mode 10 0 0 w []).1 =
        if v.rc = MIGRATEPAGE_SUCCESS ∨ v.rc = - ENOMEM ∨ v.rc = - EAGAIN then v.rc
        else - EIO := by
    intro v hl
    have hl2 := hl
    rw [List.getLast?_eq_getElem?] at hl2
    have hmem : v ∈ (migrate_huge_page_loop E private_ hpage mode 10 0 0 w []).2.2 :=
      List.getElem?_mem hl2
    by_cases h1 : v.rc = MIGRATEPAGE_SUCCESS
    · rw [if_pos (Or.inl h1), h1]
      exact post.success ⟨v, hmem, h1⟩
    · by_cases h2 : v.rc = - ENOMEM
      · rw [if_pos (Or.inr (Or.inl h2)), h2]
        exact post.oom ⟨v, hmem, h2⟩
      · by_cases h3 : v.rc = - EAGAIN
        · rw [if_pos (Or.inr (Or.inr h3)), h3]
          refine post.retry_iff.2 ⟨hlast v hl h3, fun u hu => ?_⟩
          obtain ⟨j, hj⟩ := List.getElem?_of_mem hu
          obtain ⟨hjl, -⟩ := List.getElem?_eq_some.1 hj
          by_cases hjj : j + 1 <
              (migrate_huge_page_loop E private_ hpage mode 10 0 0 w []).2.2.length
          · exact post.earlier_retry j u hj hjj
          · have hje : (migrate_huge_page_loop E private_ hpage mode 10 0 0 w []).2.2.length - 1 =
                j := by omega
            rw [hje, hj] at hl2
            have huv : u = v := by simpa using hl2
            rw [huv]
            exact h3
        · have hno : ¬(v.rc = MIGRATEPAGE_SUCCESS ∨ v.rc = - ENOMEM ∨ v.rc = - EAGAIN) := by
            rintro (h | h | h)
            · exact h1 h
            · exact h2 h
            · exact h3 h
          rw [if_neg hno]
          exact post.other ⟨v, hmem, h1, h3, h2⟩
  exact ⟨hpos (by omega), post.length_le, post.attempt, post.earlier_retry, post.success,
    post.oom, post.other, hens, post.retry_iff, hnext, hvalue,
    huge_visits_from_head E private_ mode hpage _ _ _ hch,
    huge_visits_from_next E private_ mode hpage _ _ _ hch,
    huge_visits_from_last E private_ mode hpage _ _ _ hch⟩

/-- Witness of claim C9: frame 9 of the example, a huge frame with one
    reference more than the caller's, on the machine that can migrate huge
    pages.  Every attempt returns `-EAGAIN`, so there are 10 attempts, the
    last seven with `force`, and `migrate_huge_page` returns `-EAGAIN`. -/
theorem migrate_huge_page_attempts_witness :
    (migrate_huge_page huge_env 0 MIGRATE_SYNC huge_world 9).1 = - EAGAIN ∧
      (migrate_huge_page huge_env 0 MIGRATE_SYNC huge_world 9).2.2.length = 10 ∧
      (migrate_huge_page huge_env 0 MIGRATE_SYNC huge_world 9).2.2.map
          (fun v => (v.pass, v.force, v.rc)) =
        [(0, false, - EAGAIN), (1, false, - EAGAIN), (2, false, - EAGAIN),
          (3, true, - EAGAIN), (4, true, - EAGAIN), (5, true, - EAGAIN), (6, true, - EAGAIN),
          (7, true, - EAGAIN), (8, true, - EAGAIN), (9, true, - EAGAIN)] := by
  obtain ⟨-, -, -, -, -, -, -, -, hiff, -⟩ :=
    migrate_huge_page_attempts huge_env 0 MIGRATE_SYNC huge_world 9
  exact ⟨rfl, (hiff.1 rfl).1, rfl⟩

end Migrate
